import Mathlib

/-!
# pinba2 MySQL storage engine handler: views, shares, scans

A shallow embedding of `src/mysql_engine/handler.cpp`.

Conventions of the embedding

* Every operation is a function from the state it reads to the state it
  leaves, its return code and the list of calls it made (`pinba_event`), in
  the order the source makes them.
* A result of `none` stands for an execution with no defined result: a failed
  `assert`, or a dereference of a null pointer.
* A C++ exception is an `Except.error`; a `catch` block is the match on it.
* `shared_ptr<pinba_share_t>` is an index into the list `shares` of the
  context; the registry `open_shares` and every handler hold such indices, so
  a change made through one alias is seen through the others.
* A value of type `double` is a `double`: a finite value given by the
  rational it denotes, a signed zero, an infinity or NaN; the division of
  doubles and the conversions to `double` round to nearest, ties to even, as
  IEEE 754 binary64 does.
* Collaborators that live outside handler.cpp (the aggregation engine, the
  comment reader, the report constructors, the counters) are fields of
  `pinba_externals`; `E` is the type of their state.
-/

/-! ## Host constants -/

/-- Status `HA_ERR_END_OF_FILE` of the MySQL handler interface. -/
def HA_ERR_END_OF_FILE : Int := 137

/-- Status `HA_ERR_INTERNAL_ERROR` of the MySQL handler interface. -/
def HA_ERR_INTERNAL_ERROR : Int := 122

/-- Status `HA_WRONG_CREATE_OPTION` of the MySQL handler interface. -/
def HA_WRONG_CREATE_OPTION : Int := 140

/-- Number of values of the C type `unsigned`. -/
def UINT_RANGE : Nat := 2 ^ 32

/-! ## Values of type `double` -/

/-- A value of the type `double` (IEEE 754 binary64): a finite value is given
by the rational it denotes, `finite 0` being the positive zero; the other
values are the negative zero, the two infinities and NaN. -/
inductive double where
  | finite (value : ℚ)
  | negative_zero
  | infinity (negative : Bool)
  | nan
deriving DecidableEq

namespace double

/-- The sign bit of a value. -/
def is_negative : double → Bool
  | finite value => decide (value < 0)
  | negative_zero => true
  | infinity negative => negative
  | nan => false

/-- The zero of a sign. -/
def zero (negative : Bool) : double :=
  if negative then negative_zero else finite 0

/-- Whether `2 ^ e ≤ num / den`, for an integer exponent and a positive
denominator. -/
def pow2_le (e : Int) (num den : Nat) : Bool :=
  match e with
  | .ofNat k => decide (den * 2 ^ k ≤ num)
  | .negSucc k => decide (den ≤ num * 2 ^ (k + 1))

/-- The number of halvings that bring `n` below 2, counted with `fuel` steps
at most. -/
def log2_floor_from : Nat → Nat → Nat
  | 0, _ => 0
  | fuel + 1, n => if n < 2 then 0 else log2_floor_from fuel (n / 2) + 1

/-- The integer part of the binary logarithm of a positive number. -/
def log2_floor (n : Nat) : Nat := log2_floor_from n n

/-- The binary exponent of a positive fraction: the `e` with
`2 ^ e ≤ num / den < 2 ^ (e + 1)`. -/
def exponent (num den : Nat) : Int :=
  let e0 : Int := (log2_floor num : Int) - (log2_floor den : Int)
  if pow2_le e0 num den then e0 else e0 - 1

/-- The integer nearest to a fraction, the even one of the two when it lies
half way. -/
def round_half_even (num den : Nat) : Nat :=
  let n := num / den
  let r := num % den
  if 2 * r < den then n
  else if den < 2 * r then n + 1
  else if n % 2 = 0 then n
  else n + 1

/-- Rounding to nearest, ties to even, of the fraction `num / den` with a
sign, to binary64: 53 bits of precision, least normal exponent -1022 (below
it the spacing stays `2 ^ (-1074)`), overflow to infinity from `2 ^ 1024`
on. -/
def round (negative : Bool) (num den : Nat) : double :=
  if num = 0 then zero negative
  else
    let q : Int := max (exponent num den) (-1022) - 52
    match q with
    | .ofNat k =>
      let n := round_half_even num (den * 2 ^ k)
      if n = 0 then zero negative
      else if 2 ^ 1024 ≤ n * 2 ^ k then infinity negative
      else
        finite (mkRat
          (if negative then -((n * 2 ^ k : Nat) : Int) else ((n * 2 ^ k : Nat) : Int)) 1)
    | .negSucc k =>
      let n := round_half_even (num * 2 ^ (k + 1)) den
      if n = 0 then zero negative
      else finite (mkRat (if negative then -(n : Int) else (n : Int)) (2 ^ (k + 1)))

/-- The conversion `double(n)` of an unsigned integer. -/
def of_uint (n : Nat) : double := round false n 1

/-- The value of type `double` nearest to a rational. -/
def of_rat (value : ℚ) : double := round (decide (value < 0)) value.num.natAbs value.den

/-- The division `a / b` of two values of type `double`. -/
def div (a b : double) : double :=
  match a, b with
  | nan, _ => nan
  | _, nan => nan
  | infinity _, infinity _ => nan
  | infinity negative, b => infinity (xor negative b.is_negative)
  | a, infinity negative => zero (xor a.is_negative negative)
  | a, negative_zero =>
    match a with
    | finite value =>
      if value = 0 then nan else infinity (xor (decide (value < 0)) true)
    | _ => nan
  | negative_zero, finite divisor =>
    if divisor = 0 then nan else zero (xor true (decide (divisor < 0)))
  | finite value, finite divisor =>
    if divisor = 0 then
      if value = 0 then nan else infinity (decide (value < 0))
    else
      round (xor (decide (value < 0)) (decide (divisor < 0)))
        (value.num.natAbs * divisor.den) (value.den * divisor.num.natAbs)

end double

/-! ## Durations, time values and the column sink -/

/-- Modelled from the spec: `duration_t` is declared in pinba/globals.h; a
duration is represented by its length in seconds. -/
structure duration_t where
  seconds : ℚ
deriving DecidableEq

/-- Modelled from the spec: `duration_seconds_as_double` is declared in
pinba/globals.h; it yields the length of the duration in seconds, as the
nearest value of type `double`. -/
def duration_seconds_as_double (d : duration_t) : double := double.of_rat d.seconds

/-- Modelled from the spec: `timeval_t` is declared in pinba/globals.h; a time
value is represented by its length in seconds. -/
structure timeval_t where
  seconds : ℚ
deriving DecidableEq

/-- Modelled from the spec: `timeval_to_double` is declared in
pinba/globals.h; it yields the time value in seconds, as the nearest value of
type `double`. -/
def timeval_to_double (tv : timeval_t) : double := double.of_rat tv.seconds

/-- The argument of one `Field::store` call: an integer-typed expression, a
`double` expression, or a byte string with its length. -/
inductive field_value where
  | num (n : Nat)
  | real (x : double)
  | str (s : String)
deriving DecidableEq

/-- What one pass of a view's field loop does with one column: `stored v` is
`set_notnull(); store(v)`; `left_null` is the percentile column of a row
without histogram, which the loop handles by moving on without
`set_notnull()` or `store()`, so that the field is not marked as holding a
value; `untouched` is a column the loop body does nothing for (not in the
read set, or no case for its index); `aborted` is a
column at which the body has no defined result (a failed `assert`, a null
dereference). -/
inductive field_outcome where
  | stored (v : field_value)
  | left_null
  | untouched
  | aborted
deriving DecidableEq

/-- Whether an outcome is a stored value. -/
def field_outcome.is_stored : field_outcome → Bool
  | .stored _ => true
  | _ => false

/-- Whether an outcome is a value or null for the sink: the column was
produced. -/
def field_outcome.is_emitted : field_outcome → Bool
  | .stored _ => true
  | .left_null => true
  | _ => false

/-- The `TABLE` of the host: `field` is the null-terminated array of fields,
where the field at position i has `field_index` i; `read_set` is the bitmap
of the columns the caller asked for; `comment` is `s->comment.str`, `none`
for a null pointer. -/
structure TABLE where
  n_fields : Nat
  read_set : Nat → Bool
  comment : Option String := none

/-- The `field_index` values met by `for (Field **field = table->field; *field; field++)`. -/
def TABLE.field (table : TABLE) : List Nat := List.range table.n_fields

/-- The host's `bitmap_is_set`. -/
def bitmap_is_set (read_set : Nat → Bool) (field_index : Nat) : Bool := read_set field_index

/-- The columns of the table that are set for reading, in table order. -/
def TABLE.requested (table : TABLE) : List Nat :=
  table.field.filter (fun c => bitmap_is_set table.read_set c)

/-! ## View configuration, reports, snapshots -/

/-- The enumeration `pinba_view_kind`. -/
inductive pinba_view_kind where
  | stats
  | active_reports
  | report_by_request_data
  | report_by_timer_data
  | report_by_packet_data
deriving DecidableEq

/-- The parsed table comment `pinba_view_conf_t` (declared in
mysql_engine/view_conf.h): the members handler.cpp reads. A key descriptor is
represented by a number. -/
structure pinba_view_conf_t where
  kind : pinba_view_kind
  keys : List Nat
  percentiles : List ℚ
deriving DecidableEq

/-- A report object as returned by `create_report_by_*` and handed to the
engine by `add_report`; handler.cpp never looks inside it. -/
structure pinba_report_t where
  handle : Nat
deriving DecidableEq

/-- The values of `rinfo->kind`: the three `REPORT_KIND__*` constants the
row loop tests for, and any other value. -/
inductive report_kind where
  | by_request_data
  | by_timer_data
  | by_packet_data
  | other
deriving DecidableEq

/-- The values of `rinfo->hv_kind`: the two `HISTOGRAM_KIND__*` constants the
percentile lookup tests for, and any other value. -/
inductive histogram_kind where
  | hashtable
  | flat
  | other
deriving DecidableEq

/-- The member `report_info_t` of a report: what handler.cpp reads of it. -/
structure report_info_t where
  kind : report_kind
  n_key_parts : Nat
  time_window : duration_t
  tick_count : Nat
  hv_kind : histogram_kind
  hv_bucket_count : Nat
  hv_bucket_d : duration_t
deriving DecidableEq

/-- The row struct `report_row_data___by_request_t`. -/
structure report_row_data___by_request_t where
  req_count : Nat
  time_total : duration_t
  ru_utime : duration_t
  ru_stime : duration_t
  traffic_kb : Nat
  mem_usage : Nat
deriving DecidableEq

/-- The row struct `report_row_data___by_timer_t`. -/
structure report_row_data___by_timer_t where
  req_count : Nat
  hit_count : Nat
  time_total : duration_t
  ru_utime : duration_t
  ru_stime : duration_t
deriving DecidableEq

/-- The row struct `report_row_data___by_packet_t`. -/
structure report_row_data___by_packet_t where
  req_count : Nat
  timer_count : Nat
  time_total : duration_t
  ru_utime : duration_t
  ru_stime : duration_t
  traffic_kb : Nat
  mem_usage : Nat
deriving DecidableEq

/-- The untyped row memory returned by `get_data(pos)`: the source reads it
through a `reinterpret_cast` chosen by `rinfo->kind`, so the memory is given
by what each of the three casts reads from it. -/
structure row_data_t where
  as_by_request : report_row_data___by_request_t
  as_by_timer : report_row_data___by_timer_t
  as_by_packet : report_row_data___by_packet_t
deriving DecidableEq

/-- Modelled from the spec: `histogram_t`, `flat_histogram_t` and
`get_percentile` are declared in pinba/histogram.h; a histogram is given by
its percentile capability, a function of the bucket count, the bucket width
and the percentile asked for. -/
structure histogram_t where
  get_percentile : Nat → duration_t → ℚ → duration_t

/-- Modelled from the spec: the flat-bucketed histogram, see `histogram_t`. -/
structure flat_histogram_t where
  get_percentile : Nat → duration_t → ℚ → duration_t

/-- The untyped histogram returned non-null by `get_histogram(pos)`: the
source reads it through a `static_cast` chosen by `rinfo->hv_kind`. -/
structure histogram_obj where
  as_hashtable : histogram_t
  as_flat : flat_histogram_t

/-- One position of a prepared snapshot: the key parts `get_key_str(pos)`,
indexed by key part, the row memory `get_data(pos)`, and the histogram
`get_histogram(pos)`, which is `none` for a null pointer. -/
structure snapshot_row_t where
  key : Nat → String
  data : row_data_t
  histogram : Option histogram_obj

/-- The enumeration `report_snapshot_t::prepare_type`. -/
inductive prepare_type where
  | full
  | no_histograms
deriving DecidableEq

/-- Modelled from the spec: `report_snapshot_t` is declared in pinba/report.h.
A snapshot is a finite forward-only sequence of rows; a position is the index
of a row, `pos_first` is 0, `pos_last` is the index past the final row,
`pos_next` adds one, `pos_equal` compares indices, `row_count` is the number
of rows; `prepared` records the type of the last `prepare` call. -/
structure report_snapshot_t where
  rinfo : report_info_t
  rows : List snapshot_row_t
  prepared : Option prepare_type

namespace report_snapshot_t

/-- Modelled from the spec: first position of the cursor. -/
def pos_first (_s : report_snapshot_t) : Nat := 0

/-- Modelled from the spec: terminal position of the cursor. -/
def pos_last (s : report_snapshot_t) : Nat := s.rows.length

/-- Modelled from the spec: the position after `pos`. -/
def pos_next (_s : report_snapshot_t) (pos : Nat) : Nat := pos + 1

/-- Modelled from the spec: equality of positions. -/
def pos_equal (_s : report_snapshot_t) (a b : Nat) : Bool := decide (a = b)

/-- Modelled from the spec: number of rows. -/
def row_count (s : report_snapshot_t) : Nat := s.rows.length

/-- Modelled from the spec: `prepare(ptype)` finalises the snapshot for
reading, with or without the histogram merge. -/
def prepare (s : report_snapshot_t) (ptype : prepare_type) : report_snapshot_t :=
  { s with prepared := some ptype }

end report_snapshot_t

/-! ## Shares, the context and the collaborators -/

/-- The copyable part `pinba_share_data_t` of a share. -/
structure pinba_share_data_t where
  mysql_name : String
  view_conf : Option pinba_view_conf_t
  report_name : String
  report_active : Bool
  report_needs_engine : Bool
deriving DecidableEq

/-- The share `pinba_share_t`: the share data and the report object held
between configuration and activation (`none` is the empty pointer). -/
structure pinba_share_t extends pinba_share_data_t where
  report : Option pinba_report_t
deriving DecidableEq

/-- The constructor `pinba_share_t::pinba_share_t(table_name)`. -/
def pinba_share_t.create (table_name : String) : pinba_share_t :=
  { mysql_name := table_name
    view_conf := none
    report_name := ""
    report_active := false
    report_needs_engine := false
    report := none }

/-- The process-wide counters `pinba_status_variables_t` (declared in
pinba/globals.h): each member is represented by the value `store` receives. -/
structure pinba_status_variables_t where
  uptime : field_value
  udp_poll_total : field_value
  udp_recv_total : field_value
  udp_recv_eagain : field_value
  udp_recv_bytes : field_value
  udp_recv_packets : field_value
  udp_packet_decode_err : field_value
  udp_batch_send_total : field_value
  udp_batch_send_err : field_value
  udp_ru_utime : field_value
  udp_ru_stime : field_value
  repacker_poll_total : field_value
  repacker_recv_total : field_value
  repacker_recv_eagain : field_value
  repacker_recv_packets : field_value
  repacker_packet_validate_err : field_value
  repacker_batch_send_total : field_value
  repacker_batch_send_by_timer : field_value
  repacker_batch_send_by_size : field_value
  repacker_ru_utime : field_value
  repacker_ru_stime : field_value
  coordinator_batches_received : field_value
  coordinator_batch_send_total : field_value
  coordinator_batch_send_err : field_value
  coordinator_control_requests : field_value
  coordinator_ru_utime : field_value
  coordinator_ru_stime : field_value
  dictionary_size : field_value
  dictionary_mem_used : field_value
deriving DecidableEq

/-- The member `report_stats_t` of a report state (declared in
pinba/report.h): the members the active-reports view reads. -/
structure report_stats_t where
  created_tv : timeval_t
  packets_recv_total : Nat
  packets_send_err : Nat
  packets_aggregated : Nat
  packets_dropped_by_bloom : Nat
  packets_dropped_by_filters : Nat
  packets_dropped_by_rfield : Nat
  packets_dropped_by_rtag : Nat
  packets_dropped_by_timertag : Nat
  timers_scanned : Nat
  timers_aggregated : Nat
  timers_skipped_by_filters : Nat
  timers_skipped_by_tags : Nat
  ru_utime : timeval_t
  ru_stime : timeval_t
  last_tick_tv : timeval_t
  last_tick_prepare_d : duration_t
  last_snapshot_merge_d : duration_t
deriving DecidableEq

/-- The member `report_estimates_t` of a report state. -/
structure report_estimates_t where
  row_count : Nat
  mem_used : Nat
deriving DecidableEq

/-- The live report state `report_state_t` returned by `get_report_state`. -/
structure report_state_t where
  id : Nat
  info : report_info_t
  stats : report_stats_t
  estimates : report_estimates_t
deriving DecidableEq

/-- The calls an operation makes, in order: on the registry lock
`P_CTX_->lock`, on the per-report stats lock, on the collaborators, on the
snapshot, and on the fields of the table (the column sink). -/
inductive pinba_event where
  | lock_acquire
  | lock_release
  | stats_lock_acquire (report_name : String)
  | stats_lock_release (report_name : String)
  | collect_status_variables
  | get_report_state (report_name : String)
  | get_report_snapshot (report_name : String)
  | add_report (report : pinba_report_t)
  | delete_report (report_name : String)
  | prepare (ptype : prepare_type)
  | get_histogram (pos : Nat)
  | get_percentile (pos : Nat) (percentile : ℚ)
  | set_notnull (field_index : Nat)
  | store (field_index : Nat) (value : field_value)
deriving DecidableEq

/-- The collaborators of handler.cpp that are defined elsewhere, over their
state `E`: the comment reader `pinba_view_conf_parse`, the report
constructors, the name table `pinba_view_kind::enum_as_str_ref`, the counter
source, the clock, and the engine `P_E_`. An
`Except.error` is a thrown exception; for `add_report` and `delete_report`
the `Option` is the returned `pinba_error_t` (`none` is no error); for
`get_report_state` and `get_report_snapshot` `none` is a thrown exception. -/
structure pinba_externals (E : Type) where
  pinba_view_conf_parse : String → String → Except String pinba_view_conf_t
  create_report_by_packet : pinba_view_conf_t → Except String pinba_report_t
  create_report_by_request : pinba_view_conf_t → Except String pinba_report_t
  create_report_by_timer : pinba_view_conf_t → Except String pinba_report_t
  enum_as_str_ref : pinba_view_kind → String
  pinba_collect_status_variables : E → pinba_status_variables_t
  clock_monotonic_now : E → timeval_t
  add_report : E → pinba_report_t → E × Option String
  delete_report : E → String → E × Option String
  get_report_state : E → String → E × Option report_state_t
  get_report_snapshot : E → String → E × Option report_snapshot_t

/-- The context `P_CTX_` together with the state of the collaborators:
`shares` holds every share object ever made (a `pinba_share_ptr` is an index
into it), `open_shares` is the registry in iteration order, from table name
to share. -/
structure pinba_mysql_ctx_t (E : Type) where
  shares : List pinba_share_t
  open_shares : List (String × Nat)
  engine : E

/-- The share a `pinba_share_ptr` points to; `none` for a null or dangling
pointer. -/
def pinba_mysql_ctx_t.share_at {E : Type} (ctx : pinba_mysql_ctx_t E) (p : Option Nat) :
    Option pinba_share_t :=
  match p with
  | none => none
  | some i => ctx.shares[i]?

/-! ## The field loop shared by the three views -/

/-- The field calls a column receives for an outcome: `set_notnull` and
`store` for a stored value, nothing otherwise. -/
def field_calls (field_index : Nat) : field_outcome → List pinba_event
  | .stored v => [.set_notnull field_index, .store field_index v]
  | .left_null => []
  | .untouched => []
  | .aborted => []

/-- The macro `STORE_FIELD(N, value)` inside a `switch`: the outcome of the
case that matches. -/
def STORE_FIELD (value : field_value) : field_outcome := .stored value

/-- What the loop body did for one column: the column, its outcome, and the
calls made on the snapshot for it before the field calls. -/
structure field_step where
  field_index : Nat
  outcome : field_outcome
  reads : List pinba_event
deriving DecidableEq

/-- The loop `for (Field **field = table->field; *field; field++)` with the
test `if (!bitmap_is_set(table->read_set, field_index)) continue;`: one step
per column of the table, in table order, for a loop body `body`. -/
def field_loop (table : TABLE) (body : Nat → field_outcome × List pinba_event) :
    List field_step :=
  table.field.map (fun field_index =>
    if bitmap_is_set table.read_set field_index then
      { field_index := field_index
        outcome := (body field_index).1
        reads := (body field_index).2 }
    else
      { field_index := field_index, outcome := .untouched, reads := [] })

/-- The columns a pass of the field loop produced for the sink, as a value or
as null, in table order. -/
def emitted_columns (steps : List field_step) : List Nat :=
  (steps.filter (fun r => r.outcome.is_emitted)).map field_step.field_index

/-- The calls a pass of the field loop made, in order. -/
def row_events (steps : List field_step) : List pinba_event :=
  steps.flatMap (fun r => r.reads ++ field_calls r.field_index r.outcome)

/-- Whether some column of the pass has no defined result. -/
def row_aborted (steps : List field_step) : Bool :=
  steps.any (fun r => decide (r.outcome = .aborted))

/-! ## The stats view -/

/-- The view `pinba_view___stats_t`: `vars_` is `none` for the empty
pointer. -/
structure pinba_view___stats_t where
  vars_ : Option pinba_status_variables_t
deriving DecidableEq

namespace pinba_view___stats_t

/-- The body of `rnd_init`: collect the counters, return 0. -/
def rnd_init {E : Type} (X : pinba_externals E) (ctx : pinba_mysql_ctx_t E)
    (_self : pinba_view___stats_t) :
    Int × pinba_view___stats_t × List pinba_event :=
  (0, { vars_ := some (X.pinba_collect_status_variables ctx.engine) },
    [.collect_status_variables])

/-- The body of `rnd_end`. -/
def rnd_end (_self : pinba_view___stats_t) : Int × pinba_view___stats_t :=
  (0, { vars_ := none })

/-- The `switch (field_index)` of `rnd_next`. -/
def store_switch (vars : pinba_status_variables_t) (field_index : Nat) : field_outcome :=
  match field_index with
  | 0 => STORE_FIELD vars.uptime
  | 1 => STORE_FIELD vars.udp_poll_total
  | 2 => STORE_FIELD vars.udp_recv_total
  | 3 => STORE_FIELD vars.udp_recv_eagain
  | 4 => STORE_FIELD vars.udp_recv_bytes
  | 5 => STORE_FIELD vars.udp_recv_packets
  | 6 => STORE_FIELD vars.udp_packet_decode_err
  | 7 => STORE_FIELD vars.udp_batch_send_total
  | 8 => STORE_FIELD vars.udp_batch_send_err
  | 9 => STORE_FIELD vars.udp_ru_utime
  | 10 => STORE_FIELD vars.udp_ru_stime
  | 11 => STORE_FIELD vars.repacker_poll_total
  | 12 => STORE_FIELD vars.repacker_recv_total
  | 13 => STORE_FIELD vars.repacker_recv_eagain
  | 14 => STORE_FIELD vars.repacker_recv_packets
  | 15 => STORE_FIELD vars.repacker_packet_validate_err
  | 16 => STORE_FIELD vars.repacker_batch_send_total
  | 17 => STORE_FIELD vars.repacker_batch_send_by_timer
  | 18 => STORE_FIELD vars.repacker_batch_send_by_size
  | 19 => STORE_FIELD vars.repacker_ru_utime
  | 20 => STORE_FIELD vars.repacker_ru_stime
  | 21 => STORE_FIELD vars.coordinator_batches_received
  | 22 => STORE_FIELD vars.coordinator_batch_send_total
  | 23 => STORE_FIELD vars.coordinator_batch_send_err
  | 24 => STORE_FIELD vars.coordinator_control_requests
  | 25 => STORE_FIELD vars.coordinator_ru_utime
  | 26 => STORE_FIELD vars.coordinator_ru_stime
  | 27 => STORE_FIELD vars.dictionary_size
  | 28 => STORE_FIELD vars.dictionary_mem_used
  | _ => .untouched

/-- The body of `rnd_next`: end of file when `vars_` is empty; otherwise one
row from the counters, and `vars_` is reset by the deferred block. -/
def rnd_next (self : pinba_view___stats_t) (table : TABLE) :
    Int × pinba_view___stats_t × List field_step :=
  match self.vars_ with
  | none => (HA_ERR_END_OF_FILE, self, [])
  | some vars =>
    (0, { vars_ := none }, field_loop table (fun field_index => (store_switch vars field_index, [])))

end pinba_view___stats_t

/-! ## The report snapshot view -/

/-- The view `pinba_view___report_snapshot_t`: the snapshot pointer, the
cursor, and the copy of the share data. -/
structure pinba_view___report_snapshot_t where
  snapshot_ : Option report_snapshot_t
  pos_ : Nat
  share_data_ : Option pinba_share_data_t

namespace pinba_view___report_snapshot_t

/-- The constant `n_data_fields___by_request`. -/
def n_data_fields___by_request : Nat := 11

/-- The constant `n_data_fields___by_timer`. -/
def n_data_fields___by_timer : Nat := 10

/-- The constant `n_data_fields___by_packet`. -/
def n_data_fields___by_packet : Nat := 7

/-- The `switch (view_conf->kind)` of the `need_percentiles` lambda in
`rnd_init`: the pair `(percentile_field_min, percentile_field_max)`, computed
in `unsigned`; `none` where the source asserts. -/
def percentile_field_range (view_conf : pinba_view_conf_t) : Option (Nat × Nat) :=
  match view_conf.kind with
  | .stats => none
  | .active_reports => none
  | .report_by_request_data =>
    let percentile_field_min := (view_conf.keys.length + n_data_fields___by_request) % UINT_RANGE
    let percentile_field_max := (percentile_field_min + view_conf.percentiles.length) % UINT_RANGE
    some (percentile_field_min, percentile_field_max)
  | .report_by_timer_data =>
    let percentile_field_min := (view_conf.keys.length + n_data_fields___by_timer) % UINT_RANGE
    let percentile_field_max := (percentile_field_min + view_conf.percentiles.length) % UINT_RANGE
    some (percentile_field_min, percentile_field_max)
  | .report_by_packet_data =>
    let percentile_field_min := (view_conf.keys.length + n_data_fields___by_packet) % UINT_RANGE
    let percentile_field_max := (percentile_field_min + view_conf.percentiles.length) % UINT_RANGE
    some (percentile_field_min, percentile_field_max)

/-- The `need_percentiles` lambda of `rnd_init`: after the range is computed,
the loop over the fields returns true at the first field that is set for
reading and lies in the range, and false when there is none. -/
def need_percentiles (view_conf : pinba_view_conf_t) (table : TABLE) : Option Bool :=
  match percentile_field_range view_conf with
  | none => none
  | some (percentile_field_min, percentile_field_max) =>
    some (table.field.any (fun field_index =>
      bitmap_is_set table.read_set field_index &&
        (decide (field_index ≥ percentile_field_min) &&
          decide (field_index < percentile_field_max))))

/-- The body of `rnd_init`, for the handler's share pointer `share_` and
table. The result is the return code, the view, the context and the calls
made. -/
def rnd_init {E : Type} (X : pinba_externals E) (ctx : pinba_mysql_ctx_t E)
    (share_ : Option Nat) (table : TABLE) (self : pinba_view___report_snapshot_t) :
    Option (Int × pinba_view___report_snapshot_t × pinba_mysql_ctx_t E × List pinba_event) :=
  if self.snapshot_.isSome then
    some (0, self, ctx, [])
  else
    match ctx.share_at share_ with
    | none => none
    | some share =>
      let share_data : pinba_share_data_t := share.topinba_share_data_t
      let fetched := X.get_report_snapshot ctx.engine share_data.report_name
      let ctx1 : pinba_mysql_ctx_t E := { ctx with engine := fetched.1 }
      let calls : List pinba_event :=
        [.lock_acquire, .lock_release, .get_report_snapshot share_data.report_name]
      match fetched.2 with
      | none =>
        some (HA_ERR_INTERNAL_ERROR,
          { self with share_data_ := some share_data }, ctx1, calls)
      | some snapshot =>
        match share_data.view_conf with
        | none => none
        | some view_conf =>
          match need_percentiles view_conf table with
          | none => none
          | some np =>
            let ptype := if np then prepare_type.full else prepare_type.no_histograms
            let prepared := snapshot.prepare ptype
            some (0,
              { snapshot_ := some prepared
                pos_ := prepared.pos_first
                share_data_ := some share_data },
              ctx1, calls ++ [.prepare ptype])

/-- The body of `rnd_end`. -/
def rnd_end (self : pinba_view___report_snapshot_t) : Int × pinba_view___report_snapshot_t :=
  (0, { self with share_data_ := none, snapshot_ := none })

/-- The `switch (findex)` for a by-request row. -/
def data_switch___by_request (rinfo : report_info_t) (row : report_row_data___by_request_t)
    (findex : Nat) : field_outcome :=
  match findex with
  | 0 => STORE_FIELD (.num row.req_count)
  | 1 => STORE_FIELD (.real (double.div (double.of_uint row.req_count)
      (duration_seconds_as_double rinfo.time_window)))
  | 2 => STORE_FIELD (.real (duration_seconds_as_double row.time_total))
  | 3 => STORE_FIELD (.real (double.div (duration_seconds_as_double row.time_total)
      (duration_seconds_as_double rinfo.time_window)))
  | 4 => STORE_FIELD (.real (duration_seconds_as_double row.ru_utime))
  | 5 => STORE_FIELD (.real (double.div (duration_seconds_as_double row.ru_utime)
      (duration_seconds_as_double rinfo.time_window)))
  | 6 => STORE_FIELD (.real (duration_seconds_as_double row.ru_stime))
  | 7 => STORE_FIELD (.real (double.div (duration_seconds_as_double row.ru_stime)
      (duration_seconds_as_double rinfo.time_window)))
  | 8 => STORE_FIELD (.num row.traffic_kb)
  | 9 => STORE_FIELD (.real (double.div (double.of_uint row.traffic_kb)
      (duration_seconds_as_double rinfo.time_window)))
  | 10 => STORE_FIELD (.num row.mem_usage)
  | _ => .untouched

/-- The `switch (findex)` for a by-timer row. -/
def data_switch___by_timer (rinfo : report_info_t) (row : report_row_data___by_timer_t)
    (findex : Nat) : field_outcome :=
  match findex with
  | 0 => STORE_FIELD (.num row.req_count)
  | 1 => STORE_FIELD (.real (double.div (double.of_uint row.req_count)
      (duration_seconds_as_double rinfo.time_window)))
  | 2 => STORE_FIELD (.num row.hit_count)
  | 3 => STORE_FIELD (.real (double.div (double.of_uint row.hit_count)
      (duration_seconds_as_double rinfo.time_window)))
  | 4 => STORE_FIELD (.real (duration_seconds_as_double row.time_total))
  | 5 => STORE_FIELD (.real (double.div (duration_seconds_as_double row.time_total)
      (duration_seconds_as_double rinfo.time_window)))
  | 6 => STORE_FIELD (.real (duration_seconds_as_double row.ru_utime))
  | 7 => STORE_FIELD (.real (double.div (duration_seconds_as_double row.ru_utime)
      (duration_seconds_as_double rinfo.time_window)))
  | 8 => STORE_FIELD (.real (duration_seconds_as_double row.ru_stime))
  | 9 => STORE_FIELD (.real (double.div (duration_seconds_as_double row.ru_stime)
      (duration_seconds_as_double rinfo.time_window)))
  | _ => .untouched

/-- The `switch (findex)` for a by-packet row. -/
def data_switch___by_packet (row : report_row_data___by_packet_t) (findex : Nat) :
    field_outcome :=
  match findex with
  | 0 => STORE_FIELD (.num row.req_count)
  | 1 => STORE_FIELD (.num row.timer_count)
  | 2 => STORE_FIELD (.real (duration_seconds_as_double row.time_total))
  | 3 => STORE_FIELD (.real (duration_seconds_as_double row.ru_utime))
  | 4 => STORE_FIELD (.real (duration_seconds_as_double row.ru_stime))
  | 5 => STORE_FIELD (.num row.traffic_kb)
  | 6 => STORE_FIELD (.num row.mem_usage)
  | _ => .untouched

/-- The `percentile_d` lambda of `rnd_next`: the percentile of the histogram
read through the cast `rinfo->hv_kind` selects; `none` where the source
asserts. -/
def percentile_d (rinfo : report_info_t) (histogram : histogram_obj) (percentile : ℚ) :
    Option duration_t :=
  match rinfo.hv_kind with
  | .hashtable =>
    some (histogram.as_hashtable.get_percentile rinfo.hv_bucket_count rinfo.hv_bucket_d percentile)
  | .flat =>
    some (histogram.as_flat.get_percentile rinfo.hv_bucket_count rinfo.hv_bucket_d percentile)
  | .other => none

/-- The percentile part of the loop body of `rnd_next`, entered with `findex`
already reduced by the key and data field counts. -/
def percentile_fields (rinfo : report_info_t) (share_data_ : Option pinba_share_data_t)
    (row : snapshot_row_t) (pos_ : Nat) (findex : Nat) : field_outcome × List pinba_event :=
  match share_data_.bind (fun d => d.view_conf) with
  | none => (.aborted, [])
  | some view_conf =>
    let percentiles := view_conf.percentiles
    let n_percentile_fields := percentiles.length % UINT_RANGE
    if h : findex < n_percentile_fields then
      let percentile := percentiles.get ⟨findex, Nat.lt_of_lt_of_le h (Nat.mod_le _ _)⟩
      match row.histogram with
      | none => (.left_null, [.get_histogram pos_])
      | some histogram =>
        match percentile_d rinfo histogram percentile with
        | none => (.aborted, [.get_histogram pos_])
        | some d =>
          (STORE_FIELD (.real (duration_seconds_as_double d)),
            [.get_histogram pos_, .get_percentile pos_ percentile])
    else (.untouched, [])

/-- The loop body of `rnd_next` for a field that is set for reading: key
fields first, then the row data fields of the report kind, then the
percentile fields. -/
def rnd_next_field (rinfo : report_info_t) (share_data_ : Option pinba_share_data_t)
    (row : snapshot_row_t) (pos_ : Nat) (field_index : Nat) : field_outcome × List pinba_event :=
  let n_key_fields := rinfo.n_key_parts
  if field_index < n_key_fields then
    (.stored (.str (row.key field_index)), [])
  else
    let findex := field_index - n_key_fields
    match rinfo.kind with
    | .by_request_data =>
      if findex < n_data_fields___by_request then
        (data_switch___by_request rinfo row.data.as_by_request findex, [])
      else
        percentile_fields rinfo share_data_ row pos_ (findex - n_data_fields___by_request)
    | .by_timer_data =>
      if findex < n_data_fields___by_timer then
        (data_switch___by_timer rinfo row.data.as_by_timer findex, [])
      else
        percentile_fields rinfo share_data_ row pos_ (findex - n_data_fields___by_timer)
    | .by_packet_data =>
      if findex < n_data_fields___by_packet then
        (data_switch___by_packet row.data.as_by_packet findex, [])
      else
        percentile_fields rinfo share_data_ row pos_ (findex - n_data_fields___by_packet)
    | .other =>
      percentile_fields rinfo share_data_ row pos_ findex

/-- The body of `rnd_next`: end of file when the cursor equals the last
position; otherwise the field loop over the row at the cursor, after which
the deferred block advances the cursor. The result is the return code, the
view, and the steps of the field loop. -/
def rnd_next (self : pinba_view___report_snapshot_t) (table : TABLE) :
    Option (Int × pinba_view___report_snapshot_t × List field_step) :=
  match self.snapshot_ with
  | none => none
  | some snapshot =>
    if snapshot.pos_equal self.pos_ snapshot.pos_last then
      some (HA_ERR_END_OF_FILE, self, [])
    else
      match snapshot.rows[self.pos_]? with
      | none => none
      | some row =>
        let steps := field_loop table
          (rnd_next_field snapshot.rinfo self.share_data_ row self.pos_)
        if row_aborted steps then none
        else some (0, { self with pos_ := snapshot.pos_next self.pos_ }, steps)

end pinba_view___report_snapshot_t

/-! ## The active reports view -/

/-- The row `view_row_t` of the active reports view. -/
structure view_row_t where
  share_data : pinba_share_data_t
  report_state : Option report_state_t
deriving DecidableEq

/-- The view `pinba_view___active_reports_t`: the rows and the iterator into
them, as an index. -/
structure pinba_view___active_reports_t where
  data_ : List view_row_t
  pos_ : Nat
deriving DecidableEq

namespace pinba_view___active_reports_t

/-- The first lambda of `rnd_init`, run under the registry lock: one row per
share of the registry, in iteration order, that needs the engine and has its
report active. -/
def collect_rows (shares : List pinba_share_t) : List (String × Nat) → Option (List view_row_t)
  | [] => some []
  | share_pair :: rest =>
    match shares[share_pair.2]? with
    | none => none
    | some share =>
      match collect_rows shares rest with
      | none => none
      | some tail =>
        if !share.report_needs_engine then some tail
        else if !share.report_active then some tail
        else some ({ share_data := share.topinba_share_data_t, report_state := none } :: tail)

/-- The second loop of `rnd_init`, run without the lock: fetch the state of
every copied row; a row whose fetch throws is skipped. The result is the
engine state, the rows kept, and the calls made. -/
def fetch_states {E : Type} (X : pinba_externals E) :
    E → List view_row_t → E × List view_row_t × List pinba_event
  | e, [] => (e, [], [])
  | e, row :: rest =>
    let fetched := X.get_report_state e row.share_data.report_name
    let tail := fetch_states X fetched.1 rest
    match fetched.2 with
    | some rstate =>
      (tail.1, { row with report_state := some rstate } :: tail.2.1,
        .get_report_state row.share_data.report_name :: tail.2.2)
    | none =>
      (tail.1, tail.2.1, .get_report_state row.share_data.report_name :: tail.2.2)

/-- The body of `rnd_init`. -/
def rnd_init {E : Type} (X : pinba_externals E) (ctx : pinba_mysql_ctx_t E)
    (self : pinba_view___active_reports_t) :
    Option (Int × pinba_view___active_reports_t × pinba_mysql_ctx_t E × List pinba_event) :=
  if !self.data_.isEmpty then
    some (0, self, ctx, [])
  else
    match collect_rows ctx.shares ctx.open_shares with
    | none => none
    | some tmp_data =>
      let fetched := fetch_states X ctx.engine tmp_data
      some (0, { data_ := fetched.2.1, pos_ := 0 }, { ctx with engine := fetched.1 },
        [.lock_acquire, .lock_release] ++ fetched.2.2)

/-- The body of `rnd_end`. -/
def rnd_end (self : pinba_view___active_reports_t) : Int × pinba_view___active_reports_t :=
  (0, { self with data_ := [] })

/-- The `switch (field_index)` of `rnd_next`, for the share data copy, the
report state of the row and the clock reading. -/
def store_switch {E : Type} (X : pinba_externals E) (now : timeval_t)
    (sdata : pinba_share_data_t) (rstate : report_state_t) (field_index : Nat) : field_outcome :=
  match field_index with
  | 0 => .stored (.num rstate.id)
  | 1 => .stored (.str sdata.mysql_name)
  | 2 => .stored (.str sdata.report_name)
  | 3 =>
    .stored (.str (match sdata.view_conf with
      | some view_conf => X.enum_as_str_ref view_conf.kind
      | none => "!! <table comment parse error (select from it, to see the error)>"))
  | 4 => .stored (.real (timeval_to_double
      { seconds := now.seconds - rstate.stats.created_tv.seconds }))
  | 5 => STORE_FIELD (.real (duration_seconds_as_double rstate.info.time_window))
  | 6 => STORE_FIELD (.num rstate.info.tick_count)
  | 7 => STORE_FIELD (.num rstate.estimates.row_count)
  | 8 => STORE_FIELD (.num rstate.estimates.mem_used)
  | 9 => STORE_FIELD (.num rstate.stats.packets_recv_total)
  | 10 => STORE_FIELD (.num rstate.stats.packets_send_err)
  | 11 => STORE_FIELD (.num rstate.stats.packets_aggregated)
  | 12 => STORE_FIELD (.num rstate.stats.packets_dropped_by_bloom)
  | 13 => STORE_FIELD (.num rstate.stats.packets_dropped_by_filters)
  | 14 => STORE_FIELD (.num rstate.stats.packets_dropped_by_rfield)
  | 15 => STORE_FIELD (.num rstate.stats.packets_dropped_by_rtag)
  | 16 => STORE_FIELD (.num rstate.stats.packets_dropped_by_timertag)
  | 17 => STORE_FIELD (.num rstate.stats.timers_scanned)
  | 18 => STORE_FIELD (.num rstate.stats.timers_aggregated)
  | 19 => STORE_FIELD (.num rstate.stats.timers_skipped_by_filters)
  | 20 => STORE_FIELD (.num rstate.stats.timers_skipped_by_tags)
  | 21 => STORE_FIELD (.real (timeval_to_double rstate.stats.ru_utime))
  | 22 => STORE_FIELD (.real (timeval_to_double rstate.stats.ru_stime))
  | 23 => STORE_FIELD (.real (timeval_to_double rstate.stats.last_tick_tv))
  | 24 => STORE_FIELD (.real (duration_seconds_as_double rstate.stats.last_tick_prepare_d))
  | 25 => STORE_FIELD (.real (duration_seconds_as_double rstate.stats.last_snapshot_merge_d))
  | _ => .untouched

/-- The body of `rnd_next`: end of file when the iterator is at the end;
otherwise the field loop over the row at the iterator, under the stats lock
of its report, after which the deferred block advances the iterator. -/
def rnd_next {E : Type} (X : pinba_externals E) (ctx : pinba_mysql_ctx_t E)
    (self : pinba_view___active_reports_t) (table : TABLE) :
    Option (Int × pinba_view___active_reports_t × List field_step) :=
  if self.pos_ = self.data_.length then
    some (HA_ERR_END_OF_FILE, self, [])
  else
    match self.data_[self.pos_]? with
    | none => none
    | some row =>
      match row.report_state with
      | none => none
      | some rstate =>
        some (0, { self with pos_ := self.pos_ + 1 },
          field_loop table (fun field_index =>
            (store_switch X (X.clock_monotonic_now ctx.engine) row.share_data rstate field_index,
              [])))

end pinba_view___active_reports_t

/-! ## Views, shares and the handler -/

/-- A view object: one of the three implementations of `pinba_view_t`. -/
inductive pinba_view_t where
  | stats (v : pinba_view___stats_t)
  | active_reports (v : pinba_view___active_reports_t)
  | report_snapshot (v : pinba_view___report_snapshot_t)

/-- The function `pinba_view_create`: a fresh view for the kind. -/
def pinba_view_create (vcf : pinba_view_conf_t) : pinba_view_t :=
  match vcf.kind with
  | .stats => .stats { vars_ := none }
  | .active_reports => .active_reports { data_ := [], pos_ := 0 }
  | .report_by_request_data => .report_snapshot { snapshot_ := none, pos_ := 0, share_data_ := none }
  | .report_by_timer_data => .report_snapshot { snapshot_ := none, pos_ := 0, share_data_ := none }
  | .report_by_packet_data => .report_snapshot { snapshot_ := none, pos_ := 0, share_data_ := none }

/-- The function `pinba_view_report_create`: the empty pointer for the two
virtual kinds, the constructed report for the three report kinds. -/
def pinba_view_report_create {E : Type} (X : pinba_externals E) (vcf : pinba_view_conf_t) :
    Except String (Option pinba_report_t) :=
  match vcf.kind with
  | .stats => .ok none
  | .active_reports => .ok none
  | .report_by_packet_data =>
    match X.create_report_by_packet vcf with
    | .ok r => .ok (some r)
    | .error e => .error e
  | .report_by_request_data =>
    match X.create_report_by_request vcf with
    | .ok r => .ok (some r)
    | .error e => .error e
  | .report_by_timer_data =>
    match X.create_report_by_timer vcf with
    | .ok r => .ok (some r)
    | .error e => .error e

/-- The function `share_init_with_table_comment_locked`: the share it leaves
and whether it returned (`Except.ok`) or threw; `none` when one of its three
asserts fails. -/
def share_init_with_table_comment_locked {E : Type} (X : pinba_externals E)
    (share : pinba_share_t) (table_comment : String) :
    Option (pinba_share_t × Except String Unit) :=
  if share.view_conf.isSome then none
  else if share.report.isSome then none
  else if share.report_active then none
  else
    match X.pinba_view_conf_parse share.mysql_name table_comment with
    | .error e => some (share, .error e)
    | .ok view_conf =>
      let share1 : pinba_share_t := { share with view_conf := some view_conf }
      match pinba_view_report_create X view_conf with
      | .error e => some (share1, .error e)
      | .ok report =>
        let share2 : pinba_share_t := { share1 with report := report }
        if share2.report.isSome then
          some ({ share2 with
            report_name := share2.mysql_name
            report_active := false
            report_needs_engine := true }, .ok ())
        else
          some ({ share2 with
            report_name := "<virtual table: " ++ X.enum_as_str_ref view_conf.kind ++ ">"
            report_active := true
            report_needs_engine := false }, .ok ())

/-- The function `pinba_share_get_or_create_locked`: the share registered
under the table name, or else a new share made by the constructor and
registered under its name, at the end of the iteration order. The result is
the context and the share pointer. -/
def pinba_share_get_or_create_locked {E : Type} (ctx : pinba_mysql_ctx_t E)
    (table_name : String) : pinba_mysql_ctx_t E × Nat :=
  match ctx.open_shares.lookup table_name with
  | some share => (ctx, share)
  | none =>
    ({ ctx with
        shares := ctx.shares ++ [pinba_share_t.create table_name]
        open_shares := ctx.open_shares ++ [(table_name, ctx.shares.length)] },
      ctx.shares.length)

/-- The call `open_shares.erase(it)` for the entry of a table name. -/
def open_shares_erase (open_shares : List (String × Nat)) (table_name : String) :
    List (String × Nat) :=
  open_shares.filter (fun share_pair => !(share_pair.1 == table_name))

/-- The call `open_shares.emplace(name, share)`: no effect when the name is
registered already, a new entry otherwise. -/
def open_shares_emplace (open_shares : List (String × Nat)) (table_name : String)
    (share : Nat) : List (String × Nat) :=
  match open_shares.lookup table_name with
  | some _ => open_shares
  | none => open_shares ++ [(table_name, share)]

/-- The handler `pinba_handler_t`: its share pointer, the host's table, and
its view (`none` is the empty pointer). -/
structure pinba_handler_t where
  share_ : Option Nat
  table : TABLE
  pinba_view_ : Option pinba_view_t

namespace pinba_view_t

/-- The virtual call `rnd_init` on a view. -/
def rnd_init {E : Type} (X : pinba_externals E) (ctx : pinba_mysql_ctx_t E)
    (share_ : Option Nat) (table : TABLE) (view : pinba_view_t) :
    Option (Int × pinba_view_t × pinba_mysql_ctx_t E × List pinba_event) :=
  match view with
  | .stats v =>
    let r := pinba_view___stats_t.rnd_init X ctx v
    some (r.1, .stats r.2.1, ctx, r.2.2)
  | .active_reports v =>
    match pinba_view___active_reports_t.rnd_init X ctx v with
    | none => none
    | some r => some (r.1, .active_reports r.2.1, r.2.2.1, r.2.2.2)
  | .report_snapshot v =>
    match pinba_view___report_snapshot_t.rnd_init X ctx share_ table v with
    | none => none
    | some r => some (r.1, .report_snapshot r.2.1, r.2.2.1, r.2.2.2)

/-- The virtual call `rnd_end` on a view. -/
def rnd_end (view : pinba_view_t) : Int × pinba_view_t :=
  match view with
  | .stats v => ((pinba_view___stats_t.rnd_end v).1, .stats (pinba_view___stats_t.rnd_end v).2)
  | .active_reports v =>
    ((pinba_view___active_reports_t.rnd_end v).1,
      .active_reports (pinba_view___active_reports_t.rnd_end v).2)
  | .report_snapshot v =>
    ((pinba_view___report_snapshot_t.rnd_end v).1,
      .report_snapshot (pinba_view___report_snapshot_t.rnd_end v).2)

/-- The virtual call `rnd_next` on a view: the return code, the view, and the
calls made. -/
def rnd_next {E : Type} (X : pinba_externals E) (ctx : pinba_mysql_ctx_t E)
    (table : TABLE) (view : pinba_view_t) : Option (Int × pinba_view_t × List pinba_event) :=
  match view with
  | .stats v =>
    let r := pinba_view___stats_t.rnd_next v table
    some (r.1, .stats r.2.1, row_events r.2.2)
  | .active_reports v =>
    match pinba_view___active_reports_t.rnd_next X ctx v table with
    | none => none
    | some r =>
      some (r.1, .active_reports r.2.1,
        if r.1 = 0 then
          (match v.data_[v.pos_]? with
           | some row =>
             [.stats_lock_acquire row.share_data.report_name] ++ row_events r.2.2 ++
               [.stats_lock_release row.share_data.report_name]
           | none => row_events r.2.2)
        else [])
  | .report_snapshot v =>
    match pinba_view___report_snapshot_t.rnd_next v table with
    | none => none
    | some r => some (r.1, .report_snapshot r.2.1, row_events r.2.2)

end pinba_view_t

namespace pinba_handler_t

/-- The method `pinba_handler_t::rnd_init`: under the registry lock, a share
that needs the engine and is not active has its report added to the engine
(`none` when `assert(share_->report)` fails); if the engine returns an error
the call returns `HA_ERR_INTERNAL_ERROR`; otherwise the share drops the report
and becomes active. After the lock is released the view's `rnd_init` runs. -/
def rnd_init {E : Type} (X : pinba_externals E) (ctx : pinba_mysql_ctx_t E)
    (self : pinba_handler_t) :
    Option (Int × pinba_handler_t × pinba_mysql_ctx_t E × List pinba_event) :=
  match self.share_, ctx.share_at self.share_ with
  | some sid, some share =>
    if share.report_needs_engine && !share.report_active then
      match share.report with
      | none => none
      | some report =>
        let added := X.add_report ctx.engine report
        match added.2 with
        | some _ =>
          some (HA_ERR_INTERNAL_ERROR, self, { ctx with engine := added.1 },
            [.lock_acquire, .add_report report, .lock_release])
        | none =>
          let share1 : pinba_share_t := { share with report := none, report_active := true }
          let ctx1 : pinba_mysql_ctx_t E :=
            { ctx with engine := added.1, shares := ctx.shares.set sid share1 }
          match self.pinba_view_ with
          | none => none
          | some view =>
            match view.rnd_init X ctx1 self.share_ self.table with
            | none => none
            | some r =>
              some (r.1, { self with pinba_view_ := some r.2.1 }, r.2.2.1,
                [.lock_acquire, .add_report report, .lock_release] ++ r.2.2.2)
    else
      match self.pinba_view_ with
      | none => none
      | some view =>
        match view.rnd_init X ctx self.share_ self.table with
        | none => none
        | some r =>
          some (r.1, { self with pinba_view_ := some r.2.1 }, r.2.2.1,
            [.lock_acquire, .lock_release] ++ r.2.2.2)
  | _, _ => none

/-- The method `pinba_handler_t::rnd_end`. -/
def rnd_end (self : pinba_handler_t) : Option (Int × pinba_handler_t) :=
  match self.pinba_view_ with
  | none => none
  | some view => some ((view.rnd_end).1, { self with pinba_view_ := some (view.rnd_end).2 })

/-- The method `pinba_handler_t::rnd_next`. -/
def rnd_next {E : Type} (X : pinba_externals E) (ctx : pinba_mysql_ctx_t E)
    (self : pinba_handler_t) : Option (Int × pinba_handler_t × List pinba_event) :=
  match self.pinba_view_ with
  | none => none
  | some view =>
    match view.rnd_next X ctx self.table with
    | none => none
    | some r => some (r.1, { self with pinba_view_ := some r.2.1 }, r.2.2)

/-- The method `pinba_handler_t::create`, for the table name and the comment
of `table_arg` (`none` when `table_arg->s` or the comment pointer is null):
without a comment it throws before taking the lock; otherwise, under the
lock, the share is looked up or made and then initialised from the comment.
Any exception gives `HA_WRONG_CREATE_OPTION`. -/
def create {E : Type} (X : pinba_externals E) (ctx : pinba_mysql_ctx_t E)
    (table_name : String) (comment : Option String) :
    Option (Int × pinba_mysql_ctx_t E × List pinba_event) :=
  match comment with
  | none => some (HA_WRONG_CREATE_OPTION, ctx, [])
  | some comment =>
    let got := pinba_share_get_or_create_locked ctx table_name
    match got.1.shares[got.2]? with
    | none => none
    | some share =>
      match share_init_with_table_comment_locked X share comment with
      | none => none
      | some initialised =>
        let ctx1 : pinba_mysql_ctx_t E :=
          { got.1 with shares := got.1.shares.set got.2 initialised.1 }
        match initialised.2 with
        | .error _ => some (HA_WRONG_CREATE_OPTION, ctx1, [.lock_acquire, .lock_release])
        | .ok _ => some (0, ctx1, [.lock_acquire, .lock_release])

/-- The method `pinba_handler_t::open` (`open` is a reserved word here):
under the lock the share is looked up or made, and initialised from the
comment of the handler's table when it has no view configuration yet; an
exception gives `HA_WRONG_CREATE_OPTION`. After the lock is released the view
is made from the view configuration and the handler keeps the share. -/
def open_table {E : Type} (X : pinba_externals E) (ctx : pinba_mysql_ctx_t E)
    (self : pinba_handler_t) (table_name : String) :
    Option (Int × pinba_handler_t × pinba_mysql_ctx_t E × List pinba_event) :=
  let got := pinba_share_get_or_create_locked ctx table_name
  match got.1.shares[got.2]? with
  | none => none
  | some share =>
    match share.view_conf with
    | some view_conf =>
      some (0, { self with pinba_view_ := some (pinba_view_create view_conf), share_ := some got.2 },
        got.1, [.lock_acquire, .lock_release])
    | none =>
      match self.table.comment with
      | none => some (HA_WRONG_CREATE_OPTION, self, got.1, [.lock_acquire, .lock_release])
      | some comment =>
        match share_init_with_table_comment_locked X share comment with
        | none => none
        | some initialised =>
          let ctx1 : pinba_mysql_ctx_t E :=
            { got.1 with shares := got.1.shares.set got.2 initialised.1 }
          match initialised.2 with
          | .error _ => some (HA_WRONG_CREATE_OPTION, self, ctx1, [.lock_acquire, .lock_release])
          | .ok _ =>
            match initialised.1.view_conf with
            | none => none
            | some view_conf =>
              some (0,
                { self with pinba_view_ := some (pinba_view_create view_conf), share_ := some got.2 },
                ctx1, [.lock_acquire, .lock_release])

/-- The method `pinba_handler_t::close`. -/
def close (self : pinba_handler_t) : Int × pinba_handler_t :=
  (0, { self with share_ := none, pinba_view_ := none })

/-- The method `pinba_handler_t::rename_table`, all under the lock: an
unknown name is tolerated; otherwise the entry is erased, the share takes
the new name, and is emplaced under it. -/
def rename_table {E : Type} (ctx : pinba_mysql_ctx_t E) (from_table to_table : String) :
    Option (Int × pinba_mysql_ctx_t E × List pinba_event) :=
  match ctx.open_shares.lookup from_table with
  | none => some (0, ctx, [.lock_acquire, .lock_release])
  | some share_ptr =>
    match ctx.shares[share_ptr]? with
    | none => none
    | some share =>
      let erased := open_shares_erase ctx.open_shares from_table
      let renamed : pinba_share_t := { share with mysql_name := to_table }
      some (0,
        { ctx with
            shares := ctx.shares.set share_ptr renamed
            open_shares := open_shares_emplace erased renamed.mysql_name share_ptr },
        [.lock_acquire, .lock_release])

/-- The method `pinba_handler_t::delete_table`, all under the lock: an
unknown name is tolerated; otherwise the entry is erased and, for a share
that needs the engine and is active, `delete_report` is called with its
report name; an error of the engine gives `HA_ERR_INTERNAL_ERROR`. -/
def delete_table {E : Type} (X : pinba_externals E) (ctx : pinba_mysql_ctx_t E)
    (table_name : String) : Option (Int × pinba_mysql_ctx_t E × List pinba_event) :=
  match ctx.open_shares.lookup table_name with
  | none => some (0, ctx, [.lock_acquire, .lock_release])
  | some share_ptr =>
    match ctx.shares[share_ptr]? with
    | none => none
    | some share =>
      let erased := open_shares_erase ctx.open_shares table_name
      if share.report_needs_engine && share.report_active then
        let deleted := X.delete_report ctx.engine share.report_name
        let ctx1 : pinba_mysql_ctx_t E :=
          { ctx with open_shares := erased, engine := deleted.1 }
        match deleted.2 with
        | some _ =>
          some (HA_ERR_INTERNAL_ERROR, ctx1,
            [.lock_acquire, .delete_report share.report_name, .lock_release])
        | none =>
          some (0, ctx1, [.lock_acquire, .delete_report share.report_name, .lock_release])
      else
        some (0, { ctx with open_shares := erased }, [.lock_acquire, .lock_release])

end pinba_handler_t

/-! ## Vocabulary of the properties -/

/-- The number of kind-fixed columns of a view kind: the constant
`n_data_fields___*` that `rnd_init` adds to the key count for that kind. -/
def fixed_count : pinba_view_kind → Nat
  | .report_by_request_data => pinba_view___report_snapshot_t.n_data_fields___by_request
  | .report_by_timer_data => pinba_view___report_snapshot_t.n_data_fields___by_timer
  | .report_by_packet_data => pinba_view___report_snapshot_t.n_data_fields___by_packet
  | .stats => 0
  | .active_reports => 0

/-- The three kinds served by the report snapshot view. -/
def is_report_kind : pinba_view_kind → Bool
  | .report_by_request_data => true
  | .report_by_timer_data => true
  | .report_by_packet_data => true
  | .stats => false
  | .active_reports => false

/-- The number of kind-fixed columns `rnd_next` lays out for the report kind
of a snapshot: the constant `n_data_fields` of the branch taken, and none in
the branch for any other value. -/
def data_field_count : report_kind → Nat
  | .by_request_data => pinba_view___report_snapshot_t.n_data_fields___by_request
  | .by_timer_data => pinba_view___report_snapshot_t.n_data_fields___by_timer
  | .by_packet_data => pinba_view___report_snapshot_t.n_data_fields___by_packet
  | .other => 0

/-- Whether a call is `snapshot_->prepare(...)`. -/
def pinba_event.is_prepare : pinba_event → Bool
  | .prepare _ => true
  | _ => false

/-- Whether a call is `P_E_->get_report_snapshot(...)`. -/
def pinba_event.is_get_report_snapshot : pinba_event → Bool
  | .get_report_snapshot _ => true
  | _ => false

/-- Whether a call is `P_E_->add_report(...)`. -/
def pinba_event.is_add_report : pinba_event → Bool
  | .add_report _ => true
  | _ => false

/-- The columns that receive a `store` call, in call order. -/
def stored_columns (calls : List pinba_event) : List Nat :=
  calls.filterMap (fun e =>
    match e with
    | .store c _ => some c
    | _ => none)

/-- The columns that receive a `set_notnull` call, in call order. -/
def notnull_columns (calls : List pinba_event) : List Nat :=
  calls.filterMap (fun e =>
    match e with
    | .set_notnull c => some c
    | _ => none)

/-- The host calling `rnd_next` of a report snapshot view n times in a row:
the return code and field steps of every call, and the view left. -/
def pinba_view___report_snapshot_t.scan (table : TABLE) :
    Nat → pinba_view___report_snapshot_t →
      Option (List (Int × List field_step) × pinba_view___report_snapshot_t)
  | 0, self => some ([], self)
  | n + 1, self =>
    match pinba_view___report_snapshot_t.rnd_next self table with
    | none => none
    | some r =>
      match pinba_view___report_snapshot_t.scan table n r.2.1 with
      | none => none
      | some rest => some ((r.1, r.2.2) :: rest.1, rest.2)

/-- A sequence of scans of the tables of one context: the handlers call
`pinba_handler_t::rnd_init` one after the other; the result is the context
left and all the calls made, in order. -/
def scans_rnd_init {E : Type} (X : pinba_externals E) :
    pinba_mysql_ctx_t E → List pinba_handler_t →
      Option (pinba_mysql_ctx_t E × List pinba_event)
  | ctx, [] => some (ctx, [])
  | ctx, h :: hs =>
    match h.rnd_init X ctx with
    | none => none
    | some r =>
      match scans_rnd_init X r.2.2.1 hs with
      | none => none
      | some rest => some (rest.1, r.2.2.2 ++ rest.2)

/-- The kind-fixed columns of a by-request row in the order the
specification lists them: req_count, req_per_sec, time_total, time_per_sec,
cpu_user_total, cpu_user_per_sec, cpu_sys_total, cpu_sys_per_sec,
traffic_kb_total, traffic_kb_per_sec, mem_usage; a per-second value is the
total divided by the time window in seconds, as a floating-point
division. -/
def spec_columns___by_request (time_window : duration_t) (r : report_row_data___by_request_t) :
    List field_value :=
  [ .num r.req_count,
    .real (double.div (double.of_uint r.req_count) (double.of_rat time_window.seconds)),
    .real (double.of_rat r.time_total.seconds),
    .real (double.div (double.of_rat r.time_total.seconds) (double.of_rat time_window.seconds)),
    .real (double.of_rat r.ru_utime.seconds),
    .real (double.div (double.of_rat r.ru_utime.seconds) (double.of_rat time_window.seconds)),
    .real (double.of_rat r.ru_stime.seconds),
    .real (double.div (double.of_rat r.ru_stime.seconds) (double.of_rat time_window.seconds)),
    .num r.traffic_kb,
    .real (double.div (double.of_uint r.traffic_kb) (double.of_rat time_window.seconds)),
    .num r.mem_usage ]

/-- The kind-fixed columns of a by-timer row in the order the specification
lists them: req_count, req_per_sec, hit_count, hit_per_sec, time_total,
time_per_sec, cpu_user_total, cpu_user_per_sec, cpu_sys_total,
cpu_sys_per_sec. -/
def spec_columns___by_timer (time_window : duration_t) (r : report_row_data___by_timer_t) :
    List field_value :=
  [ .num r.req_count,
    .real (double.div (double.of_uint r.req_count) (double.of_rat time_window.seconds)),
    .num r.hit_count,
    .real (double.div (double.of_uint r.hit_count) (double.of_rat time_window.seconds)),
    .real (double.of_rat r.time_total.seconds),
    .real (double.div (double.of_rat r.time_total.seconds) (double.of_rat time_window.seconds)),
    .real (double.of_rat r.ru_utime.seconds),
    .real (double.div (double.of_rat r.ru_utime.seconds) (double.of_rat time_window.seconds)),
    .real (double.of_rat r.ru_stime.seconds),
    .real (double.div (double.of_rat r.ru_stime.seconds) (double.of_rat time_window.seconds)) ]

/-- The kind-fixed columns of a by-packet row in the order the specification
lists them: req_count, timer_count, time_total, cpu_user_total,
cpu_sys_total, traffic_kb, mem_usage. -/
def spec_columns___by_packet (r : report_row_data___by_packet_t) : List field_value :=
  [ .num r.req_count,
    .num r.timer_count,
    .real (double.of_rat r.time_total.seconds),
    .real (double.of_rat r.ru_utime.seconds),
    .real (double.of_rat r.ru_stime.seconds),
    .num r.traffic_kb,
    .num r.mem_usage ]

/-! ## Inputs of the examples -/

/-- A by-request configuration with two keys and two percentiles. -/
def example_conf : pinba_view_conf_t :=
  { kind := .report_by_request_data, keys := [0, 1], percentiles := [50, 99] }

/-- A table of 15 columns of which only column 13 is requested. -/
def example_table_13 : TABLE :=
  { n_fields := 15, read_set := fun c => c == 13 }

/-- A by-request row: 120 requests, 3 seconds in total. -/
def example_row (histogram : Option histogram_obj) : snapshot_row_t :=
  { key := fun i => if i = 0 then "example.org" else "/index"
    data :=
      { as_by_request :=
          { req_count := 120, time_total := { seconds := 3 }, ru_utime := { seconds := 1 },
            ru_stime := { seconds := 2 }, traffic_kb := 600, mem_usage := 4096 }
        as_by_timer :=
          { req_count := 120, hit_count := 240, time_total := { seconds := 3 },
            ru_utime := { seconds := 1 }, ru_stime := { seconds := 2 } }
        as_by_packet :=
          { req_count := 120, timer_count := 240, time_total := { seconds := 3 },
            ru_utime := { seconds := 1 }, ru_stime := { seconds := 2 },
            traffic_kb := 600, mem_usage := 4096 } }
    histogram := histogram }

/-- A histogram whose every percentile is one quarter of a second. -/
def example_histogram : histogram_obj :=
  { as_hashtable := { get_percentile := fun _ _ _ => { seconds := 1 / 4 } }
    as_flat := { get_percentile := fun _ _ _ => { seconds := 1 / 4 } } }

/-- The report info of a by-request report with two key parts and a time
window of 60 seconds. -/
def example_rinfo : report_info_t :=
  { kind := .by_request_data, n_key_parts := 2, time_window := { seconds := 60 },
    tick_count := 60, hv_kind := .flat, hv_bucket_count := 100,
    hv_bucket_d := { seconds := 1 / 1000 } }

/-- A snapshot of two rows, the first with a histogram, the second
without. -/
def example_snapshot : report_snapshot_t :=
  { rinfo := example_rinfo
    rows := [example_row (some example_histogram), example_row none]
    prepared := none }

/-- The report object of the example share. -/
def example_report : pinba_report_t := { handle := 1 }

/-- Collaborators for the examples, without state: the comment reader
accepts every comment as the example configuration, the constructors return
the example report, the engine accepts every report and serves the example
snapshot. -/
def example_externals : pinba_externals Unit :=
  { pinba_view_conf_parse := fun _ _ => .ok example_conf
    create_report_by_packet := fun _ => .ok example_report
    create_report_by_request := fun _ => .ok example_report
    create_report_by_timer := fun _ => .ok example_report
    enum_as_str_ref := fun _ => "kind"
    pinba_collect_status_variables := fun _ =>
      { uptime := .num 0, udp_poll_total := .num 0, udp_recv_total := .num 0,
        udp_recv_eagain := .num 0, udp_recv_bytes := .num 0, udp_recv_packets := .num 0,
        udp_packet_decode_err := .num 0, udp_batch_send_total := .num 0,
        udp_batch_send_err := .num 0, udp_ru_utime := .num 0, udp_ru_stime := .num 0,
        repacker_poll_total := .num 0, repacker_recv_total := .num 0,
        repacker_recv_eagain := .num 0, repacker_recv_packets := .num 0,
        repacker_packet_validate_err := .num 0, repacker_batch_send_total := .num 0,
        repacker_batch_send_by_timer := .num 0, repacker_batch_send_by_size := .num 0,
        repacker_ru_utime := .num 0, repacker_ru_stime := .num 0,
        coordinator_batches_received := .num 0, coordinator_batch_send_total := .num 0,
        coordinator_batch_send_err := .num 0, coordinator_control_requests := .num 0,
        coordinator_ru_utime := .num 0, coordinator_ru_stime := .num 0,
        dictionary_size := .num 0, dictionary_mem_used := .num 0 }
    clock_monotonic_now := fun _ => { seconds := 0 }
    add_report := fun e _ => (e, none)
    delete_report := fun e _ => (e, none)
    get_report_state := fun e _ => (e, none)
    get_report_snapshot := fun e _ => (e, some example_snapshot) }

/-- A share for table `t1`, configured for the example report and not yet
active. -/
def example_share : pinba_share_t :=
  { mysql_name := "t1", view_conf := some example_conf, report_name := "t1",
    report_active := false, report_needs_engine := true, report := some example_report }

/-- A context whose registry holds the example share only. -/
def example_ctx : pinba_mysql_ctx_t Unit :=
  { shares := [example_share], open_shares := [("t1", 0)], engine := () }

/-- A report snapshot view before its first `rnd_init`. -/
def example_closed_view : pinba_view___report_snapshot_t :=
  { snapshot_ := none, pos_ := 0, share_data_ := none }

/-- A table of 15 columns, all requested. -/
def example_table_full : TABLE :=
  { n_fields := 15, read_set := fun _ => true }

/-- A report snapshot view as the first `rnd_init` leaves it for the example
share and snapshot: cursor at the first row, which has a histogram. -/
def example_scanning_view : pinba_view___report_snapshot_t :=
  { snapshot_ := some (example_snapshot.prepare .full)
    pos_ := 0
    share_data_ := some example_share.topinba_share_data_t }

/-- The example view with the cursor at the second row, which has no
histogram. -/
def example_scanning_view_row2 : pinba_view___report_snapshot_t :=
  { example_scanning_view with pos_ := 1 }

/-- A handler opened on the example share, with a fresh report snapshot
view. -/
def example_handler : pinba_handler_t :=
  { share_ := some 0, table := example_table_13,
    pinba_view_ := some (.report_snapshot example_closed_view) }

/-- A share for table `t1` as the constructor leaves it: not configured. -/
def example_new_share : pinba_share_t := pinba_share_t.create "t1"

/-! ## Inputs and vocabulary of the registry properties -/

/-- Collaborators for the examples whose comment reader rejects the empty
comment and reads the comment `timer` as a by-timer report without keys,
and whose by-timer constructor throws; otherwise as `example_externals`. -/
def example_externals_strict : pinba_externals Unit :=
  { example_externals with
    pinba_view_conf_parse := fun _ comment =>
      if comment = "" then .error "comment is empty"
      else if comment = "timer" then
        .ok { kind := .report_by_timer_data, keys := [], percentiles := [] }
      else .ok example_conf
    create_report_by_timer := fun _ => .error "report_by_timer needs a key" }

/-- The empty registry. -/
def empty_ctx : pinba_mysql_ctx_t Unit :=
  { shares := [], open_shares := [], engine := () }

/-- A handler object before `open`. -/
def example_fresh_handler : pinba_handler_t :=
  { share_ := none, table := { example_table_13 with comment := some "request" },
    pinba_view_ := none }

/-- Whether a call is `P_E_->delete_report(...)`. -/
def pinba_event.is_delete_report : pinba_event → Bool
  | .delete_report _ => true
  | _ => false

/-- The example share after its activation. -/
def example_active_share : pinba_share_t :=
  { example_share with report := none, report_active := true }

/-- A context whose registry holds the activated example share only. -/
def example_ctx_active : pinba_mysql_ctx_t Unit :=
  { shares := [example_active_share], open_shares := [("t1", 0)], engine := () }

/-- The shares the registry entries point to, in iteration order. -/
def registered_shares {E : Type} (ctx : pinba_mysql_ctx_t E) : List pinba_share_t :=
  ctx.open_shares.filterMap (fun share_pair => ctx.shares[share_pair.2]?)

/-- The registered shares that need the engine and have their report
active, in iteration order. -/
def active_engine_shares {E : Type} (ctx : pinba_mysql_ctx_t E) : List pinba_share_t :=
  (registered_shares ctx).filter (fun share => share.report_needs_engine && share.report_active)

/-- The answers of the engine to `get_report_state` calls made one after the
other for a list of report names, from an engine state: `none` is a call
that throws. -/
def get_report_state_answers {E : Type} (X : pinba_externals E) :
    E → List String → List (Option report_state_t)
  | _, [] => []
  | e, report_name :: rest =>
    (X.get_report_state e report_name).2 ::
      get_report_state_answers X (X.get_report_state e report_name).1 rest

/-- The rows for a list of shares and the answers of the engine for them: one
row with the share data and the report state per share whose answer is a
report state, in the order of the list. -/
def rows_with_state (shares : List pinba_share_t) (answers : List (Option report_state_t)) :
    List view_row_t :=
  (shares.zip answers).filterMap (fun share_answer =>
    match share_answer.2 with
    | some rstate =>
      some { share_data := share_answer.1.topinba_share_data_t, report_state := some rstate }
    | none => none)

/-- A registry all of whose entries point to a share. -/
def registry_well_formed {E : Type} (ctx : pinba_mysql_ctx_t E) : Prop :=
  ∀ share_pair ∈ ctx.open_shares, share_pair.2 < ctx.shares.length

/-- A report state for the examples. -/
def example_report_state : report_state_t :=
  { id := 7
    info := example_rinfo
    stats :=
      { created_tv := { seconds := 0 }, packets_recv_total := 0, packets_send_err := 0,
        packets_aggregated := 0, packets_dropped_by_bloom := 0, packets_dropped_by_filters := 0,
        packets_dropped_by_rfield := 0, packets_dropped_by_rtag := 0,
        packets_dropped_by_timertag := 0, timers_scanned := 0, timers_aggregated := 0,
        timers_skipped_by_filters := 0, timers_skipped_by_tags := 0,
        ru_utime := { seconds := 0 }, ru_stime := { seconds := 0 },
        last_tick_tv := { seconds := 0 }, last_tick_prepare_d := { seconds := 0 },
        last_snapshot_merge_d := { seconds := 0 } }
    estimates := { row_count := 2, mem_used := 0 } }

/-- Collaborators for the examples whose engine knows the report `t1` only;
otherwise as `example_externals`. -/
def example_externals_t1 : pinba_externals Unit :=
  { example_externals with
    get_report_state := fun e report_name =>
      (e, if report_name = "t1" then some example_report_state else none) }

/-- A registry of three shares: the active example share `t1`, a virtual
stats table, and an active share `t9` whose report the engine does not
know. -/
def example_ctx_three : pinba_mysql_ctx_t Unit :=
  { shares :=
      [ example_active_share,
        { mysql_name := "stats", view_conf := some { kind := .stats, keys := [], percentiles := [] },
          report_name := "<virtual table: stats>", report_active := true,
          report_needs_engine := false, report := none },
        { example_active_share with mysql_name := "t9", report_name := "t9" } ]
    open_shares := [("t1", 0), ("stats", 1), ("t9", 2)]
    engine := () }

/-- One call of the host into the entry points that change the context. The
handler object of `open` and `rnd_init` is part of the call: the host may
use any handler, in any state. -/
inductive pinba_call where
  | create (table_name : String) (comment : Option String)
  | open_table (self : pinba_handler_t) (table_name : String)
  | rnd_init (self : pinba_handler_t)
  | rename_table (from_table to_table : String)
  | delete_table (table_name : String)

/-- The context a call leaves; `none` when the call has no defined result. -/
def pinba_call.apply {E : Type} (X : pinba_externals E) (ctx : pinba_mysql_ctx_t E) :
    pinba_call → Option (pinba_mysql_ctx_t E)
  | .create table_name comment =>
    match pinba_handler_t.create X ctx table_name comment with
    | none => none
    | some r => some r.2.1
  | .open_table self table_name =>
    match pinba_handler_t.open_table X ctx self table_name with
    | none => none
    | some r => some r.2.2.1
  | .rnd_init self =>
    match pinba_handler_t.rnd_init X ctx self with
    | none => none
    | some r => some r.2.2.1
  | .rename_table from_table to_table =>
    match pinba_handler_t.rename_table ctx from_table to_table with
    | none => none
    | some r => some r.2.1
  | .delete_table table_name =>
    match pinba_handler_t.delete_table X ctx table_name with
    | none => none
    | some r => some r.2.1

/-- The context a sequence of calls leaves, one call after the other. -/
def run_calls {E : Type} (X : pinba_externals E) :
    pinba_mysql_ctx_t E → List pinba_call → Option (pinba_mysql_ctx_t E)
  | ctx, [] => some ctx
  | ctx, call :: rest =>
    match call.apply X ctx with
    | none => none
    | some ctx1 => run_calls X ctx1 rest

/-- The two-way link between holding a report and waiting for activation:
a share holds a report exactly when it needs the engine and is not
active. -/
def pending_iff_report (share : pinba_share_t) : Prop :=
  (share.report.isSome = true →
    share.report_needs_engine = true ∧ share.report_active = false) ∧
  (share.report_needs_engine = true → share.report_active = false →
    share.report.isSome = true)

/-- The example handler after `open` of the example table. -/
def example_open_handler : pinba_handler_t :=
  { example_fresh_handler with
    pinba_view_ := some (pinba_view_create example_conf), share_ := some 0 }

/-- A sequence of calls: t1 is created, opened, scanned (which activates its
report) and renamed to t2; then a `create` of t3 fails on its empty
comment. -/
def example_calls : List pinba_call :=
  [ .create "t1" (some "request"),
    .open_table example_fresh_handler "t1",
    .rnd_init example_open_handler,
    .rename_table "t1" "t2",
    .create "t3" (some "") ]

/-- Whether a call reads a row's histogram or computes a percentile of it. -/
def pinba_event.is_histogram_read : pinba_event → Bool
  | .get_histogram _ => true
  | .get_percentile _ _ => true
  | _ => false

/-- The columns for which a pass of the field loop looked up the row's
histogram, in table order. -/
def lookup_columns (steps : List field_step) : List Nat :=
  (steps.filter (fun step => step.reads.any pinba_event.is_histogram_read)).map
    field_step.field_index

/-- Whether the view kind of a configuration is the one of a report kind of
a snapshot. -/
def kind_corresponds : pinba_view_kind → report_kind → Bool
  | .report_by_request_data, .by_request_data => true
  | .report_by_timer_data, .by_timer_data => true
  | .report_by_packet_data, .by_packet_data => true
  | _, _ => false

/-- A table of 15 columns of which only the first three are requested. -/
def example_table_keys : TABLE :=
  { n_fields := 15, read_set := fun c => decide (c < 3) }

/-- Whether an event is a call into the engine or a snapshot preparation:
`get_report_state`, `get_report_snapshot`, `add_report`, `delete_report`,
`prepare`. -/
def pinba_event.is_engine_call : pinba_event → Bool
  | .get_report_state _ => true
  | .get_report_snapshot _ => true
  | .add_report _ => true
  | .delete_report _ => true
  | .prepare _ => true
  | _ => false

/-- Whether an event takes or releases the registry lock `P_CTX_->lock`. -/
def pinba_event.is_registry_lock : pinba_event → Bool
  | .lock_acquire => true
  | .lock_release => true
  | _ => false

/-- The events of a trace that occur between an acquire of the registry lock
and its release, in order; `held` tells whether the lock is held where the
trace starts. -/
def calls_under_lock : Bool → List pinba_event → List pinba_event
  | _, [] => []
  | held, e :: rest =>
    match e with
    | .lock_acquire => calls_under_lock true rest
    | .lock_release => calls_under_lock false rest
    | _ => if held then e :: calls_under_lock held rest else calls_under_lock held rest

/-- The engine calls and snapshot preparations of a trace made with the
registry lock held, for a trace that starts with the lock free. -/
def engine_calls_under_lock (calls : List pinba_event) : List pinba_event :=
  (calls_under_lock false calls).filter pinba_event.is_engine_call

/-! # Theorems -/

/-! ## Division of doubles -/

/-- Values of the division of doubles: exact quotients, quotients rounded to
nearest with ties to even, a zero divisor, the signs of zero, and the
conversions to `double`. -/
theorem double_div_values :
    double.div (double.of_uint 120) (.finite 60) = .finite 2 ∧
    double.div (.finite 3) (.finite 60) =
      .finite (mkRat 3602879701896397 72057594037927936) ∧
    double.div (.finite 1) (.finite 3) =
      .finite (mkRat 6004799503160661 18014398509481984) ∧
    double.div (.finite (-7)) (.finite 2) = .finite (mkRat (-7) 2) ∧
    double.div (.finite 5) (.finite 0) = .infinity false ∧
    double.div (.finite (-5)) (.finite 0) = .infinity true ∧
    double.div (.finite 0) (.finite 0) = .nan ∧
    double.div (.finite 0) (.finite (-5)) = .negative_zero ∧
    double.of_uint 0 = .finite 0 ∧
    double.of_uint 4294967295 = .finite 4294967295 ∧
    double.of_rat 60 = .finite 60 ∧
    double.of_rat (mkRat 1 10) = .finite (mkRat 3602879701896397 36028797018963968) ∧
    double.of_rat (mkRat (-1) 4) = .finite (mkRat (-1) 4) := by
  decide

/-! ## Percentile detection in the report snapshot view -/

theorem percentile_field_range_eq (view_conf : pinba_view_conf_t)
    (hkind : is_report_kind view_conf.kind = true)
    (hrange : view_conf.keys.length + fixed_count view_conf.kind +
      view_conf.percentiles.length < UINT_RANGE) :
    pinba_view___report_snapshot_t.percentile_field_range view_conf =
      some (view_conf.keys.length + fixed_count view_conf.kind,
        view_conf.keys.length + fixed_count view_conf.kind + view_conf.percentiles.length) := by
  have h1 : (view_conf.keys.length + fixed_count view_conf.kind) % UINT_RANGE =
      view_conf.keys.length + fixed_count view_conf.kind := Nat.mod_eq_of_lt (by omega)
  have h2 : (view_conf.keys.length + fixed_count view_conf.kind +
      view_conf.percentiles.length) % UINT_RANGE =
      view_conf.keys.length + fixed_count view_conf.kind + view_conf.percentiles.length :=
    Nat.mod_eq_of_lt hrange
  unfold pinba_view___report_snapshot_t.percentile_field_range
  cases hk : view_conf.kind <;> simp [hk, is_report_kind] at hkind ⊢ <;>
    simp only [hk, fixed_count] at h1 h2 <;> simp [h1, h2, fixed_count]

theorem need_percentiles_eq_some_iff (view_conf : pinba_view_conf_t) (table : TABLE)
    (hkind : is_report_kind view_conf.kind = true)
    (hrange : view_conf.keys.length + fixed_count view_conf.kind +
      view_conf.percentiles.length < UINT_RANGE) :
    ∃ np, pinba_view___report_snapshot_t.need_percentiles view_conf table = some np ∧
      (np = true ↔ ∃ c ∈ table.requested,
        view_conf.keys.length + fixed_count view_conf.kind ≤ c ∧
        c < view_conf.keys.length + fixed_count view_conf.kind +
          view_conf.percentiles.length) := by
  unfold pinba_view___report_snapshot_t.need_percentiles
  rw [percentile_field_range_eq view_conf hkind hrange]
  refine ⟨_, rfl, ?_⟩
  simp only [List.any_eq_true, TABLE.requested, List.mem_filter, Bool.and_eq_true,
    decide_eq_true_eq, ge_iff_le]
  constructor
  · rintro ⟨c, hc, hr, h1, h2⟩
    exact ⟨c, ⟨hc, hr⟩, h1, h2⟩
  · rintro ⟨c, ⟨hc, hr⟩, h1, h2⟩
    exact ⟨c, hc, hr, h1, h2⟩

/-- C1. For each of the three report kinds, with k keys, p percentiles and
the kind's fixed column count (11, 10 or 7), and k + fixed_count + p within
the range of `unsigned`, `need_percentiles` of the snapshot view's `rnd_init`
is defined and is true exactly when some requested column c of the table has
k + fixed_count <= c < k + fixed_count + p. So it is false when nothing is
requested, false when p = 0, false when only column k + fixed_count - 1 or
only column k + fixed_count + p is requested, and, when p > 0, true when only
column k + fixed_count or only column k + fixed_count + p - 1 is requested. -/
theorem need_percentiles_iff_requested_percentile_column
    (view_conf : pinba_view_conf_t) (table : TABLE)
    (hkind : is_report_kind view_conf.kind = true)
    (hrange : view_conf.keys.length + fixed_count view_conf.kind +
      view_conf.percentiles.length < UINT_RANGE) :
    ∃ np, pinba_view___report_snapshot_t.need_percentiles view_conf table = some np ∧
      (np = true ↔ ∃ c ∈ table.requested,
        view_conf.keys.length + fixed_count view_conf.kind ≤ c ∧
        c < view_conf.keys.length + fixed_count view_conf.kind +
          view_conf.percentiles.length) ∧
      (table.requested = [] → np = false) ∧
      (view_conf.percentiles.length = 0 → np = false) ∧
      ((∀ c, c ∈ table.requested ↔
          c = view_conf.keys.length + fixed_count view_conf.kind - 1) → np = false) ∧
      ((∀ c, c ∈ table.requested ↔
          c = view_conf.keys.length + fixed_count view_conf.kind +
            view_conf.percentiles.length) → np = false) ∧
      (0 < view_conf.percentiles.length →
        (∀ c, c ∈ table.requested ↔
          c = view_conf.keys.length + fixed_count view_conf.kind) → np = true) ∧
      (0 < view_conf.percentiles.length →
        (∀ c, c ∈ table.requested ↔
          c = view_conf.keys.length + fixed_count view_conf.kind +
            view_conf.percentiles.length - 1) → np = true) := by
  obtain ⟨np, hnp, hiff⟩ := need_percentiles_eq_some_iff view_conf table hkind hrange
  have hfix : 7 ≤ fixed_count view_conf.kind := by
    cases hk : view_conf.kind <;> simp [hk, is_report_kind] at hkind <;>
      simp [fixed_count, pinba_view___report_snapshot_t.n_data_fields___by_request,
        pinba_view___report_snapshot_t.n_data_fields___by_timer,
        pinba_view___report_snapshot_t.n_data_fields___by_packet]
  have hfalse : ∀ {q : Prop}, ¬ q → (np = true ↔ q) → np = false := by
    intro q hq h
    cases hb : np
    · rfl
    · exact absurd (h.mp hb) hq
  refine ⟨np, hnp, hiff, ?_, ?_, ?_, ?_, ?_, ?_⟩
  · intro hempty
    refine hfalse ?_ hiff
    rintro ⟨c, hc, _⟩
    simp [hempty] at hc
  · intro hp
    refine hfalse ?_ hiff
    rintro ⟨c, _, h1, h2⟩
    omega
  · intro hR
    refine hfalse ?_ hiff
    rintro ⟨c, hc, h1, h2⟩
    have := (hR c).mp hc
    omega
  · intro hR
    refine hfalse ?_ hiff
    rintro ⟨c, hc, h1, h2⟩
    have := (hR c).mp hc
    omega
  · intro hp hR
    exact hiff.mpr ⟨_, (hR _).mpr rfl, le_refl _, by omega⟩
  · intro hp hR
    exact hiff.mpr ⟨_, (hR _).mpr rfl, by omega, by omega⟩

theorem need_percentiles_iff_requested_percentile_column_witness :
    is_report_kind example_conf.kind = true ∧
    example_conf.keys.length + fixed_count example_conf.kind +
      example_conf.percentiles.length < UINT_RANGE ∧
    pinba_view___report_snapshot_t.need_percentiles example_conf example_table_13 = some true := by
  have h1 : is_report_kind example_conf.kind = true := by decide
  have h2 : example_conf.keys.length + fixed_count example_conf.kind +
      example_conf.percentiles.length < UINT_RANGE := by decide
  obtain ⟨np, hnp, hiff, _⟩ :=
    need_percentiles_iff_requested_percentile_column example_conf example_table_13 h1 h2
  have hnp_true : np = true := hiff.mpr ⟨13, by decide, by decide, by decide⟩
  exact ⟨h1, h2, hnp_true ▸ hnp⟩

/-! ## The first and the second `rnd_init` of the report snapshot view -/

theorem need_percentiles_isSome (view_conf : pinba_view_conf_t) (table : TABLE)
    (hkind : is_report_kind view_conf.kind = true) :
    ∃ np, pinba_view___report_snapshot_t.need_percentiles view_conf table = some np := by
  unfold pinba_view___report_snapshot_t.need_percentiles
    pinba_view___report_snapshot_t.percentile_field_range
  cases hk : view_conf.kind <;> simp [hk, is_report_kind] at hkind ⊢

theorem rnd_init_first_fetched {E : Type} (X : pinba_externals E) (ctx : pinba_mysql_ctx_t E)
    (share_ : Option Nat) (table : TABLE) (self : pinba_view___report_snapshot_t)
    (share : pinba_share_t) (conf : pinba_view_conf_t) (snapshot : report_snapshot_t) (np : Bool)
    (hfirst : self.snapshot_ = none)
    (hshare : ctx.share_at share_ = some share)
    (hconf : share.view_conf = some conf)
    (hnp : pinba_view___report_snapshot_t.need_percentiles conf table = some np)
    (hfetch : (X.get_report_snapshot ctx.engine share.report_name).2 = some snapshot) :
    pinba_view___report_snapshot_t.rnd_init X ctx share_ table self =
      some (0,
        { snapshot_ := some (snapshot.prepare
            (if np then prepare_type.full else prepare_type.no_histograms))
          pos_ := 0
          share_data_ := some share.topinba_share_data_t },
        { ctx with engine := (X.get_report_snapshot ctx.engine share.report_name).1 },
        [.lock_acquire, .lock_release, .get_report_snapshot share.report_name,
          .prepare (if np then prepare_type.full else prepare_type.no_histograms)]) := by
  unfold pinba_view___report_snapshot_t.rnd_init
  simp [hfirst, hshare, hfetch, hconf, hnp, report_snapshot_t.pos_first]

theorem rnd_init_first_failed {E : Type} (X : pinba_externals E) (ctx : pinba_mysql_ctx_t E)
    (share_ : Option Nat) (table : TABLE) (self : pinba_view___report_snapshot_t)
    (share : pinba_share_t)
    (hfirst : self.snapshot_ = none)
    (hshare : ctx.share_at share_ = some share)
    (hfetch : (X.get_report_snapshot ctx.engine share.report_name).2 = none) :
    pinba_view___report_snapshot_t.rnd_init X ctx share_ table self =
      some (HA_ERR_INTERNAL_ERROR,
        { self with share_data_ := some share.topinba_share_data_t },
        { ctx with engine := (X.get_report_snapshot ctx.engine share.report_name).1 },
        [.lock_acquire, .lock_release, .get_report_snapshot share.report_name]) := by
  unfold pinba_view___report_snapshot_t.rnd_init
  simp [hfirst, hshare, hfetch]

theorem rnd_init_held {E : Type} (X : pinba_externals E) (ctx : pinba_mysql_ctx_t E)
    (share_ : Option Nat) (table : TABLE) (self : pinba_view___report_snapshot_t)
    (hheld : self.snapshot_.isSome = true) :
    pinba_view___report_snapshot_t.rnd_init X ctx share_ table self = some (0, self, ctx, []) := by
  unfold pinba_view___report_snapshot_t.rnd_init
  simp [hheld]

/-- C2. On the first `rnd_init` of a report snapshot view (no snapshot held)
for a share configured with a report kind, when `get_report_snapshot`
returns a snapshot, the call succeeds and `prepare` is called exactly once,
with `full` when `need_percentiles` is true and with `no_histograms` when it
is false. So the number of `prepare(full)` calls, the histogram merge, is
one when `need_percentiles` is true and zero when it is false; and, for
sizes within `unsigned`, it is one when some requested column is a
percentile column and zero when none is. -/
theorem rnd_init_prepares_once {E : Type} (X : pinba_externals E) (ctx : pinba_mysql_ctx_t E)
    (share_ : Option Nat) (table : TABLE) (self : pinba_view___report_snapshot_t)
    (share : pinba_share_t) (conf : pinba_view_conf_t) (snapshot : report_snapshot_t)
    (hfirst : self.snapshot_ = none)
    (hshare : ctx.share_at share_ = some share)
    (hconf : share.view_conf = some conf)
    (hkind : is_report_kind conf.kind = true)
    (hfetch : (X.get_report_snapshot ctx.engine share.report_name).2 = some snapshot) :
    ∃ np r, pinba_view___report_snapshot_t.need_percentiles conf table = some np ∧
      pinba_view___report_snapshot_t.rnd_init X ctx share_ table self = some r ∧
      r.1 = 0 ∧
      r.2.2.2.filter pinba_event.is_prepare =
        [.prepare (if np then prepare_type.full else prepare_type.no_histograms)] ∧
      r.2.2.2.count (.prepare .full) = (if np then 1 else 0) ∧
      r.2.2.2.count (.prepare .no_histograms) = (if np then 0 else 1) ∧
      r.2.1.snapshot_ = some (snapshot.prepare
        (if np then prepare_type.full else prepare_type.no_histograms)) ∧
      (conf.keys.length + fixed_count conf.kind + conf.percentiles.length < UINT_RANGE →
        ((∃ c ∈ table.requested, conf.keys.length + fixed_count conf.kind ≤ c ∧
            c < conf.keys.length + fixed_count conf.kind + conf.percentiles.length) →
          r.2.2.2.count (.prepare .full) = 1) ∧
        ((¬ ∃ c ∈ table.requested, conf.keys.length + fixed_count conf.kind ≤ c ∧
            c < conf.keys.length + fixed_count conf.kind + conf.percentiles.length) →
          r.2.2.2.count (.prepare .full) = 0)) := by
  obtain ⟨np, hnp⟩ := need_percentiles_isSome conf table hkind
  refine ⟨np, _, hnp,
    rnd_init_first_fetched X ctx share_ table self share conf snapshot np hfirst hshare hconf
      hnp hfetch, rfl, ?_, ?_, ?_, rfl, ?_⟩
  · cases np <;> simp [pinba_event.is_prepare]
  · cases np <;> simp
  · cases np <;> simp
  · intro hrange
    obtain ⟨np2, hnp2, hiff⟩ := need_percentiles_eq_some_iff conf table hkind hrange
    have hnn : np2 = np := Option.some.inj (hnp2.symm.trans hnp)
    subst hnn
    constructor
    · intro h
      have hb : np2 = true := hiff.mpr h
      subst hb
      simp
    · intro h
      have hb : np2 = false := by
        cases hc : np2
        · rfl
        · exact absurd (hiff.mp hc) h
      subst hb
      simp

theorem rnd_init_prepares_once_witness :
    example_closed_view.snapshot_ = none ∧
    example_ctx.share_at (some 0) = some example_share ∧
    example_share.view_conf = some example_conf ∧
    is_report_kind example_conf.kind = true ∧
    (example_externals.get_report_snapshot example_ctx.engine example_share.report_name).2 =
      some example_snapshot ∧
    ∃ r, pinba_view___report_snapshot_t.rnd_init example_externals example_ctx (some 0)
        example_table_13 example_closed_view = some r ∧
      r.2.2.2.count (.prepare .full) = 1 := by
  have h1 : example_closed_view.snapshot_ = none := rfl
  have h2 : example_ctx.share_at (some 0) = some example_share := rfl
  have h3 : example_share.view_conf = some example_conf := rfl
  have h4 : is_report_kind example_conf.kind = true := rfl
  have h5 : (example_externals.get_report_snapshot example_ctx.engine
      example_share.report_name).2 = some example_snapshot := rfl
  obtain ⟨np, r, _, hr, _, _, _, _, _, hreq⟩ :=
    rnd_init_prepares_once example_externals example_ctx (some 0) example_table_13
      example_closed_view example_share example_conf example_snapshot h1 h2 h3 h4 h5
  exact ⟨h1, h2, h3, h4, h5, r, hr,
    (hreq (by decide)).1 ⟨13, by decide, by decide, by decide⟩⟩

/-- C5. When the first `rnd_init` of a report snapshot view (no snapshot
held) succeeded, it made exactly one `get_report_snapshot` call, and a second
`rnd_init` without `rnd_end` in between, whatever its arguments, returns 0,
makes no call at all (no `get_report_snapshot`, no `prepare`) and leaves the
view, hence the snapshot, the share data copy and the cursor, and the
context as they were; the two calls together fetch one snapshot. More
generally `rnd_init` on any view that holds a snapshot is such a no-op. -/
theorem rnd_init_twice_fetches_once {E : Type} (X : pinba_externals E)
    (ctx : pinba_mysql_ctx_t E) (share_ : Option Nat) (table : TABLE)
    (self : pinba_view___report_snapshot_t)
    (r1 : Int × pinba_view___report_snapshot_t × pinba_mysql_ctx_t E × List pinba_event)
    (share_2 : Option Nat) (table2 : TABLE)
    (hfirst : self.snapshot_ = none)
    (hinit : pinba_view___report_snapshot_t.rnd_init X ctx share_ table self = some r1)
    (hok : r1.1 = 0) :
    (r1.2.2.2.filter pinba_event.is_get_report_snapshot).length = 1 ∧
    pinba_view___report_snapshot_t.rnd_init X r1.2.2.1 share_2 table2 r1.2.1 =
      some (0, r1.2.1, r1.2.2.1, []) ∧
    (∃ r2, pinba_view___report_snapshot_t.rnd_init X r1.2.2.1 share_2 table2 r1.2.1 = some r2 ∧
      ((r1.2.2.2 ++ r2.2.2.2).filter pinba_event.is_get_report_snapshot).length = 1 ∧
      (r2.2.2.2.filter pinba_event.is_prepare).length = 0 ∧
      r2.2.1.snapshot_ = r1.2.1.snapshot_ ∧ r2.2.1.share_data_ = r1.2.1.share_data_ ∧
      r2.2.1.pos_ = r1.2.1.pos_) ∧
    (∀ (ctx3 : pinba_mysql_ctx_t E) (share_3 : Option Nat) (table3 : TABLE)
      (view : pinba_view___report_snapshot_t), view.snapshot_.isSome = true →
      pinba_view___report_snapshot_t.rnd_init X ctx3 share_3 table3 view =
        some (0, view, ctx3, [])) := by
  have hshape : r1.2.1.snapshot_.isSome = true ∧
      (r1.2.2.2.filter pinba_event.is_get_report_snapshot).length = 1 := by
    unfold pinba_view___report_snapshot_t.rnd_init at hinit
    simp only [hfirst, Option.isSome_none, Bool.false_eq_true, ↓reduceIte] at hinit
    split at hinit
    · exact absurd hinit (by simp)
    · split at hinit
      · have h := Option.some.inj hinit
        rw [← h] at hok
        exact absurd hok (by simp [HA_ERR_INTERNAL_ERROR])
      · split at hinit
        · exact absurd hinit (by simp)
        · split at hinit
          · exact absurd hinit (by simp)
          · have h := Option.some.inj hinit
            rw [← h]
            simp [pinba_event.is_get_report_snapshot]
  have hsecond := rnd_init_held X r1.2.2.1 share_2 table2 r1.2.1 hshape.1
  refine ⟨hshape.2, hsecond, ⟨_, hsecond, ?_, ?_, rfl, rfl, rfl⟩, ?_⟩
  · simpa using hshape.2
  · simp
  · intro ctx3 share_3 table3 view hview
    exact rnd_init_held X ctx3 share_3 table3 view hview

/-! ## One `rnd_next` of the report snapshot view -/

theorem data_switch___by_request_ne_aborted (rinfo : report_info_t)
    (row : report_row_data___by_request_t) (findex : Nat) :
    pinba_view___report_snapshot_t.data_switch___by_request rinfo row findex ≠ .aborted := by
  unfold pinba_view___report_snapshot_t.data_switch___by_request
  split <;> simp [STORE_FIELD]

theorem data_switch___by_timer_ne_aborted (rinfo : report_info_t)
    (row : report_row_data___by_timer_t) (findex : Nat) :
    pinba_view___report_snapshot_t.data_switch___by_timer rinfo row findex ≠ .aborted := by
  unfold pinba_view___report_snapshot_t.data_switch___by_timer
  split <;> simp [STORE_FIELD]

theorem data_switch___by_packet_ne_aborted (row : report_row_data___by_packet_t) (findex : Nat) :
    pinba_view___report_snapshot_t.data_switch___by_packet row findex ≠ .aborted := by
  unfold pinba_view___report_snapshot_t.data_switch___by_packet
  split <;> simp [STORE_FIELD]

theorem percentile_d_ne_none (rinfo : report_info_t) (histogram : histogram_obj) (percentile : ℚ)
    (hhv : rinfo.hv_kind ≠ .other) :
    pinba_view___report_snapshot_t.percentile_d rinfo histogram percentile ≠ none := by
  unfold pinba_view___report_snapshot_t.percentile_d
  cases h : rinfo.hv_kind
  · simp
  · simp
  · exact absurd h hhv

theorem percentile_fields_ne_aborted (rinfo : report_info_t) (d : pinba_share_data_t)
    (conf : pinba_view_conf_t) (row : snapshot_row_t) (pos_ findex : Nat)
    (hconf : d.view_conf = some conf) (hhv : rinfo.hv_kind ≠ .other) :
    (pinba_view___report_snapshot_t.percentile_fields rinfo (some d) row pos_ findex).1 ≠
      .aborted := by
  unfold pinba_view___report_snapshot_t.percentile_fields
  simp only [Option.some_bind, hconf]
  split
  · cases hh : row.histogram with
    | none => simp
    | some histogram =>
      simp only
      split
      · next heq => exact absurd heq (percentile_d_ne_none rinfo histogram _ hhv)
      · simp [STORE_FIELD]
  · simp

theorem rnd_next_field_ne_aborted (rinfo : report_info_t) (d : pinba_share_data_t)
    (conf : pinba_view_conf_t) (row : snapshot_row_t) (pos_ field_index : Nat)
    (hconf : d.view_conf = some conf) (hhv : rinfo.hv_kind ≠ .other) :
    (pinba_view___report_snapshot_t.rnd_next_field rinfo (some d) row pos_ field_index).1 ≠
      .aborted := by
  unfold pinba_view___report_snapshot_t.rnd_next_field
  simp only
  split
  · simp
  · cases hk : rinfo.kind <;> simp only
    · split
      · exact data_switch___by_request_ne_aborted _ _ _
      · exact percentile_fields_ne_aborted rinfo d conf row pos_ _ hconf hhv
    · split
      · exact data_switch___by_timer_ne_aborted _ _ _
      · exact percentile_fields_ne_aborted rinfo d conf row pos_ _ hconf hhv
    · split
      · exact data_switch___by_packet_ne_aborted _ _
      · exact percentile_fields_ne_aborted rinfo d conf row pos_ _ hconf hhv
    · exact percentile_fields_ne_aborted rinfo d conf row pos_ _ hconf hhv

theorem row_aborted_field_loop (table : TABLE) (body : Nat → field_outcome × List pinba_event)
    (hbody : ∀ c, (body c).1 ≠ .aborted) :
    row_aborted (field_loop table body) = false := by
  unfold row_aborted field_loop
  rw [List.any_eq_false]
  intro r hr
  obtain ⟨c, _, rfl⟩ := List.mem_map.mp hr
  split
  · simpa using hbody c
  · simp

theorem rnd_next_row (self : pinba_view___report_snapshot_t) (table : TABLE)
    (snapshot : report_snapshot_t) (row : snapshot_row_t) (d : pinba_share_data_t)
    (conf : pinba_view_conf_t)
    (hsnap : self.snapshot_ = some snapshot)
    (hrow : snapshot.rows[self.pos_]? = some row)
    (hdata : self.share_data_ = some d) (hconf : d.view_conf = some conf)
    (hhv : snapshot.rinfo.hv_kind ≠ .other) :
    pinba_view___report_snapshot_t.rnd_next self table =
      some (0, { self with pos_ := self.pos_ + 1 },
        field_loop table (pinba_view___report_snapshot_t.rnd_next_field snapshot.rinfo
          self.share_data_ row self.pos_)) := by
  have hlt : self.pos_ < snapshot.rows.length := by
    rcases Nat.lt_or_ge self.pos_ snapshot.rows.length with h | h
    · exact h
    · rw [List.getElem?_eq_none h] at hrow
      exact absurd hrow (by simp)
  have hab : row_aborted (field_loop table
      (pinba_view___report_snapshot_t.rnd_next_field snapshot.rinfo self.share_data_ row
        self.pos_)) = false := by
    apply row_aborted_field_loop
    intro c
    rw [hdata]
    exact rnd_next_field_ne_aborted _ d conf row _ c hconf hhv
  unfold pinba_view___report_snapshot_t.rnd_next
  simp only [hsnap, report_snapshot_t.pos_equal, report_snapshot_t.pos_last,
    report_snapshot_t.pos_next, hrow, hab]
  simp [Nat.ne_of_lt hlt]

theorem rnd_next_exhausted (self : pinba_view___report_snapshot_t) (table : TABLE)
    (snapshot : report_snapshot_t)
    (hsnap : self.snapshot_ = some snapshot)
    (hpos : self.pos_ = snapshot.pos_last) :
    pinba_view___report_snapshot_t.rnd_next self table = some (HA_ERR_END_OF_FILE, self, []) := by
  unfold pinba_view___report_snapshot_t.rnd_next
  simp [hsnap, report_snapshot_t.pos_equal, hpos]

theorem scan_from (table : TABLE) (snapshot : report_snapshot_t) (d : pinba_share_data_t)
    (conf : pinba_view_conf_t) (hconf : d.view_conf = some conf)
    (hhv : snapshot.rinfo.hv_kind ≠ .other) :
    ∀ (n : Nat) (self : pinba_view___report_snapshot_t),
      self.snapshot_ = some snapshot → self.share_data_ = some d →
      self.pos_ ≤ snapshot.rows.length →
      ∃ results, pinba_view___report_snapshot_t.scan table n self =
          some (results, { self with pos_ := min (self.pos_ + n) snapshot.rows.length }) ∧
        results.map Prod.fst =
          List.replicate (min n (snapshot.rows.length - self.pos_)) 0 ++
            List.replicate (n - (snapshot.rows.length - self.pos_)) HA_ERR_END_OF_FILE ∧
        ∀ j row, j < n → snapshot.rows[self.pos_ + j]? = some row →
          results[j]? = some (0, field_loop table
            (pinba_view___report_snapshot_t.rnd_next_field snapshot.rinfo (some d) row
              (self.pos_ + j))) := by
  intro n
  induction n with
  | zero =>
    intro self _ _ hle
    refine ⟨[], ?_, by simp, by intro j row hj; omega⟩
    simp [pinba_view___report_snapshot_t.scan, Nat.min_eq_left hle]
  | succ n ih =>
    intro self hsnap hdata hle
    rcases Nat.lt_or_ge self.pos_ snapshot.rows.length with hlt | hge
    · have hrow : snapshot.rows[self.pos_]? = some (snapshot.rows[self.pos_]) :=
        List.getElem?_eq_getElem hlt
      have hnext := rnd_next_row self table snapshot _ d conf hsnap hrow hdata hconf hhv
      obtain ⟨rest, hrest, hcodes, hsteps⟩ :=
        ih { self with pos_ := self.pos_ + 1 } hsnap hdata (by simpa using hlt)
      refine ⟨(0, field_loop table (pinba_view___report_snapshot_t.rnd_next_field snapshot.rinfo
          self.share_data_ snapshot.rows[self.pos_] self.pos_)) :: rest, ?_, ?_, ?_⟩
      · simp only [pinba_view___report_snapshot_t.scan, hnext, hrest]
        have : min (self.pos_ + 1 + n) snapshot.rows.length =
            min (self.pos_ + (n + 1)) snapshot.rows.length := by
          congr 1; omega
        simp [this]
      · simp only [List.map_cons, hcodes]
        have h1 : min (n + 1) (snapshot.rows.length - self.pos_) =
            min n (snapshot.rows.length - (self.pos_ + 1)) + 1 := by omega
        have h2 : n + 1 - (snapshot.rows.length - self.pos_) =
            n - (snapshot.rows.length - (self.pos_ + 1)) := by omega
        rw [h1, h2, List.replicate_succ]
        rfl
      · intro j row hj hjrow
        cases j with
        | zero =>
          simp only [Nat.add_zero] at hjrow
          rw [hrow] at hjrow
          have := Option.some.inj hjrow
          subst this
          simp [hdata]
        | succ j =>
          have := hsteps j row (by omega) (by
            have : self.pos_ + 1 + j = self.pos_ + (j + 1) := by omega
            simpa [this] using hjrow)
          have he : self.pos_ + 1 + j = self.pos_ + (j + 1) := by omega
          simpa [he] using this
    · have hpos : self.pos_ = snapshot.pos_last := by
        simp only [report_snapshot_t.pos_last]; omega
      have hnext := rnd_next_exhausted self table snapshot hsnap hpos
      obtain ⟨rest, hrest, hcodes, _⟩ := ih self hsnap hdata hle
      refine ⟨(HA_ERR_END_OF_FILE, []) :: rest, ?_, ?_, ?_⟩
      · simp only [pinba_view___report_snapshot_t.scan, hnext, hrest]
        have : min (self.pos_ + n) snapshot.rows.length =
            min (self.pos_ + (n + 1)) snapshot.rows.length := by omega
        simp [this]
      · simp only [List.map_cons, hcodes]
        have h0 : snapshot.rows.length - self.pos_ = 0 := by omega
        simp [h0, List.replicate_succ]
      · intro j row hj hjrow
        have : snapshot.rows.length ≤ self.pos_ + j := by omega
        rw [List.getElem?_eq_none this] at hjrow
        exact absurd hjrow (by simp)

theorem rnd_init_ok_shape {E : Type} (X : pinba_externals E) (ctx : pinba_mysql_ctx_t E)
    (share_ : Option Nat) (table : TABLE) (self : pinba_view___report_snapshot_t)
    (r1 : Int × pinba_view___report_snapshot_t × pinba_mysql_ctx_t E × List pinba_event)
    (hfirst : self.snapshot_ = none)
    (hinit : pinba_view___report_snapshot_t.rnd_init X ctx share_ table self = some r1)
    (hok : r1.1 = 0) :
    ∃ share conf snapshot,
      ctx.share_at share_ = some share ∧ share.view_conf = some conf ∧
      r1.2.1.snapshot_ = some snapshot ∧ r1.2.1.pos_ = 0 ∧
      r1.2.1.share_data_ = some share.topinba_share_data_t ∧
      r1.2.2.1.shares = ctx.shares ∧ r1.2.2.1.open_shares = ctx.open_shares := by
  unfold pinba_view___report_snapshot_t.rnd_init at hinit
  simp only [hfirst, Option.isSome_none, Bool.false_eq_true, ↓reduceIte] at hinit
  split at hinit
  · exact absurd hinit (by simp)
  · next share hshare =>
    split at hinit
    · have h := Option.some.inj hinit
      rw [← h] at hok
      exact absurd hok (by simp [HA_ERR_INTERNAL_ERROR])
    · split at hinit
      · exact absurd hinit (by simp)
      · next conf hconf =>
        split at hinit
        · exact absurd hinit (by simp)
        · have h := Option.some.inj hinit
          rw [← h]
          exact ⟨share, conf, _, hshare, hconf, rfl, rfl, rfl, rfl, rfl⟩

/-- C4. After a successful first `rnd_init` of a report snapshot view whose
snapshot has one of the two known histogram kinds, for every table (every
set of requested columns, the empty one included) and every number n of
`rnd_next` calls made in a row: all n calls return; the first row_count()
of them return 0 and the others `HA_ERR_END_OF_FILE`, so exactly
min n row_count() rows are returned; the row returned by call j is the one
at cursor position j; the cursor stands at min n row_count(), one position
further per returned row and no further after the last; and once the rows
are used up another `rnd_next` returns `HA_ERR_END_OF_FILE` and leaves the
view as it is. -/
theorem scan_returns_row_count_rows_then_exhausted {E : Type} (X : pinba_externals E)
    (ctx : pinba_mysql_ctx_t E) (share_ : Option Nat) (table0 : TABLE)
    (self0 : pinba_view___report_snapshot_t)
    (r1 : Int × pinba_view___report_snapshot_t × pinba_mysql_ctx_t E × List pinba_event)
    (hfirst : self0.snapshot_ = none)
    (hinit : pinba_view___report_snapshot_t.rnd_init X ctx share_ table0 self0 = some r1)
    (hok : r1.1 = 0)
    (hhv : ∀ snapshot, r1.2.1.snapshot_ = some snapshot → snapshot.rinfo.hv_kind ≠ .other) :
    ∃ snapshot, r1.2.1.snapshot_ = some snapshot ∧ r1.2.1.pos_ = snapshot.pos_first ∧
      ∀ (table : TABLE) (n : Nat), ∃ results,
        pinba_view___report_snapshot_t.scan table n r1.2.1 =
          some (results, { r1.2.1 with pos_ := min n snapshot.row_count }) ∧
        results.map Prod.fst =
          List.replicate (min n snapshot.row_count) 0 ++
            List.replicate (n - snapshot.row_count) HA_ERR_END_OF_FILE ∧
        (results.map Prod.fst).count 0 = min n snapshot.row_count ∧
        (∀ j row, j < n → snapshot.rows[j]? = some row →
          results[j]? = some (0, field_loop table
            (pinba_view___report_snapshot_t.rnd_next_field snapshot.rinfo r1.2.1.share_data_
              row j))) ∧
        (snapshot.row_count ≤ n →
          pinba_view___report_snapshot_t.rnd_next
              { r1.2.1 with pos_ := min n snapshot.row_count } table =
            some (HA_ERR_END_OF_FILE, { r1.2.1 with pos_ := min n snapshot.row_count }, [])) := by
  obtain ⟨share, conf, snapshot, _, hconf, hsnap, hpos, hdata, _, _⟩ :=
    rnd_init_ok_shape X ctx share_ table0 self0 r1 hfirst hinit hok
  refine ⟨snapshot, hsnap, by simpa [report_snapshot_t.pos_first] using hpos, ?_⟩
  intro table n
  obtain ⟨results, hscan, hcodes, hsteps⟩ :=
    scan_from table snapshot share.topinba_share_data_t conf hconf (hhv snapshot hsnap) n r1.2.1
      hsnap hdata (by omega)
  simp only [hpos, Nat.zero_add, Nat.sub_zero] at hscan hcodes hsteps
  refine ⟨results, ?_, ?_, ?_, ?_, ?_⟩
  · simpa [report_snapshot_t.row_count] using hscan
  · simpa [report_snapshot_t.row_count] using hcodes
  · rw [hcodes]
    simp [List.count_replicate, HA_ERR_END_OF_FILE, report_snapshot_t.row_count]
  · intro j row hj hjrow
    rw [hdata]
    exact hsteps j row hj hjrow
  · intro hn
    apply rnd_next_exhausted _ table snapshot
    · simpa using hsnap
    · simp only [report_snapshot_t.row_count] at hn ⊢
      simp [report_snapshot_t.pos_last, Nat.min_eq_right hn]

theorem scan_returns_row_count_rows_then_exhausted_witness :
    example_closed_view.snapshot_ = none ∧
    (∃ r1, pinba_view___report_snapshot_t.rnd_init example_externals example_ctx (some 0)
        example_table_13 example_closed_view = some r1 ∧ r1.1 = 0 ∧
      (∀ snapshot, r1.2.1.snapshot_ = some snapshot → snapshot.rinfo.hv_kind ≠ .other) ∧
      ∃ results, pinba_view___report_snapshot_t.scan example_table_13 5 r1.2.1 =
          some (results, { r1.2.1 with pos_ := 2 }) ∧
        results.map Prod.fst =
          [0, 0, HA_ERR_END_OF_FILE, HA_ERR_END_OF_FILE, HA_ERR_END_OF_FILE]) := by
  have hinit := rnd_init_first_fetched example_externals example_ctx (some 0) example_table_13
    example_closed_view example_share example_conf example_snapshot true rfl rfl rfl
    (by decide) rfl
  refine ⟨rfl, _, hinit, rfl, ?_, ?_⟩
  · intro snapshot hs
    have h := Option.some.inj hs
    rw [← h]
    decide
  · obtain ⟨snapshot, hs, _, hscan⟩ :=
      scan_returns_row_count_rows_then_exhausted example_externals example_ctx (some 0)
        example_table_13 example_closed_view _ rfl hinit rfl (by
          intro snapshot hs
          have h := Option.some.inj hs
          rw [← h]
          decide)
    have h := Option.some.inj hs
    obtain ⟨results, h1, h2, _⟩ := hscan example_table_13 5
    rw [← h] at h1 h2
    exact ⟨results, h1, h2⟩

theorem rnd_init_twice_fetches_once_witness :
    example_closed_view.snapshot_ = none ∧
    ∃ r1, pinba_view___report_snapshot_t.rnd_init example_externals example_ctx (some 0)
        example_table_13 example_closed_view = some r1 ∧ r1.1 = 0 ∧
      pinba_view___report_snapshot_t.rnd_init example_externals r1.2.2.1 (some 0)
        example_table_13 r1.2.1 = some (0, r1.2.1, r1.2.2.1, []) := by
  have hinit := rnd_init_first_fetched example_externals example_ctx (some 0) example_table_13
    example_closed_view example_share example_conf example_snapshot true rfl rfl rfl
    (by decide) rfl
  exact ⟨rfl, _, hinit, rfl,
    (rnd_init_twice_fetches_once example_externals example_ctx (some 0) example_table_13
      example_closed_view _ (some 0) example_table_13 rfl hinit rfl).2.1⟩

/-! ## The columns of one row of the report snapshot view -/

theorem field_loop_at (table : TABLE) (body : Nat → field_outcome × List pinba_event) (c : Nat)
    (hc : c < table.n_fields) :
    (field_loop table body)[c]? =
      some (if bitmap_is_set table.read_set c then
        { field_index := c, outcome := (body c).1, reads := (body c).2 }
      else { field_index := c, outcome := .untouched, reads := [] }) := by
  unfold field_loop TABLE.field
  simp [List.getElem?_map, List.getElem?_range hc]

theorem emitted_columns_map (read_set : Nat → Bool)
    (body : Nat → field_outcome × List pinba_event) (l : List Nat) :
    emitted_columns (l.map (fun field_index =>
      if bitmap_is_set read_set field_index then
        ({ field_index := field_index
           outcome := (body field_index).1
           reads := (body field_index).2 } : field_step)
      else { field_index := field_index, outcome := .untouched, reads := [] })) =
    l.filter (fun c => bitmap_is_set read_set c && (body c).1.is_emitted) := by
  induction l with
  | nil => rfl
  | cons a l ih =>
    unfold emitted_columns at ih ⊢
    simp only [List.map_cons, List.filter_cons]
    have h0 : field_outcome.untouched.is_emitted = false := rfl
    cases hb : bitmap_is_set read_set a
    · simp [h0, ih]
    · cases he : (body a).1.is_emitted <;> simp [he, ih]

theorem stored_columns_map (read_set : Nat → Bool)
    (body : Nat → field_outcome × List pinba_event) (l : List Nat)
    (hreads : ∀ c, stored_columns (body c).2 = []) :
    stored_columns (row_events (l.map (fun field_index =>
      if bitmap_is_set read_set field_index then
        ({ field_index := field_index
           outcome := (body field_index).1
           reads := (body field_index).2 } : field_step)
      else { field_index := field_index, outcome := .untouched, reads := [] }))) =
    l.filter (fun c => bitmap_is_set read_set c && (body c).1.is_stored) := by
  induction l with
  | nil => rfl
  | cons a l ih =>
    unfold stored_columns row_events at ih ⊢
    simp only [List.map_cons, List.flatMap_cons, List.filterMap_append, List.filter_cons]
    rw [ih]
    have hr := hreads a
    unfold stored_columns at hr
    cases hb : bitmap_is_set read_set a
    · simp [field_calls]
    · cases ho : (body a).1 <;> simp [ho, field_outcome.is_stored, field_calls, hr]

theorem notnull_columns_map (read_set : Nat → Bool)
    (body : Nat → field_outcome × List pinba_event) (l : List Nat)
    (hreads : ∀ c, notnull_columns (body c).2 = []) :
    notnull_columns (row_events (l.map (fun field_index =>
      if bitmap_is_set read_set field_index then
        ({ field_index := field_index
           outcome := (body field_index).1
           reads := (body field_index).2 } : field_step)
      else { field_index := field_index, outcome := .untouched, reads := [] }))) =
    l.filter (fun c => bitmap_is_set read_set c && (body c).1.is_stored) := by
  induction l with
  | nil => rfl
  | cons a l ih =>
    unfold notnull_columns row_events at ih ⊢
    simp only [List.map_cons, List.flatMap_cons, List.filterMap_append, List.filter_cons]
    rw [ih]
    have hr := hreads a
    unfold notnull_columns at hr
    cases hb : bitmap_is_set read_set a
    · simp [field_calls]
    · cases ho : (body a).1 <;> simp [ho, field_outcome.is_stored, field_calls, hr]

theorem filter_lt_range (n w : Nat) :
    (List.range n).filter (fun c => decide (c < w)) = List.range (min w n) := by
  induction n with
  | zero => simp
  | succ n ih =>
    rw [List.range_succ, List.filter_append, ih]
    rcases Nat.lt_or_ge n w with h | h
    · have h1 : min w n = n := by omega
      have h2 : min w (n + 1) = n + 1 := by omega
      simp [h, h1, h2, List.range_succ]
    · have h1 : min w n = w := by omega
      have h2 : min w (n + 1) = w := by omega
      have h3 : ¬ n < w := by omega
      simp [h3, h1, h2]

theorem data_switch___by_request_is_stored (rinfo : report_info_t)
    (row : report_row_data___by_request_t) (findex : Nat)
    (h : findex < pinba_view___report_snapshot_t.n_data_fields___by_request) :
    (pinba_view___report_snapshot_t.data_switch___by_request rinfo row findex).is_stored =
      true := by
  unfold pinba_view___report_snapshot_t.n_data_fields___by_request at h
  interval_cases findex <;> rfl

theorem data_switch___by_timer_is_stored (rinfo : report_info_t)
    (row : report_row_data___by_timer_t) (findex : Nat)
    (h : findex < pinba_view___report_snapshot_t.n_data_fields___by_timer) :
    (pinba_view___report_snapshot_t.data_switch___by_timer rinfo row findex).is_stored = true := by
  unfold pinba_view___report_snapshot_t.n_data_fields___by_timer at h
  interval_cases findex <;> rfl

theorem data_switch___by_packet_is_stored (row : report_row_data___by_packet_t) (findex : Nat)
    (h : findex < pinba_view___report_snapshot_t.n_data_fields___by_packet) :
    (pinba_view___report_snapshot_t.data_switch___by_packet row findex).is_stored = true := by
  unfold pinba_view___report_snapshot_t.n_data_fields___by_packet at h
  interval_cases findex <;> rfl

theorem rnd_next_field_key (rinfo : report_info_t) (sd : Option pinba_share_data_t)
    (row : snapshot_row_t) (pos_ c : Nat) (hc : c < rinfo.n_key_parts) :
    pinba_view___report_snapshot_t.rnd_next_field rinfo sd row pos_ c =
      (.stored (.str (row.key c)), []) := by
  unfold pinba_view___report_snapshot_t.rnd_next_field
  simp [hc]

theorem rnd_next_field_data_is_stored (rinfo : report_info_t) (sd : Option pinba_share_data_t)
    (row : snapshot_row_t) (pos_ c : Nat) (hlo : rinfo.n_key_parts ≤ c)
    (hhi : c < rinfo.n_key_parts + data_field_count rinfo.kind) :
    (pinba_view___report_snapshot_t.rnd_next_field rinfo sd row pos_ c).1.is_stored = true ∧
    (pinba_view___report_snapshot_t.rnd_next_field rinfo sd row pos_ c).2 = [] := by
  unfold pinba_view___report_snapshot_t.rnd_next_field
  have h1 : ¬ c < rinfo.n_key_parts := by omega
  simp only [h1, ↓reduceIte]
  cases hk : rinfo.kind <;> simp only [hk, data_field_count] at hhi ⊢
  · have h2 : c - rinfo.n_key_parts <
        pinba_view___report_snapshot_t.n_data_fields___by_request := by omega
    simp only [h2, ↓reduceIte]
    exact ⟨data_switch___by_request_is_stored _ _ _ h2, trivial⟩
  · have h2 : c - rinfo.n_key_parts <
        pinba_view___report_snapshot_t.n_data_fields___by_timer := by omega
    simp only [h2, ↓reduceIte]
    exact ⟨data_switch___by_timer_is_stored _ _ _ h2, trivial⟩
  · have h2 : c - rinfo.n_key_parts <
        pinba_view___report_snapshot_t.n_data_fields___by_packet := by omega
    simp only [h2, ↓reduceIte]
    exact ⟨data_switch___by_packet_is_stored _ _ h2, trivial⟩
  · omega

theorem rnd_next_field_percentile (rinfo : report_info_t) (sd : Option pinba_share_data_t)
    (row : snapshot_row_t) (pos_ c : Nat)
    (hlo : rinfo.n_key_parts + data_field_count rinfo.kind ≤ c) :
    pinba_view___report_snapshot_t.rnd_next_field rinfo sd row pos_ c =
      pinba_view___report_snapshot_t.percentile_fields rinfo sd row pos_
        (c - rinfo.n_key_parts - data_field_count rinfo.kind) := by
  unfold pinba_view___report_snapshot_t.rnd_next_field
  cases hk : rinfo.kind <;> simp only [hk, data_field_count] at hlo ⊢
  · have h1 : ¬ c < rinfo.n_key_parts := by
      unfold pinba_view___report_snapshot_t.n_data_fields___by_request at hlo; omega
    have h2 : ¬ c - rinfo.n_key_parts <
        pinba_view___report_snapshot_t.n_data_fields___by_request := by omega
    simp only [h1, h2, ↓reduceIte]
  · have h1 : ¬ c < rinfo.n_key_parts := by
      unfold pinba_view___report_snapshot_t.n_data_fields___by_timer at hlo; omega
    have h2 : ¬ c - rinfo.n_key_parts <
        pinba_view___report_snapshot_t.n_data_fields___by_timer := by omega
    simp only [h1, h2, ↓reduceIte]
  · have h1 : ¬ c < rinfo.n_key_parts := by
      unfold pinba_view___report_snapshot_t.n_data_fields___by_packet at hlo; omega
    have h2 : ¬ c - rinfo.n_key_parts <
        pinba_view___report_snapshot_t.n_data_fields___by_packet := by omega
    simp only [h1, h2, ↓reduceIte]
  · have h1 : ¬ c < rinfo.n_key_parts := by omega
    simp only [h1, ↓reduceIte, Nat.sub_zero]

theorem percentile_fields_without_histogram (rinfo : report_info_t) (d : pinba_share_data_t)
    (conf : pinba_view_conf_t) (row : snapshot_row_t) (pos_ findex : Nat)
    (hconf : d.view_conf = some conf) (hp : conf.percentiles.length < UINT_RANGE)
    (hj : findex < conf.percentiles.length) (hh : row.histogram = none) :
    pinba_view___report_snapshot_t.percentile_fields rinfo (some d) row pos_ findex =
      (.left_null, [.get_histogram pos_]) := by
  unfold pinba_view___report_snapshot_t.percentile_fields
  simp only [Option.some_bind, hconf, Nat.mod_eq_of_lt hp, hj, ↓reduceDIte, hh]

theorem percentile_fields_with_histogram (rinfo : report_info_t) (d : pinba_share_data_t)
    (conf : pinba_view_conf_t) (row : snapshot_row_t) (pos_ findex : Nat)
    (histogram : histogram_obj) (pj : ℚ) (dd : duration_t)
    (hconf : d.view_conf = some conf) (hp : conf.percentiles.length < UINT_RANGE)
    (hpj : conf.percentiles[findex]? = some pj) (hh : row.histogram = some histogram)
    (hd : pinba_view___report_snapshot_t.percentile_d rinfo histogram pj = some dd) :
    pinba_view___report_snapshot_t.percentile_fields rinfo (some d) row pos_ findex =
      (.stored (.real (duration_seconds_as_double dd)),
        [.get_histogram pos_, .get_percentile pos_ pj]) := by
  have hj : findex < conf.percentiles.length := by
    rcases Nat.lt_or_ge findex conf.percentiles.length with h | h
    · exact h
    · rw [List.getElem?_eq_none h] at hpj
      exact absurd hpj (by simp)
  have hget : conf.percentiles[findex] = pj := by
    rw [List.getElem?_eq_getElem hj] at hpj
    exact Option.some.inj hpj
  unfold pinba_view___report_snapshot_t.percentile_fields
  simp only [Option.some_bind, hconf, Nat.mod_eq_of_lt hp, hj, ↓reduceDIte, hh, List.get_eq_getElem,
    hget, hd, STORE_FIELD]

theorem percentile_fields_beyond (rinfo : report_info_t) (d : pinba_share_data_t)
    (conf : pinba_view_conf_t) (row : snapshot_row_t) (pos_ findex : Nat)
    (hconf : d.view_conf = some conf)
    (hj : conf.percentiles.length ≤ findex) :
    pinba_view___report_snapshot_t.percentile_fields rinfo (some d) row pos_ findex =
      (.untouched, []) := by
  unfold pinba_view___report_snapshot_t.percentile_fields
  have h : ¬ findex < conf.percentiles.length % UINT_RANGE := by
    have := Nat.mod_le conf.percentiles.length UINT_RANGE
    omega
  simp only [Option.some_bind, hconf, h, ↓reduceDIte]

theorem percentile_fields_reads (rinfo : report_info_t) (sd : Option pinba_share_data_t)
    (row : snapshot_row_t) (pos_ findex : Nat) :
    stored_columns (pinba_view___report_snapshot_t.percentile_fields rinfo sd row pos_ findex).2 =
      [] ∧
    notnull_columns (pinba_view___report_snapshot_t.percentile_fields rinfo sd row pos_ findex).2 =
      [] := by
  unfold pinba_view___report_snapshot_t.percentile_fields
  split
  · exact ⟨rfl, rfl⟩
  · simp only
    split
    · split
      · exact ⟨rfl, rfl⟩
      · split
        · exact ⟨rfl, rfl⟩
        · exact ⟨rfl, rfl⟩
    · exact ⟨rfl, rfl⟩

theorem rnd_next_field_reads (rinfo : report_info_t) (sd : Option pinba_share_data_t)
    (row : snapshot_row_t) (pos_ c : Nat) :
    stored_columns (pinba_view___report_snapshot_t.rnd_next_field rinfo sd row pos_ c).2 = [] ∧
    notnull_columns (pinba_view___report_snapshot_t.rnd_next_field rinfo sd row pos_ c).2 = [] := by
  unfold pinba_view___report_snapshot_t.rnd_next_field
  simp only
  split
  · exact ⟨rfl, rfl⟩
  · cases rinfo.kind <;> simp only
    · split
      · exact ⟨rfl, rfl⟩
      · exact percentile_fields_reads _ _ _ _ _
    · split
      · exact ⟨rfl, rfl⟩
      · exact percentile_fields_reads _ _ _ _ _
    · split
      · exact ⟨rfl, rfl⟩
      · exact percentile_fields_reads _ _ _ _ _
    · exact percentile_fields_reads _ _ _ _ _

theorem rnd_next_field_is_emitted (rinfo : report_info_t) (d : pinba_share_data_t)
    (conf : pinba_view_conf_t) (row : snapshot_row_t) (pos_ c : Nat)
    (hconf : d.view_conf = some conf) (hhv : rinfo.hv_kind ≠ .other)
    (hp : conf.percentiles.length < UINT_RANGE) :
    (pinba_view___report_snapshot_t.rnd_next_field rinfo (some d) row pos_ c).1.is_emitted =
      decide (c < rinfo.n_key_parts + data_field_count rinfo.kind + conf.percentiles.length) ∧
    (pinba_view___report_snapshot_t.rnd_next_field rinfo (some d) row pos_ c).1.is_stored =
      decide (c < (if row.histogram.isSome then
        rinfo.n_key_parts + data_field_count rinfo.kind + conf.percentiles.length
        else rinfo.n_key_parts + data_field_count rinfo.kind)) := by
  rcases Nat.lt_or_ge c rinfo.n_key_parts with hk | hk
  · rw [rnd_next_field_key _ _ _ _ _ hk]
    have h1 : c < rinfo.n_key_parts + data_field_count rinfo.kind +
        conf.percentiles.length := by omega
    have h2 : c < (if row.histogram.isSome then
        rinfo.n_key_parts + data_field_count rinfo.kind + conf.percentiles.length
        else rinfo.n_key_parts + data_field_count rinfo.kind) := by split <;> omega
    simp [field_outcome.is_emitted, field_outcome.is_stored, h1, h2]
  · rcases Nat.lt_or_ge c (rinfo.n_key_parts + data_field_count rinfo.kind) with hf | hf
    · have hs := (rnd_next_field_data_is_stored rinfo (some d) row pos_ c hk hf).1
      have h1 : c < rinfo.n_key_parts + data_field_count rinfo.kind +
          conf.percentiles.length := by omega
      have h2 : c < (if row.histogram.isSome then
          rinfo.n_key_parts + data_field_count rinfo.kind + conf.percentiles.length
          else rinfo.n_key_parts + data_field_count rinfo.kind) := by split <;> omega
      have he : (pinba_view___report_snapshot_t.rnd_next_field rinfo (some d) row pos_
          c).1.is_emitted = true := by
        revert hs
        cases (pinba_view___report_snapshot_t.rnd_next_field rinfo (some d) row pos_ c).1 <;>
          simp [field_outcome.is_emitted, field_outcome.is_stored]
      simp [hs, he, h1, h2]
    · rw [rnd_next_field_percentile _ _ _ _ _ hf]
      rcases Nat.lt_or_ge (c - rinfo.n_key_parts - data_field_count rinfo.kind)
        conf.percentiles.length with hj | hj
      · have h1 : c < rinfo.n_key_parts + data_field_count rinfo.kind +
            conf.percentiles.length := by omega
        cases hh : row.histogram with
        | none =>
          rw [percentile_fields_without_histogram rinfo d conf row pos_ _ hconf hp hj hh]
          have h2 : ¬ c < rinfo.n_key_parts + data_field_count rinfo.kind := by omega
          simp [field_outcome.is_emitted, field_outcome.is_stored, h1, h2]
        | some histogram =>
          have hpj : conf.percentiles[c - rinfo.n_key_parts - data_field_count rinfo.kind]? =
              some (conf.percentiles[c - rinfo.n_key_parts - data_field_count rinfo.kind]) :=
            List.getElem?_eq_getElem hj
          cases hd : pinba_view___report_snapshot_t.percentile_d rinfo histogram
              (conf.percentiles[c - rinfo.n_key_parts - data_field_count rinfo.kind]) with
          | none => exact absurd hd (percentile_d_ne_none rinfo histogram _ hhv)
          | some dd =>
            rw [percentile_fields_with_histogram rinfo d conf row pos_ _ histogram _ dd hconf hp
              hpj hh hd]
            simp [field_outcome.is_emitted, field_outcome.is_stored, h1]
      · rw [percentile_fields_beyond rinfo d conf row pos_ _ hconf hj]
        have h1 : ¬ c < rinfo.n_key_parts + data_field_count rinfo.kind +
            conf.percentiles.length := by omega
        have h2 : ¬ c < (if row.histogram.isSome then
            rinfo.n_key_parts + data_field_count rinfo.kind + conf.percentiles.length
            else rinfo.n_key_parts + data_field_count rinfo.kind) := by split <;> omega
        simp [field_outcome.is_emitted, field_outcome.is_stored, h1, h2]

/-- C3. For one `rnd_next` of a report snapshot view on a row of its snapshot,
with k key parts, the kind's fixed column count (11, 10 or 7) and p configured
percentiles, on a table that has at least k + fixed_count + p columns and all
of whose columns are requested: the call returns a row, and the columns it
produces for the sink, as a value or as null, are the indices 0, 1, ...,
k + fixed_count + p - 1, each once; no column with index at or beyond
k + fixed_count + p is produced or receives `set_notnull` or `store`. The
columns that receive `set_notnull` and `store` are all k + fixed_count + p
of them when the row has a histogram, and the first k + fixed_count when it
has none (its percentile columns are the ones left null). -/
theorem full_scan_emits_layout_columns (self : pinba_view___report_snapshot_t) (table : TABLE)
    (snapshot : report_snapshot_t) (row : snapshot_row_t) (d : pinba_share_data_t)
    (conf : pinba_view_conf_t)
    (hsnap : self.snapshot_ = some snapshot)
    (hrow : snapshot.rows[self.pos_]? = some row)
    (hdata : self.share_data_ = some d) (hconf : d.view_conf = some conf)
    (hhv : snapshot.rinfo.hv_kind ≠ .other)
    (hp : conf.percentiles.length < UINT_RANGE)
    (hfull : ∀ c, c < table.n_fields → bitmap_is_set table.read_set c = true)
    (hwidth : snapshot.rinfo.n_key_parts + data_field_count snapshot.rinfo.kind +
      conf.percentiles.length ≤ table.n_fields) :
    ∃ steps view, pinba_view___report_snapshot_t.rnd_next self table = some (0, view, steps) ∧
      emitted_columns steps = List.range (snapshot.rinfo.n_key_parts +
        data_field_count snapshot.rinfo.kind + conf.percentiles.length) ∧
      (emitted_columns steps).length = snapshot.rinfo.n_key_parts +
        data_field_count snapshot.rinfo.kind + conf.percentiles.length ∧
      (∀ c, c < snapshot.rinfo.n_key_parts + data_field_count snapshot.rinfo.kind +
          conf.percentiles.length → (emitted_columns steps).count c = 1) ∧
      (∀ c, snapshot.rinfo.n_key_parts + data_field_count snapshot.rinfo.kind +
          conf.percentiles.length ≤ c →
        c ∉ emitted_columns steps ∧ c ∉ stored_columns (row_events steps) ∧
          c ∉ notnull_columns (row_events steps)) ∧
      stored_columns (row_events steps) = List.range (if row.histogram.isSome then
        snapshot.rinfo.n_key_parts + data_field_count snapshot.rinfo.kind +
          conf.percentiles.length
        else snapshot.rinfo.n_key_parts + data_field_count snapshot.rinfo.kind) ∧
      notnull_columns (row_events steps) = List.range (if row.histogram.isSome then
        snapshot.rinfo.n_key_parts + data_field_count snapshot.rinfo.kind +
          conf.percentiles.length
        else snapshot.rinfo.n_key_parts + data_field_count snapshot.rinfo.kind) := by
  have hnext := rnd_next_row self table snapshot row d conf hsnap hrow hdata hconf hhv
  have hem : emitted_columns (field_loop table
      (pinba_view___report_snapshot_t.rnd_next_field snapshot.rinfo self.share_data_ row
        self.pos_)) = List.range (snapshot.rinfo.n_key_parts +
        data_field_count snapshot.rinfo.kind + conf.percentiles.length) := by
    unfold field_loop
    rw [emitted_columns_map, hdata, TABLE.field]
    rw [List.filter_congr (q := fun c => decide (c < snapshot.rinfo.n_key_parts +
      data_field_count snapshot.rinfo.kind + conf.percentiles.length))]
    · rw [filter_lt_range, Nat.min_eq_left hwidth]
    · intro c hc
      rw [hfull c (List.mem_range.mp hc),
        (rnd_next_field_is_emitted snapshot.rinfo d conf row self.pos_ c hconf hhv hp).1]
      simp
  have hbound : (if row.histogram.isSome then
      snapshot.rinfo.n_key_parts + data_field_count snapshot.rinfo.kind +
        conf.percentiles.length
      else snapshot.rinfo.n_key_parts + data_field_count snapshot.rinfo.kind) ≤
      snapshot.rinfo.n_key_parts + data_field_count snapshot.rinfo.kind +
        conf.percentiles.length := by split <;> omega
  have hst : stored_columns (row_events (field_loop table
      (pinba_view___report_snapshot_t.rnd_next_field snapshot.rinfo self.share_data_ row
        self.pos_))) = List.range (if row.histogram.isSome then
        snapshot.rinfo.n_key_parts + data_field_count snapshot.rinfo.kind +
          conf.percentiles.length
        else snapshot.rinfo.n_key_parts + data_field_count snapshot.rinfo.kind) := by
    unfold field_loop
    rw [stored_columns_map _ _ _ (fun c => (rnd_next_field_reads _ _ _ _ c).1), hdata,
      TABLE.field]
    rw [List.filter_congr (q := fun c => decide (c < (if row.histogram.isSome then
        snapshot.rinfo.n_key_parts + data_field_count snapshot.rinfo.kind +
          conf.percentiles.length
        else snapshot.rinfo.n_key_parts + data_field_count snapshot.rinfo.kind)))]
    · rw [filter_lt_range, Nat.min_eq_left (le_trans hbound hwidth)]
    · intro c hc
      rw [hfull c (List.mem_range.mp hc),
        (rnd_next_field_is_emitted snapshot.rinfo d conf row self.pos_ c hconf hhv hp).2]
      simp
  have hnn : notnull_columns (row_events (field_loop table
      (pinba_view___report_snapshot_t.rnd_next_field snapshot.rinfo self.share_data_ row
        self.pos_))) = List.range (if row.histogram.isSome then
        snapshot.rinfo.n_key_parts + data_field_count snapshot.rinfo.kind +
          conf.percentiles.length
        else snapshot.rinfo.n_key_parts + data_field_count snapshot.rinfo.kind) := by
    unfold field_loop
    rw [notnull_columns_map _ _ _ (fun c => (rnd_next_field_reads _ _ _ _ c).2), hdata,
      TABLE.field]
    rw [List.filter_congr (q := fun c => decide (c < (if row.histogram.isSome then
        snapshot.rinfo.n_key_parts + data_field_count snapshot.rinfo.kind +
          conf.percentiles.length
        else snapshot.rinfo.n_key_parts + data_field_count snapshot.rinfo.kind)))]
    · rw [filter_lt_range, Nat.min_eq_left (le_trans hbound hwidth)]
    · intro c hc
      rw [hfull c (List.mem_range.mp hc),
        (rnd_next_field_is_emitted snapshot.rinfo d conf row self.pos_ c hconf hhv hp).2]
      simp
  refine ⟨_, _, hnext, hem, ?_, ?_, ?_, hst, hnn⟩
  · rw [hem, List.length_range]
  · intro c hc
    rw [hem]
    exact List.count_eq_one_of_mem (List.nodup_range _) (List.mem_range.mpr hc)
  · intro c hc
    rw [hem, hst, hnn]
    simp only [List.mem_range]
    refine ⟨by omega, by omega, by omega⟩

theorem full_scan_emits_layout_columns_witness :
    example_scanning_view.snapshot_ = some (example_snapshot.prepare .full) ∧
    (example_snapshot.prepare .full).rows[example_scanning_view.pos_]? =
      some (example_row (some example_histogram)) ∧
    example_scanning_view.share_data_ = some example_share.topinba_share_data_t ∧
    example_share.topinba_share_data_t.view_conf = some example_conf ∧
    (example_snapshot.prepare .full).rinfo.hv_kind ≠ .other ∧
    example_conf.percentiles.length < UINT_RANGE ∧
    (∀ c, c < example_table_full.n_fields →
      bitmap_is_set example_table_full.read_set c = true) ∧
    (example_snapshot.prepare .full).rinfo.n_key_parts +
      data_field_count (example_snapshot.prepare .full).rinfo.kind +
      example_conf.percentiles.length ≤ example_table_full.n_fields ∧
    ∃ steps view, pinba_view___report_snapshot_t.rnd_next example_scanning_view
        example_table_full = some (0, view, steps) ∧
      emitted_columns steps = List.range 15 := by
  have h5 : (example_snapshot.prepare .full).rinfo.hv_kind ≠ .other := by decide
  have h6 : example_conf.percentiles.length < UINT_RANGE := by decide
  have h8 : (example_snapshot.prepare .full).rinfo.n_key_parts +
      data_field_count (example_snapshot.prepare .full).rinfo.kind +
      example_conf.percentiles.length ≤ example_table_full.n_fields := by decide
  obtain ⟨steps, view, hnext, hem, _⟩ :=
    full_scan_emits_layout_columns example_scanning_view example_table_full
      (example_snapshot.prepare .full) (example_row (some example_histogram))
      example_share.topinba_share_data_t example_conf rfl rfl rfl rfl h5 h6 (fun _ _ => rfl) h8
  exact ⟨rfl, rfl, rfl, rfl, h5, h6, fun _ _ => rfl, h8, steps, view, hnext, hem⟩

theorem row_events_of_step (steps : List field_step) (c : Nat) (st : field_step)
    (hst : steps[c]? = some st) (e : pinba_event)
    (he : e ∈ st.reads ++ field_calls st.field_index st.outcome) :
    e ∈ row_events steps := by
  unfold row_events
  rw [List.mem_flatMap]
  exact ⟨st, List.getElem?_mem hst, he⟩

theorem rnd_next_field_data (rinfo : report_info_t) (sd : Option pinba_share_data_t)
    (row : snapshot_row_t) (pos_ i : Nat) :
    (rinfo.kind = .by_request_data → ∀ v,
      (spec_columns___by_request rinfo.time_window row.data.as_by_request)[i]? = some v →
      pinba_view___report_snapshot_t.rnd_next_field rinfo sd row pos_ (rinfo.n_key_parts + i) =
        (.stored v, [])) ∧
    (rinfo.kind = .by_timer_data → ∀ v,
      (spec_columns___by_timer rinfo.time_window row.data.as_by_timer)[i]? = some v →
      pinba_view___report_snapshot_t.rnd_next_field rinfo sd row pos_ (rinfo.n_key_parts + i) =
        (.stored v, [])) ∧
    (rinfo.kind = .by_packet_data → ∀ v,
      (spec_columns___by_packet row.data.as_by_packet)[i]? = some v →
      pinba_view___report_snapshot_t.rnd_next_field rinfo sd row pos_ (rinfo.n_key_parts + i) =
        (.stored v, [])) := by
  have hnk : ¬ rinfo.n_key_parts + i < rinfo.n_key_parts := by omega
  refine ⟨?_, ?_, ?_⟩
  · intro hk v hv
    have hi : i < 11 := by
      rcases Nat.lt_or_ge i 11 with h | h
      · exact h
      · rw [List.getElem?_eq_none (by simpa [spec_columns___by_request] using h)] at hv
        exact absurd hv (by simp)
    unfold pinba_view___report_snapshot_t.rnd_next_field
    simp only [hnk, ↓reduceIte, hk, Nat.add_sub_cancel_left,
      pinba_view___report_snapshot_t.n_data_fields___by_request, hi]
    interval_cases i <;>
      simp only [spec_columns___by_request, List.getElem?_cons_zero, List.getElem?_cons_succ,
        Option.some.injEq] at hv <;>
      subst hv <;> rfl
  · intro hk v hv
    have hi : i < 10 := by
      rcases Nat.lt_or_ge i 10 with h | h
      · exact h
      · rw [List.getElem?_eq_none (by simpa [spec_columns___by_timer] using h)] at hv
        exact absurd hv (by simp)
    unfold pinba_view___report_snapshot_t.rnd_next_field
    simp only [hnk, ↓reduceIte, hk, Nat.add_sub_cancel_left,
      pinba_view___report_snapshot_t.n_data_fields___by_timer, hi]
    interval_cases i <;>
      simp only [spec_columns___by_timer, List.getElem?_cons_zero, List.getElem?_cons_succ,
        Option.some.injEq] at hv <;>
      subst hv <;> rfl
  · intro hk v hv
    have hi : i < 7 := by
      rcases Nat.lt_or_ge i 7 with h | h
      · exact h
      · rw [List.getElem?_eq_none (by simpa [spec_columns___by_packet] using h)] at hv
        exact absurd hv (by simp)
    unfold pinba_view___report_snapshot_t.rnd_next_field
    simp only [hnk, ↓reduceIte, hk, Nat.add_sub_cancel_left,
      pinba_view___report_snapshot_t.n_data_fields___by_packet, hi]
    interval_cases i <;>
      simp only [spec_columns___by_packet, List.getElem?_cons_zero, List.getElem?_cons_succ,
        Option.some.injEq] at hv <;>
      subst hv <;> rfl

/-- C7. In one `rnd_next` of a report snapshot view on a row of its snapshot,
with k key parts: the call returns a row, and for every i and every
requested column k + i of the table, the column receives `set_notnull` and
`store` of the i-th entry of the kind's fixed column list, and nothing else:
for a by-request snapshot the 11 entries req_count, req_per_sec, time_total,
time_per_sec, cpu_user_total, cpu_user_per_sec, cpu_sys_total,
cpu_sys_per_sec, traffic_kb_total, traffic_kb_per_sec, mem_usage; for a
by-timer snapshot the 10 entries req_count, req_per_sec, hit_count,
hit_per_sec, time_total, time_per_sec, cpu_user_total, cpu_user_per_sec,
cpu_sys_total, cpu_sys_per_sec; for a by-packet snapshot the 7 entries
req_count, timer_count, time_total, cpu_user_total, cpu_sys_total,
traffic_kb, mem_usage; every per-second entry is the total divided by the
time window in seconds, as a division of doubles (`spec_columns___*`). In
the example, 120 requests in a window of 60 s store 2, and 3 s of total time
in that window store the double nearest to 1/20. -/
theorem fixed_columns_follow_kind_list (self : pinba_view___report_snapshot_t) (table : TABLE)
    (snapshot : report_snapshot_t) (row : snapshot_row_t) (d : pinba_share_data_t)
    (conf : pinba_view_conf_t)
    (hsnap : self.snapshot_ = some snapshot)
    (hrow : snapshot.rows[self.pos_]? = some row)
    (hdata : self.share_data_ = some d) (hconf : d.view_conf = some conf)
    (hhv : snapshot.rinfo.hv_kind ≠ .other) :
    ∃ steps view, pinba_view___report_snapshot_t.rnd_next self table = some (0, view, steps) ∧
      ∀ i v,
        ((snapshot.rinfo.kind = .by_request_data ∧
            (spec_columns___by_request snapshot.rinfo.time_window
              row.data.as_by_request)[i]? = some v) ∨
          (snapshot.rinfo.kind = .by_timer_data ∧
            (spec_columns___by_timer snapshot.rinfo.time_window
              row.data.as_by_timer)[i]? = some v) ∨
          (snapshot.rinfo.kind = .by_packet_data ∧
            (spec_columns___by_packet row.data.as_by_packet)[i]? = some v)) →
        snapshot.rinfo.n_key_parts + i < table.n_fields →
        bitmap_is_set table.read_set (snapshot.rinfo.n_key_parts + i) = true →
        steps[snapshot.rinfo.n_key_parts + i]? =
          some { field_index := snapshot.rinfo.n_key_parts + i, outcome := .stored v,
                 reads := [] } ∧
        pinba_event.set_notnull (snapshot.rinfo.n_key_parts + i) ∈ row_events steps ∧
        pinba_event.store (snapshot.rinfo.n_key_parts + i) v ∈ row_events steps := by
  refine ⟨_, _, rnd_next_row self table snapshot row d conf hsnap hrow hdata hconf hhv, ?_⟩
  intro i v hv hc hreq
  have hbody : pinba_view___report_snapshot_t.rnd_next_field snapshot.rinfo self.share_data_
      row self.pos_ (snapshot.rinfo.n_key_parts + i) = (.stored v, []) := by
    obtain ⟨h1, h2, h3⟩ := rnd_next_field_data snapshot.rinfo self.share_data_ row self.pos_ i
    rcases hv with ⟨hk, hv⟩ | ⟨hk, hv⟩ | ⟨hk, hv⟩
    · exact h1 hk v hv
    · exact h2 hk v hv
    · exact h3 hk v hv
  have hstep := field_loop_at table (pinba_view___report_snapshot_t.rnd_next_field
    snapshot.rinfo self.share_data_ row self.pos_) _ hc
  rw [hreq, hbody] at hstep
  simp only [↓reduceIte] at hstep
  refine ⟨hstep, ?_, ?_⟩
  · exact row_events_of_step _ _ _ hstep _ (by simp [field_calls])
  · exact row_events_of_step _ _ _ hstep _ (by simp [field_calls])

theorem fixed_columns_follow_kind_list_witness :
    example_scanning_view.snapshot_ = some (example_snapshot.prepare .full) ∧
    (example_snapshot.prepare .full).rows[example_scanning_view.pos_]? =
      some (example_row (some example_histogram)) ∧
    example_scanning_view.share_data_ = some example_share.topinba_share_data_t ∧
    example_share.topinba_share_data_t.view_conf = some example_conf ∧
    (example_snapshot.prepare .full).rinfo.hv_kind ≠ .other ∧
    ∃ steps view, pinba_view___report_snapshot_t.rnd_next example_scanning_view
        example_table_full = some (0, view, steps) ∧
      steps[3]? =
        some { field_index := 3, outcome := .stored (.real (.finite 2)), reads := [] } ∧
      steps[5]? =
        some { field_index := 5
               outcome := .stored (.real (.finite (mkRat 3602879701896397 72057594037927936)))
               reads := [] } := by
  have h5 : (example_snapshot.prepare .full).rinfo.hv_kind ≠ .other := by decide
  obtain ⟨steps, view, hnext, hcols⟩ :=
    fixed_columns_follow_kind_list example_scanning_view example_table_full
      (example_snapshot.prepare .full) (example_row (some example_histogram))
      example_share.topinba_share_data_t example_conf rfl rfl rfl rfl h5
  have h := (hcols 1 (.real (.finite 2)) (Or.inl ⟨rfl, by decide⟩) (by decide) rfl).1
  have h3 := (hcols 3 (.real (.finite (mkRat 3602879701896397 72057594037927936)))
    (Or.inl ⟨rfl, by decide⟩) (by decide) rfl).1
  exact ⟨rfl, rfl, rfl, rfl, h5, steps, view, hnext, h, h3⟩

/-- C8. In one `rnd_next` of a report snapshot view on a row of its snapshot,
for a requested column c of the table in the percentile range
[k + fixed_count, k + fixed_count + p): the call returns a row (return code
0); when the row has no histogram the column is left null, that is, after
looking up the histogram the loop moves on and the column receives neither
`set_notnull` nor `store`; when the row has a histogram the column receives
`set_notnull` and `store` of the percentile, in seconds, that the row's
histogram gives for the configured percentile number c - k - fixed_count,
read as a hashtable histogram or as a flat histogram according to the
histogram kind of the report. -/
theorem percentile_column_null_without_histogram (self : pinba_view___report_snapshot_t)
    (table : TABLE) (snapshot : report_snapshot_t) (row : snapshot_row_t)
    (d : pinba_share_data_t) (conf : pinba_view_conf_t) (c : Nat)
    (hsnap : self.snapshot_ = some snapshot)
    (hrow : snapshot.rows[self.pos_]? = some row)
    (hdata : self.share_data_ = some d) (hconf : d.view_conf = some conf)
    (hhv : snapshot.rinfo.hv_kind ≠ .other)
    (hp : conf.percentiles.length < UINT_RANGE)
    (hc : c < table.n_fields) (hreq : bitmap_is_set table.read_set c = true)
    (hlo : snapshot.rinfo.n_key_parts + data_field_count snapshot.rinfo.kind ≤ c)
    (hhi : c < snapshot.rinfo.n_key_parts + data_field_count snapshot.rinfo.kind +
      conf.percentiles.length) :
    ∃ steps view, pinba_view___report_snapshot_t.rnd_next self table = some (0, view, steps) ∧
      (row.histogram = none →
        steps[c]? = some { field_index := c, outcome := .left_null,
                           reads := [.get_histogram self.pos_] } ∧
        c ∉ notnull_columns (row_events steps) ∧ c ∉ stored_columns (row_events steps)) ∧
      (∀ histogram pj, row.histogram = some histogram →
        conf.percentiles[c - snapshot.rinfo.n_key_parts -
          data_field_count snapshot.rinfo.kind]? = some pj →
        ∃ percentile_d,
          (snapshot.rinfo.hv_kind = .hashtable →
            percentile_d = histogram.as_hashtable.get_percentile snapshot.rinfo.hv_bucket_count
              snapshot.rinfo.hv_bucket_d pj) ∧
          (snapshot.rinfo.hv_kind = .flat →
            percentile_d = histogram.as_flat.get_percentile snapshot.rinfo.hv_bucket_count
              snapshot.rinfo.hv_bucket_d pj) ∧
          steps[c]? = some { field_index := c,
                             outcome := .stored (.real (duration_seconds_as_double percentile_d)),
                             reads := [.get_histogram self.pos_,
                               .get_percentile self.pos_ pj] } ∧
          pinba_event.set_notnull c ∈ row_events steps ∧
          pinba_event.store c (.real (duration_seconds_as_double percentile_d)) ∈
            row_events steps) := by
  refine ⟨_, _, rnd_next_row self table snapshot row d conf hsnap hrow hdata hconf hhv, ?_, ?_⟩
  · intro hh
    have hbody : pinba_view___report_snapshot_t.rnd_next_field snapshot.rinfo self.share_data_
        row self.pos_ c = (.left_null, [.get_histogram self.pos_]) := by
      rw [rnd_next_field_percentile _ _ _ _ _ hlo, hdata]
      exact percentile_fields_without_histogram _ d conf row _ _ hconf hp (by omega) hh
    have hstep := field_loop_at table (pinba_view___report_snapshot_t.rnd_next_field
      snapshot.rinfo self.share_data_ row self.pos_) c hc
    rw [hreq, hbody] at hstep
    simp only [↓reduceIte] at hstep
    refine ⟨hstep, ?_, ?_⟩
    · unfold field_loop
      rw [notnull_columns_map _ _ _ (fun c => (rnd_next_field_reads _ _ _ _ c).2)]
      simp [hbody, field_outcome.is_stored]
    · unfold field_loop
      rw [stored_columns_map _ _ _ (fun c => (rnd_next_field_reads _ _ _ _ c).1)]
      simp [hbody, field_outcome.is_stored]
  · intro histogram pj hh hpj
    cases hd : pinba_view___report_snapshot_t.percentile_d snapshot.rinfo histogram pj with
    | none => exact absurd hd (percentile_d_ne_none _ histogram pj hhv)
    | some dd =>
      have hbody : pinba_view___report_snapshot_t.rnd_next_field snapshot.rinfo self.share_data_
          row self.pos_ c = (.stored (.real (duration_seconds_as_double dd)),
            [.get_histogram self.pos_, .get_percentile self.pos_ pj]) := by
        rw [rnd_next_field_percentile _ _ _ _ _ hlo, hdata]
        exact percentile_fields_with_histogram _ d conf row _ _ histogram pj dd hconf hp hpj hh hd
      have hstep := field_loop_at table (pinba_view___report_snapshot_t.rnd_next_field
        snapshot.rinfo self.share_data_ row self.pos_) c hc
      rw [hreq, hbody] at hstep
      simp only [↓reduceIte] at hstep
      refine ⟨dd, ?_, ?_, hstep, ?_, ?_⟩
      · intro hk
        unfold pinba_view___report_snapshot_t.percentile_d at hd
        simp only [hk] at hd
        exact (Option.some.inj hd).symm
      · intro hk
        unfold pinba_view___report_snapshot_t.percentile_d at hd
        simp only [hk] at hd
        exact (Option.some.inj hd).symm
      · exact row_events_of_step _ _ _ hstep _ (by simp [field_calls])
      · exact row_events_of_step _ _ _ hstep _ (by simp [field_calls])

theorem percentile_column_null_without_histogram_witness :
    example_scanning_view_row2.snapshot_ = some (example_snapshot.prepare .full) ∧
    (example_snapshot.prepare .full).rows[example_scanning_view_row2.pos_]? =
      some (example_row none) ∧
    example_scanning_view_row2.share_data_ = some example_share.topinba_share_data_t ∧
    example_share.topinba_share_data_t.view_conf = some example_conf ∧
    (example_snapshot.prepare .full).rinfo.hv_kind ≠ .other ∧
    example_conf.percentiles.length < UINT_RANGE ∧
    13 < example_table_full.n_fields ∧
    bitmap_is_set example_table_full.read_set 13 = true ∧
    (example_snapshot.prepare .full).rinfo.n_key_parts +
      data_field_count (example_snapshot.prepare .full).rinfo.kind ≤ 13 ∧
    13 < (example_snapshot.prepare .full).rinfo.n_key_parts +
      data_field_count (example_snapshot.prepare .full).rinfo.kind +
      example_conf.percentiles.length ∧
    ∃ steps view, pinba_view___report_snapshot_t.rnd_next example_scanning_view_row2
        example_table_full = some (0, view, steps) ∧
      steps[13]? = some { field_index := 13, outcome := .left_null,
                          reads := [.get_histogram 1] } ∧
      13 ∉ stored_columns (row_events steps) := by
  have h5 : (example_snapshot.prepare .full).rinfo.hv_kind ≠ .other := by decide
  have h6 : example_conf.percentiles.length < UINT_RANGE := by decide
  have h7 : 13 < example_table_full.n_fields := by decide
  have h9 : (example_snapshot.prepare .full).rinfo.n_key_parts +
      data_field_count (example_snapshot.prepare .full).rinfo.kind ≤ 13 := by decide
  have h10 : 13 < (example_snapshot.prepare .full).rinfo.n_key_parts +
      data_field_count (example_snapshot.prepare .full).rinfo.kind +
      example_conf.percentiles.length := by decide
  obtain ⟨steps, view, hnext, hnull, _⟩ :=
    percentile_column_null_without_histogram example_scanning_view_row2 example_table_full
      (example_snapshot.prepare .full) (example_row none)
      example_share.topinba_share_data_t example_conf 13 rfl rfl rfl rfl h5 h6 h7 rfl h9 h10
  exact ⟨rfl, rfl, rfl, rfl, h5, h6, h7, rfl, h9, h10, steps, view, hnext, (hnull rfl).1,
    (hnull rfl).2.2⟩

/-! ## A second `rnd_init` on the stats view -/

/-- C6 (the code departs from the claim). On a stats view, for every state,
counter source and table: `rnd_init`, `rnd_next`, `rnd_init`, `rnd_next`
returns 0 (a row) from both `rnd_next` calls, because the second `rnd_init`
collects the counters again and so re-arms the single row; without the
second `rnd_init` the second `rnd_next` returns `HA_ERR_END_OF_FILE`. The
second `rnd_init` is therefore not a no-op. -/
theorem stats_second_rnd_init_rearms_row {E : Type} (X : pinba_externals E)
    (ctx : pinba_mysql_ctx_t E) (self : pinba_view___stats_t) (table : TABLE) :
    (pinba_view___stats_t.rnd_next
      (pinba_view___stats_t.rnd_init X ctx self).2.1 table).1 = 0 ∧
    (pinba_view___stats_t.rnd_next
      (pinba_view___stats_t.rnd_next
        (pinba_view___stats_t.rnd_init X ctx self).2.1 table).2.1 table).1 =
      HA_ERR_END_OF_FILE ∧
    (pinba_view___stats_t.rnd_init X ctx
      (pinba_view___stats_t.rnd_next
        (pinba_view___stats_t.rnd_init X ctx self).2.1 table).2.1).1 = 0 ∧
    (pinba_view___stats_t.rnd_next
      (pinba_view___stats_t.rnd_init X ctx
        (pinba_view___stats_t.rnd_next
          (pinba_view___stats_t.rnd_init X ctx self).2.1 table).2.1).2.1 table).1 = 0 ∧
    (pinba_view___stats_t.rnd_next
      (pinba_view___stats_t.rnd_init X ctx
        (pinba_view___stats_t.rnd_next
          (pinba_view___stats_t.rnd_init X ctx self).2.1 table).2.1).2.1 table).1 ≠
      HA_ERR_END_OF_FILE := by
  simp [pinba_view___stats_t.rnd_init, pinba_view___stats_t.rnd_next, HA_ERR_END_OF_FILE]

theorem active_reports_rnd_init_held {E : Type} (X : pinba_externals E)
    (ctx : pinba_mysql_ctx_t E) (self : pinba_view___active_reports_t)
    (hrows : self.data_ ≠ []) :
    pinba_view___active_reports_t.rnd_init X ctx self = some (0, self, ctx, []) := by
  unfold pinba_view___active_reports_t.rnd_init
  cases h : self.data_ with
  | nil => exact absurd h hrows
  | cons a l => simp

/-! ## Configuring a share -/

/-- C9 (as amended). For a share that is not configured (no view
configuration, no report, not active) and a comment that
`pinba_view_conf_parse` accepts, when the report constructor for the parsed
kind does not throw,
`share_init_with_table_comment_locked` returns normally and leaves the share
with the parsed configuration and its table name unchanged, and: for the
kinds report_by_request, report_by_timer and report_by_packet with
report_needs_engine = true, report_active = false, the constructed report
held, and report_name equal to the table name; for the kinds stats and
active_reports with report_active = true, report_needs_engine = false and no
report. -/
theorem share_init_sets_lifecycle_flags {E : Type} (X : pinba_externals E)
    (share : pinba_share_t) (table_comment : String) (conf : pinba_view_conf_t)
    (report : Option pinba_report_t)
    (hconf : share.view_conf = none) (hreport : share.report = none)
    (hactive : share.report_active = false)
    (hparse : X.pinba_view_conf_parse share.mysql_name table_comment = .ok conf)
    (hcreate : pinba_view_report_create X conf = .ok report) :
    ∃ share1, share_init_with_table_comment_locked X share table_comment =
        some (share1, .ok ()) ∧
      share1.view_conf = some conf ∧ share1.mysql_name = share.mysql_name ∧
      (is_report_kind conf.kind = true →
        share1.report_needs_engine = true ∧ share1.report_active = false ∧
        (∃ r, share1.report = some r ∧ report = some r) ∧
        share1.report_name = share1.mysql_name) ∧
      (conf.kind = .stats ∨ conf.kind = .active_reports →
        share1.report_active = true ∧ share1.report_needs_engine = false ∧
        share1.report = none) := by
  unfold share_init_with_table_comment_locked
  simp only [hconf, hreport, hactive, hparse, hcreate, Option.isSome_none, Bool.false_eq_true,
    ↓reduceIte]
  cases hr : report with
  | none =>
    refine ⟨{ mysql_name := share.mysql_name, view_conf := some conf,
              report_name := "<virtual table: " ++ X.enum_as_str_ref conf.kind ++ ">",
              report_active := true, report_needs_engine := false, report := none },
      by simp, rfl, rfl, ?_, ?_⟩
    · intro hk
      rw [hr] at hcreate
      unfold pinba_view_report_create at hcreate
      cases hkk : conf.kind <;> simp [hkk, is_report_kind] at hk <;>
        simp only [hkk] at hcreate
      · cases h : X.create_report_by_request conf <;> simp [h] at hcreate
      · cases h : X.create_report_by_timer conf <;> simp [h] at hcreate
      · cases h : X.create_report_by_packet conf <;> simp [h] at hcreate
    · intro _
      exact ⟨rfl, rfl, rfl⟩
  | some r =>
    refine ⟨{ mysql_name := share.mysql_name, view_conf := some conf,
              report_name := share.mysql_name, report_active := false,
              report_needs_engine := true, report := some r },
      by simp, rfl, rfl, ?_, ?_⟩
    · intro _
      exact ⟨rfl, rfl, ⟨r, rfl, rfl⟩, rfl⟩
    · intro hk
      rw [hr] at hcreate
      unfold pinba_view_report_create at hcreate
      rcases hk with hk | hk <;> simp [hk] at hcreate

theorem share_init_sets_lifecycle_flags_witness :
    example_new_share.view_conf = none ∧ example_new_share.report = none ∧
    example_new_share.report_active = false ∧
    example_externals.pinba_view_conf_parse example_new_share.mysql_name "v2/request/60" =
      .ok example_conf ∧
    pinba_view_report_create example_externals example_conf = .ok (some example_report) ∧
    ∃ share1, share_init_with_table_comment_locked example_externals example_new_share
        "v2/request/60" = some (share1, .ok ()) ∧
      share1.report_needs_engine = true ∧ share1.report_active = false ∧
      share1.report = some example_report ∧ share1.report_name = "t1" := by
  obtain ⟨share1, h, _, hname, hflags, _⟩ :=
    share_init_sets_lifecycle_flags example_externals example_new_share "v2/request/60"
      example_conf (some example_report) rfl rfl rfl rfl rfl
  obtain ⟨h1, h2, ⟨r, h3, h4⟩, h5⟩ := hflags rfl
  exact ⟨rfl, rfl, rfl, rfl, rfl, share1, h, h1, h2, h3.trans (Option.some.inj h4 ▸ rfl),
    h5.trans hname⟩

/-- C9, counterexample. For the unconfigured share of t1 and the comment
`timer`, which the comment reader accepts as a by-timer report
configuration, with a report constructor that throws:
`share_init_with_table_comment_locked` throws, and the share it leaves has
report_needs_engine = false and holds no report, although the parsed kind is
report_by_timer. -/
theorem share_init_with_throwing_constructor_sets_no_flags :
    example_new_share.view_conf = none ∧ example_new_share.report = none ∧
    example_new_share.report_active = false ∧
    example_externals_strict.pinba_view_conf_parse example_new_share.mysql_name "timer" =
      .ok { kind := .report_by_timer_data, keys := [], percentiles := [] } ∧
    ∃ share1 e,
      share_init_with_table_comment_locked example_externals_strict example_new_share "timer" =
        some (share1, .error e) ∧
      share1.report_needs_engine = false ∧ share1.report = none ∧
      share1.report_active = false ∧ share1.report_name = "" :=
  ⟨rfl, rfl, rfl, rfl, _, _, rfl, rfl, rfl, rfl, rfl⟩

/-! ## Activation on the first scan -/

theorem fetch_states_no_add_report {E : Type} (X : pinba_externals E) :
    ∀ (rows : List view_row_t) (e : E),
      (pinba_view___active_reports_t.fetch_states X e rows).2.2.filter
        pinba_event.is_add_report = [] := by
  intro rows
  induction rows with
  | nil => intro e; rfl
  | cons row rest ih =>
    intro e
    unfold pinba_view___active_reports_t.fetch_states
    simp only
    split <;> simp [pinba_event.is_add_report, ih]

theorem snapshot_rnd_init_preserves {E : Type} (X : pinba_externals E)
    (ctx : pinba_mysql_ctx_t E) (share_ : Option Nat) (table : TABLE)
    (self : pinba_view___report_snapshot_t)
    (r : Int × pinba_view___report_snapshot_t × pinba_mysql_ctx_t E × List pinba_event)
    (h : pinba_view___report_snapshot_t.rnd_init X ctx share_ table self = some r) :
    r.2.2.1.shares = ctx.shares ∧ r.2.2.1.open_shares = ctx.open_shares ∧
      r.2.2.2.filter pinba_event.is_add_report = [] := by
  unfold pinba_view___report_snapshot_t.rnd_init at h
  split at h
  · rw [← Option.some.inj h]
    exact ⟨rfl, rfl, rfl⟩
  · split at h
    · exact absurd h (by simp)
    · dsimp only at h
      split at h
      · rw [← Option.some.inj h]
        exact ⟨rfl, rfl, rfl⟩
      · split at h
        · exact absurd h (by simp)
        · split at h
          · exact absurd h (by simp)
          · rw [← Option.some.inj h]
            exact ⟨rfl, rfl, rfl⟩

theorem view_rnd_init_preserves {E : Type} (X : pinba_externals E)
    (ctx : pinba_mysql_ctx_t E) (share_ : Option Nat) (table : TABLE) (view : pinba_view_t)
    (r : Int × pinba_view_t × pinba_mysql_ctx_t E × List pinba_event)
    (h : view.rnd_init X ctx share_ table = some r) :
    r.2.2.1.shares = ctx.shares ∧ r.2.2.1.open_shares = ctx.open_shares ∧
      r.2.2.2.filter pinba_event.is_add_report = [] := by
  cases view with
  | stats v =>
    simp only [pinba_view_t.rnd_init] at h
    rw [← Option.some.inj h]
    exact ⟨rfl, rfl, rfl⟩
  | active_reports v =>
    simp only [pinba_view_t.rnd_init] at h
    split at h
    · exact absurd h (by simp)
    · next r0 h0 =>
      rw [← Option.some.inj h]
      unfold pinba_view___active_reports_t.rnd_init at h0
      split at h0
      · rw [← Option.some.inj h0]
        exact ⟨rfl, rfl, rfl⟩
      · split at h0
        · exact absurd h0 (by simp)
        · rw [← Option.some.inj h0]
          refine ⟨rfl, rfl, ?_⟩
          simp [pinba_event.is_add_report, fetch_states_no_add_report]
  | report_snapshot v =>
    simp only [pinba_view_t.rnd_init] at h
    split at h
    · exact absurd h (by simp)
    · next r0 h0 =>
      rw [← Option.some.inj h]
      exact snapshot_rnd_init_preserves X ctx share_ table v r0 h0

theorem snapshot_rnd_init_defined {E : Type} (X : pinba_externals E)
    (ctx : pinba_mysql_ctx_t E) (share_ : Option Nat) (table : TABLE)
    (self : pinba_view___report_snapshot_t) (share : pinba_share_t) (conf : pinba_view_conf_t)
    (hshare : ctx.share_at share_ = some share) (hconf : share.view_conf = some conf)
    (hkind : is_report_kind conf.kind = true) :
    ∃ r, pinba_view___report_snapshot_t.rnd_init X ctx share_ table self = some r := by
  cases hs : self.snapshot_ with
  | some s => exact ⟨_, rnd_init_held X ctx share_ table self (by simp [hs])⟩
  | none =>
    cases hf : (X.get_report_snapshot ctx.engine share.report_name).2 with
    | none => exact ⟨_, rnd_init_first_failed X ctx share_ table self share hs hshare hf⟩
    | some snapshot =>
      obtain ⟨np, hnp⟩ := need_percentiles_isSome conf table hkind
      exact ⟨_, rnd_init_first_fetched X ctx share_ table self share conf snapshot np hs hshare
        hconf hnp hf⟩

theorem handler_rnd_init_activates {E : Type} (X : pinba_externals E)
    (ctx : pinba_mysql_ctx_t E) (self : pinba_handler_t) (sid : Nat) (share : pinba_share_t)
    (report : pinba_report_t) (view : pinba_view___report_snapshot_t) (conf : pinba_view_conf_t)
    (hsid : self.share_ = some sid) (hshare : ctx.shares[sid]? = some share)
    (hneeds : share.report_needs_engine = true) (hactive : share.report_active = false)
    (hreport : share.report = some report)
    (hview : self.pinba_view_ = some (.report_snapshot view))
    (hconf : share.view_conf = some conf) (hkind : is_report_kind conf.kind = true) :
    ∃ r, self.rnd_init X ctx = some r ∧
      r.2.2.2.filter pinba_event.is_add_report = [.add_report report] ∧
      r.2.2.1.open_shares = ctx.open_shares ∧
      ((X.add_report ctx.engine report).2 = none →
        r.2.2.1.shares = ctx.shares.set sid { share with report := none, report_active := true } ∧
        r.2.2.1.shares[sid]? = some { share with report := none, report_active := true }) ∧
      (∀ err, (X.add_report ctx.engine report).2 = some err →
        r.1 = HA_ERR_INTERNAL_ERROR ∧ r.2.2.1.shares = ctx.shares ∧
        r.2.1.pinba_view_ = self.pinba_view_ ∧
        r.2.2.2 = [.lock_acquire, .add_report report, .lock_release]) := by
  have hlt : sid < ctx.shares.length := by
    rcases Nat.lt_or_ge sid ctx.shares.length with h | h
    · exact h
    · rw [List.getElem?_eq_none h] at hshare
      exact absurd hshare (by simp)
  have hat : ctx.share_at self.share_ = some share := by
    simp [pinba_mysql_ctx_t.share_at, hsid, hshare]
  cases hadd : (X.add_report ctx.engine report).2 with
  | some err =>
    refine ⟨(HA_ERR_INTERNAL_ERROR, self, { ctx with engine := (X.add_report ctx.engine report).1 },
      [.lock_acquire, .add_report report, .lock_release]), ?_, ?_, rfl, ?_, ?_⟩
    · unfold pinba_handler_t.rnd_init
      rw [hat]
      simp [hsid, hneeds, hactive, hreport, hadd]
    · simp [pinba_event.is_add_report]
    · intro h
      exact absurd h (by simp)
    · intro _ _
      exact ⟨rfl, rfl, rfl, rfl⟩
  | none =>
    have hat1 : ({ shares := ctx.shares.set sid { share with report := none, report_active := true }
                   open_shares := ctx.open_shares
                   engine := (X.add_report ctx.engine report).1 } :
        pinba_mysql_ctx_t E).share_at self.share_ =
        some { share with report := none, report_active := true } := by
      simp [pinba_mysql_ctx_t.share_at, hsid, List.getElem?_set, hlt]
    obtain ⟨r0, hr0⟩ := snapshot_rnd_init_defined X _ self.share_ self.table view _ conf hat1
      hconf hkind
    obtain ⟨hp1, hp2, hp3⟩ := snapshot_rnd_init_preserves X _ self.share_ self.table view r0 hr0
    refine ⟨(r0.1, { self with pinba_view_ := some (.report_snapshot r0.2.1) }, r0.2.2.1,
      [.lock_acquire, .add_report report, .lock_release] ++ r0.2.2.2), ?_, ?_, ?_, ?_, ?_⟩
    · have hr1 := hr0
      simp only [hsid, hneeds] at hr1
      unfold pinba_handler_t.rnd_init
      rw [hat]
      simp [hsid, hneeds, hactive, hreport, hadd, hview, pinba_view_t.rnd_init, hr1]
    · simp [pinba_event.is_add_report, hp3]
    · exact hp2
    · intro _
      refine ⟨hp1, ?_⟩
      simp only [hp1]
      simp [List.getElem?_set, hlt]
    · intro err h
      exact absurd h (by simp)

theorem handler_rnd_init_without_activation {E : Type} (X : pinba_externals E)
    (ctx : pinba_mysql_ctx_t E) (self : pinba_handler_t) (share : pinba_share_t)
    (hshare : ctx.share_at self.share_ = some share)
    (hskip : share.report_active = true ∨ share.report_needs_engine = false) :
    (∀ r, self.rnd_init X ctx = some r →
      r.2.2.2.filter pinba_event.is_add_report = [] ∧ r.2.2.1.shares = ctx.shares ∧
      r.2.2.1.open_shares = ctx.open_shares) ∧
    (∀ view conf, self.pinba_view_ = some (.report_snapshot view) →
      share.view_conf = some conf → is_report_kind conf.kind = true →
      ∃ r, self.rnd_init X ctx = some r) ∧
    (∀ view, self.pinba_view_ = some (.stats view) → ∃ r, self.rnd_init X ctx = some r) := by
  have hcond : (share.report_needs_engine && !share.report_active) = false := by
    rcases hskip with h | h <;> simp [h]
  have hsome : ∃ sid, self.share_ = some sid := by
    cases hs : self.share_ with
    | none => simp [pinba_mysql_ctx_t.share_at, hs] at hshare
    | some sid => exact ⟨sid, rfl⟩
  obtain ⟨sid, hsid⟩ := hsome
  have hunfold : self.rnd_init X ctx =
      (match self.pinba_view_ with
       | none => none
       | some view =>
         match view.rnd_init X ctx self.share_ self.table with
         | none => none
         | some r =>
           some (r.1, { self with pinba_view_ := some r.2.1 }, r.2.2.1,
             [.lock_acquire, .lock_release] ++ r.2.2.2)) := by
    unfold pinba_handler_t.rnd_init
    rw [hshare]
    simp [hsid, hcond]
  refine ⟨?_, ?_, ?_⟩
  · intro r hr
    rw [hunfold] at hr
    cases hv : self.pinba_view_ with
    | none => simp [hv] at hr
    | some view =>
      cases hvi : view.rnd_init X ctx self.share_ self.table with
      | none => simp [hv, hvi] at hr
      | some r0 =>
        obtain ⟨hp1, hp2, hp3⟩ := view_rnd_init_preserves X ctx self.share_ self.table view r0 hvi
        simp only [hv, hvi] at hr
        rw [← Option.some.inj hr]
        exact ⟨by simp [pinba_event.is_add_report, hp3], hp1, hp2⟩
  · intro view conf hview hconf hkind
    obtain ⟨r0, hr0⟩ := snapshot_rnd_init_defined X ctx self.share_ self.table view share conf
      hshare hconf hkind
    rw [hunfold, hview]
    simp [pinba_view_t.rnd_init, hr0]
  · intro view hview
    rw [hunfold, hview]
    simp [pinba_view_t.rnd_init]

theorem scans_after_activation {E : Type} (X : pinba_externals E) (sid : Nat)
    (conf : pinba_view_conf_t) (hkind : is_report_kind conf.kind = true) :
    ∀ (hs : List pinba_handler_t) (ctx : pinba_mysql_ctx_t E) (share : pinba_share_t),
      (∀ h ∈ hs, h.share_ = some sid ∧ ∃ view, h.pinba_view_ = some (.report_snapshot view)) →
      ctx.shares[sid]? = some share → share.report_active = true →
      share.view_conf = some conf →
      ∃ res, scans_rnd_init X ctx hs = some res ∧
        res.2.filter pinba_event.is_add_report = [] ∧ res.1.shares = ctx.shares := by
  intro hs
  induction hs with
  | nil =>
    intro ctx share _ _ _ _
    exact ⟨(ctx, []), rfl, rfl, rfl⟩
  | cons h rest ih =>
    intro ctx share hall hshare hactive hconf
    obtain ⟨hsid, view, hview⟩ := hall h (List.mem_cons_self _ _)
    have hat : ctx.share_at h.share_ = some share := by
      simp [pinba_mysql_ctx_t.share_at, hsid, hshare]
    obtain ⟨hpres, hdef, _⟩ :=
      handler_rnd_init_without_activation X ctx h share hat (Or.inl hactive)
    obtain ⟨r, hr⟩ := hdef view conf hview hconf hkind
    obtain ⟨hq1, hq2, _⟩ := hpres r hr
    obtain ⟨res, hres, hres1, hres2⟩ := ih r.2.2.1 share
      (fun h2 hh2 => hall h2 (List.mem_cons_of_mem _ hh2)) (by rw [hq2]; exact hshare) hactive
      hconf
    refine ⟨(res.1, r.2.2.2 ++ res.2), ?_, ?_, ?_⟩
    · simp [scans_rnd_init, hr, hres]
    · simp [hq1, hres1]
    · rw [hres2, hq2]

/-- C10. For `pinba_handler_t::rnd_init` on a context:
(1) when the handler's share needs the engine, is not active and holds a
report, and the handler has the report snapshot view of a share configured
with a report kind, the call returns and makes exactly one `add_report` call,
with that report; if the engine accepts it, the share afterwards holds no
report and has report_active = true; if the engine returns an error, the
call returns `HA_ERR_INTERNAL_ERROR` without running the view's `rnd_init`
and the shares are as before;
(2) when the handler's share is already active or does not need the engine,
a call that returns has made no `add_report` call and left the shares as
they were, and the call does return for a stats view and for a report
snapshot view of a share configured with a report kind;
(3) for any non-empty sequence of handlers of one such not yet active
share, each with a report snapshot view, calling `rnd_init` one after the
other, when the engine accepts the first `add_report`: all calls return, and
`add_report` is called exactly once in total, with the share's report, after
which the share holds no report and is active. -/
theorem rnd_init_adds_report_once {E : Type} (X : pinba_externals E)
    (ctx : pinba_mysql_ctx_t E) :
    (∀ (self : pinba_handler_t) (sid : Nat) (share : pinba_share_t) (report : pinba_report_t)
      (view : pinba_view___report_snapshot_t) (conf : pinba_view_conf_t),
      self.share_ = some sid → ctx.shares[sid]? = some share →
      share.report_needs_engine = true → share.report_active = false →
      share.report = some report → self.pinba_view_ = some (.report_snapshot view) →
      share.view_conf = some conf → is_report_kind conf.kind = true →
      ∃ r, self.rnd_init X ctx = some r ∧
        r.2.2.2.filter pinba_event.is_add_report = [.add_report report] ∧
        ((X.add_report ctx.engine report).2 = none →
          r.2.2.1.shares[sid]? = some { share with report := none, report_active := true }) ∧
        (∀ err, (X.add_report ctx.engine report).2 = some err →
          r.1 = HA_ERR_INTERNAL_ERROR ∧ r.2.2.1.shares = ctx.shares ∧
          r.2.1.pinba_view_ = self.pinba_view_)) ∧
    (∀ (self : pinba_handler_t) (share : pinba_share_t),
      ctx.share_at self.share_ = some share →
      (share.report_active = true ∨ share.report_needs_engine = false) →
      (∀ r, self.rnd_init X ctx = some r →
        r.2.2.2.filter pinba_event.is_add_report = [] ∧ r.2.2.1.shares = ctx.shares) ∧
      (∀ view conf, self.pinba_view_ = some (.report_snapshot view) →
        share.view_conf = some conf → is_report_kind conf.kind = true →
        ∃ r, self.rnd_init X ctx = some r) ∧
      (∀ view, self.pinba_view_ = some (.stats view) → ∃ r, self.rnd_init X ctx = some r)) ∧
    (∀ (hs : List pinba_handler_t) (sid : Nat) (share : pinba_share_t)
      (report : pinba_report_t) (conf : pinba_view_conf_t),
      hs ≠ [] →
      (∀ h ∈ hs, h.share_ = some sid ∧ ∃ view, h.pinba_view_ = some (.report_snapshot view)) →
      ctx.shares[sid]? = some share →
      share.report_needs_engine = true → share.report_active = false →
      share.report = some report →
      share.view_conf = some conf → is_report_kind conf.kind = true →
      (X.add_report ctx.engine report).2 = none →
      ∃ res, scans_rnd_init X ctx hs = some res ∧
        res.2.filter pinba_event.is_add_report = [.add_report report] ∧
        (res.2.filter pinba_event.is_add_report).length = 1 ∧
        res.1.shares[sid]? = some { share with report := none, report_active := true }) := by
  refine ⟨?_, ?_, ?_⟩
  · intro self sid share report view conf hsid hshare hneeds hactive hreport hview hconf hkind
    obtain ⟨r, hr, hcalls, _, hok, herr⟩ :=
      handler_rnd_init_activates X ctx self sid share report view conf hsid hshare hneeds hactive
        hreport hview hconf hkind
    exact ⟨r, hr, hcalls, fun h => (hok h).2, fun err h =>
      ⟨(herr err h).1, (herr err h).2.1, (herr err h).2.2.1⟩⟩
  · intro self share hshare hskip
    obtain ⟨h1, h2, h3⟩ := handler_rnd_init_without_activation X ctx self share hshare hskip
    exact ⟨fun r hr => ⟨(h1 r hr).1, (h1 r hr).2.1⟩, h2, h3⟩
  · intro hs sid share report conf hne hall hshare hneeds hactive hreport hconf hkind hadd
    cases hs with
    | nil => exact absurd rfl hne
    | cons h rest =>
      obtain ⟨hsid, view, hview⟩ := hall h (List.mem_cons_self _ _)
      obtain ⟨r, hr, hcalls, _, hok, _⟩ :=
        handler_rnd_init_activates X ctx h sid share report view conf hsid hshare hneeds hactive
          hreport hview hconf hkind
      obtain ⟨hshares, hget⟩ := hok hadd
      obtain ⟨res, hres, hres1, hres2⟩ := scans_after_activation X sid conf hkind rest r.2.2.1
        { share with report := none, report_active := true }
        (fun h2 hh2 => hall h2 (List.mem_cons_of_mem _ hh2)) hget rfl hconf
      refine ⟨(res.1, r.2.2.2 ++ res.2), ?_, ?_, ?_, ?_⟩
      · simp [scans_rnd_init, hr, hres]
      · simp [hcalls, hres1]
      · simp [hcalls, hres1]
      · rw [hres2]
        exact hget

theorem rnd_init_adds_report_once_witness :
    ∃ res, scans_rnd_init example_externals example_ctx [example_handler, example_handler] =
        some res ∧
      res.2.filter pinba_event.is_add_report = [.add_report example_report] ∧
      res.1.shares[0]? =
        some { example_share with report := none, report_active := true } := by
  obtain ⟨res, h1, h2, _, h3⟩ :=
    (rnd_init_adds_report_once example_externals example_ctx).2.2
      [example_handler, example_handler] 0 example_share example_report example_conf
      (by simp)
      (by
        intro h hh
        have : h = example_handler := by simpa using hh
        subst this
        exact ⟨rfl, _, rfl⟩)
      rfl rfl rfl rfl rfl rfl rfl
  exact ⟨res, h1, h2, h3⟩

/-! ## Renaming a table -/

theorem lookup_open_shares_erase (l : List (String × Nat)) (n m : String) :
    (open_shares_erase l n).lookup m = if m = n then none else l.lookup m := by
  unfold open_shares_erase
  induction l with
  | nil => simp
  | cons a l ih =>
    obtain ⟨k, v⟩ := a
    by_cases hk : k = n
    · subst hk
      simp only [List.filter_cons, beq_self_eq_true, Bool.not_true, Bool.false_eq_true, ↓reduceIte,
        ih, List.lookup_cons]
      by_cases hm : m = k
      · simp [hm]
      · have : (m == k) = false := by simpa using hm
        simp [hm, this]
    · have hkn : (k == n) = false := by simpa using hk
      simp only [List.filter_cons, hkn, Bool.not_false, ↓reduceIte, List.lookup_cons, ih]
      by_cases hm : m = k
      · subst hm
        simp [hk]
      · have : (m == k) = false := by simpa using hm
        simp [this]

theorem lookup_append_single (l : List (String × Nat)) (n m : String) (s : Nat) :
    (l ++ [(n, s)]).lookup m =
      match l.lookup m with
      | some x => some x
      | none => if m = n then some s else none := by
  induction l with
  | nil =>
    by_cases hm : m = n
    · simp [List.lookup_cons, hm]
    · have : (m == n) = false := by simpa using hm
      simp [List.lookup_cons, hm, this]
  | cons a l ih =>
    obtain ⟨k, v⟩ := a
    by_cases hm : m = k
    · subst hm
      simp [List.lookup_cons]
    · have : (m == k) = false := by simpa using hm
      simp [List.lookup_cons, this, ih]

theorem rename_table_unknown {E : Type} (ctx : pinba_mysql_ctx_t E) (from_table to_table : String)
    (h : ctx.open_shares.lookup from_table = none) :
    pinba_handler_t.rename_table ctx from_table to_table =
      some (0, ctx, [.lock_acquire, .lock_release]) := by
  unfold pinba_handler_t.rename_table
  simp [h]

theorem rename_table_known {E : Type} (ctx : pinba_mysql_ctx_t E) (from_table to_table : String)
    (share_ptr : Nat) (share : pinba_share_t)
    (hfrom : ctx.open_shares.lookup from_table = some share_ptr)
    (hshare : ctx.shares[share_ptr]? = some share) :
    pinba_handler_t.rename_table ctx from_table to_table =
      some (0,
        { ctx with
            shares := ctx.shares.set share_ptr { share with mysql_name := to_table }
            open_shares := open_shares_emplace (open_shares_erase ctx.open_shares from_table)
              to_table share_ptr },
        [.lock_acquire, .lock_release]) := by
  unfold pinba_handler_t.rename_table
  simp [hfrom, hshare]

theorem open_table_configured {E : Type} (X : pinba_externals E) (ctx : pinba_mysql_ctx_t E)
    (self : pinba_handler_t) (table_name : String) (share_ptr : Nat) (share : pinba_share_t)
    (conf : pinba_view_conf_t)
    (hreg : ctx.open_shares.lookup table_name = some share_ptr)
    (hshare : ctx.shares[share_ptr]? = some share)
    (hconf : share.view_conf = some conf) :
    pinba_handler_t.open_table X ctx self table_name =
      some (0, { self with pinba_view_ := some (pinba_view_create conf), share_ := some share_ptr },
        ctx, [.lock_acquire, .lock_release]) := by
  unfold pinba_handler_t.open_table pinba_share_get_or_create_locked
  simp [hreg, hshare, hconf]

theorem rename_table_to_free_name {E : Type} (ctx : pinba_mysql_ctx_t E)
    (from_table to_table : String) (share_ptr : Nat) (share : pinba_share_t)
    (hfrom : ctx.open_shares.lookup from_table = some share_ptr)
    (hshare : ctx.shares[share_ptr]? = some share)
    (hto : to_table = from_table ∨ ctx.open_shares.lookup to_table = none) :
    ∃ ctx1, pinba_handler_t.rename_table ctx from_table to_table =
        some (0, ctx1, [.lock_acquire, .lock_release]) ∧
      ctx1.open_shares.lookup to_table = some share_ptr ∧
      ctx1.shares[share_ptr]? = some { share with mysql_name := to_table } ∧
      (from_table ≠ to_table → ctx1.open_shares.lookup from_table = none) ∧
      (∀ n, n ≠ from_table → n ≠ to_table →
        ctx1.open_shares.lookup n = ctx.open_shares.lookup n) ∧
      (∀ i, i ≠ share_ptr → ctx1.shares[i]? = ctx.shares[i]?) ∧
      ctx1.engine = ctx.engine ∧ ctx1.shares.length = ctx.shares.length := by
  have hlt : share_ptr < ctx.shares.length := by
    rcases Nat.lt_or_ge share_ptr ctx.shares.length with h | h
    · exact h
    · rw [List.getElem?_eq_none h] at hshare
      exact absurd hshare (by simp)
  have herased : (open_shares_erase ctx.open_shares from_table).lookup to_table = none := by
    rw [lookup_open_shares_erase]
    rcases hto with h | h
    · simp [h]
    · simp [h]
  have hreg : open_shares_emplace (open_shares_erase ctx.open_shares from_table) to_table
      share_ptr = open_shares_erase ctx.open_shares from_table ++ [(to_table, share_ptr)] := by
    unfold open_shares_emplace
    rw [herased]
  refine ⟨_, rename_table_known ctx from_table to_table share_ptr share hfrom hshare, ?_, ?_, ?_,
    ?_, ?_, rfl, ?_⟩
  · simp only [hreg, lookup_append_single, herased]
    simp
  · simp [List.getElem?_set, hlt]
  · intro hne
    simp only [hreg, lookup_append_single, lookup_open_shares_erase]
    simp [hne]
  · intro n hn1 hn2
    simp only [hreg, lookup_append_single, lookup_open_shares_erase, hn1, hn2, ↓reduceIte]
    cases ctx.open_shares.lookup n <;> rfl
  · intro i hi
    simp [List.getElem?_set, Ne.symm hi]
  · simp

/-- Renaming onto a name that is not registered to another share. For every
context and all table names from and to:
if from is not registered, `rename_table` returns 0 and leaves the context
as it is. If from is registered to a share and to is not registered to
another share (to is from, or to is not registered), `rename_table` returns
0 and afterwards: to is registered to that very share; the share has its
configuration, flags, report and report name unchanged and its table name
set to to; when from differs from to, from is no longer registered; every
other name is registered as before; every other share and the engine are
unchanged; and, when the share is configured, a following `open` of to
returns 0 with the handler bound to that share, whose report name is the one
it had before the rename. -/
theorem rename_table_moves_registry_key {E : Type} (ctx : pinba_mysql_ctx_t E)
    (from_table to_table : String) :
    (ctx.open_shares.lookup from_table = none →
      pinba_handler_t.rename_table ctx from_table to_table =
        some (0, ctx, [.lock_acquire, .lock_release])) ∧
    (∀ (share_ptr : Nat) (share : pinba_share_t),
      ctx.open_shares.lookup from_table = some share_ptr →
      ctx.shares[share_ptr]? = some share →
      (to_table = from_table ∨ ctx.open_shares.lookup to_table = none) →
      ∃ ctx1, pinba_handler_t.rename_table ctx from_table to_table =
          some (0, ctx1, [.lock_acquire, .lock_release]) ∧
        ctx1.open_shares.lookup to_table = some share_ptr ∧
        ctx1.shares[share_ptr]? = some { share with mysql_name := to_table } ∧
        (from_table ≠ to_table → ctx1.open_shares.lookup from_table = none) ∧
        (∀ n, n ≠ from_table → n ≠ to_table →
          ctx1.open_shares.lookup n = ctx.open_shares.lookup n) ∧
        (∀ i, i ≠ share_ptr → ctx1.shares[i]? = ctx.shares[i]?) ∧
        ctx1.engine = ctx.engine ∧
        (∀ (X : pinba_externals E) (self : pinba_handler_t) (conf : pinba_view_conf_t),
          share.view_conf = some conf →
          ∃ handler ctx2 calls,
            pinba_handler_t.open_table X ctx1 self to_table = some (0, handler, ctx2, calls) ∧
            handler.share_ = some share_ptr ∧
            ctx2.share_at handler.share_ = some { share with mysql_name := to_table } ∧
            (ctx2.share_at handler.share_).map (fun s => s.report_name) =
              some share.report_name)) := by
  refine ⟨rename_table_unknown ctx from_table to_table, ?_⟩
  intro share_ptr share hfrom hshare hto
  obtain ⟨ctx1, hren, hreg1, hshare1, hgone, hothers, hheap, hengine, _⟩ :=
    rename_table_to_free_name ctx from_table to_table share_ptr share hfrom hshare hto
  refine ⟨ctx1, hren, hreg1, hshare1, hgone, hothers, hheap, hengine, ?_⟩
  intro X self conf hconf
  refine ⟨_, _, _, open_table_configured X ctx1 self to_table share_ptr
    { share with mysql_name := to_table } conf hreg1 hshare1 hconf, rfl, ?_, ?_⟩
  · simp [pinba_mysql_ctx_t.share_at, hshare1]
  · simp [pinba_mysql_ctx_t.share_at, hshare1]

/-- C11 (the code departs from the claim). From the empty registry, `create`
of t2 with a comment the comment reader rejects returns
`HA_WRONG_CREATE_OPTION` and leaves an unconfigured share registered under
t2; `create` of t1 then succeeds, so t1 is registered to its share (pointer
1), whose report name is t1. `rename_table` of t1 to t2 returns 0: it erases
t1, and its `emplace` under t2 does nothing because t2 is registered. So
afterwards t2 still resolves to the old share (pointer 0) and not to the
share that was registered under t1, which now has the table name t2 and is
registered under no name; and a following `open` of t2 returns 0 with the
handler bound to the old share, which it configures with the report name t2,
not t1. -/
theorem rename_table_onto_registered_name_drops_share :
    ∃ ctx_a calls_a ctx_b calls_b ctx1 calls1 handler ctx2 calls2,
      pinba_handler_t.create example_externals_strict empty_ctx "t2" (some "") =
        some (HA_WRONG_CREATE_OPTION, ctx_a, calls_a) ∧
      ctx_a.open_shares = [("t2", 0)] ∧
      pinba_handler_t.create example_externals_strict ctx_a "t1" (some "request") =
        some (0, ctx_b, calls_b) ∧
      ctx_b.open_shares.lookup "t1" = some 1 ∧
      ctx_b.shares[1]? = some example_share ∧
      pinba_handler_t.rename_table ctx_b "t1" "t2" = some (0, ctx1, calls1) ∧
      ctx1.open_shares = [("t2", 0)] ∧
      ctx1.open_shares.lookup "t2" = some 0 ∧ ctx1.open_shares.lookup "t2" ≠ some 1 ∧
      ctx1.shares[0]? = some (pinba_share_t.create "t2") ∧
      ctx1.shares[1]? = some { example_share with mysql_name := "t2" } ∧
      pinba_handler_t.open_table example_externals_strict ctx1 example_fresh_handler "t2" =
        some (0, handler, ctx2, calls2) ∧
      handler.share_ = some 0 ∧
      (ctx2.share_at handler.share_).map (fun share => share.report_name) = some "t2" ∧
      (ctx2.share_at handler.share_).map (fun share => share.report_name) ≠
        some example_share.report_name :=
  ⟨_, _, _, _, _, _, _, _, _, rfl, rfl, rfl, rfl, rfl, rfl, rfl, rfl, by decide, rfl, rfl, rfl,
    rfl, rfl, by decide⟩

theorem rename_table_moves_registry_key_witness :
    example_ctx.open_shares.lookup "t1" = some 0 ∧
    example_ctx.shares[0]? = some example_share ∧
    example_ctx.open_shares.lookup "t2" = none ∧
    ∃ ctx1, pinba_handler_t.rename_table example_ctx "t1" "t2" =
        some (0, ctx1, [.lock_acquire, .lock_release]) ∧
      ctx1.open_shares.lookup "t2" = some 0 ∧
      ctx1.shares[0]? = some { example_share with mysql_name := "t2" } ∧
      ctx1.open_shares.lookup "t1" = none := by
  obtain ⟨ctx1, h1, h2, h3, h4, _⟩ :=
    (rename_table_moves_registry_key example_ctx "t1" "t2").2 0 example_share rfl rfl
      (Or.inr rfl)
  exact ⟨rfl, rfl, rfl, ctx1, h1, h2, h3, h4 (by decide)⟩

/-! ## Deleting a table -/

theorem delete_table_unknown {E : Type} (X : pinba_externals E) (ctx : pinba_mysql_ctx_t E)
    (table_name : String) (h : ctx.open_shares.lookup table_name = none) :
    pinba_handler_t.delete_table X ctx table_name =
      some (0, ctx, [.lock_acquire, .lock_release]) := by
  unfold pinba_handler_t.delete_table
  simp [h]

theorem delete_table_engine_backed {E : Type} (X : pinba_externals E)
    (ctx : pinba_mysql_ctx_t E) (table_name : String) (share_ptr : Nat) (share : pinba_share_t)
    (hreg : ctx.open_shares.lookup table_name = some share_ptr)
    (hshare : ctx.shares[share_ptr]? = some share)
    (hneeds : share.report_needs_engine = true) (hactive : share.report_active = true) :
    pinba_handler_t.delete_table X ctx table_name =
      some ((match (X.delete_report ctx.engine share.report_name).2 with
          | some _ => HA_ERR_INTERNAL_ERROR
          | none => 0),
        { ctx with
            open_shares := open_shares_erase ctx.open_shares table_name
            engine := (X.delete_report ctx.engine share.report_name).1 },
        [.lock_acquire, .delete_report share.report_name, .lock_release]) := by
  unfold pinba_handler_t.delete_table
  simp only [hreg, hshare, hneeds, hactive, Bool.and_self, ↓reduceIte]
  cases (X.delete_report ctx.engine share.report_name).2 <;> rfl

theorem delete_table_not_engine_backed {E : Type} (X : pinba_externals E)
    (ctx : pinba_mysql_ctx_t E) (table_name : String) (share_ptr : Nat) (share : pinba_share_t)
    (hreg : ctx.open_shares.lookup table_name = some share_ptr)
    (hshare : ctx.shares[share_ptr]? = some share)
    (hskip : share.report_needs_engine = false ∨ share.report_active = false) :
    pinba_handler_t.delete_table X ctx table_name =
      some (0, { ctx with open_shares := open_shares_erase ctx.open_shares table_name },
        [.lock_acquire, .lock_release]) := by
  unfold pinba_handler_t.delete_table
  have hcond : (share.report_needs_engine && share.report_active) = false := by
    rcases hskip with h | h <;> simp [h]
  simp [hreg, hshare, hcond]

/-- The `delete_report` calls of `delete_table`. For every context and table
name, `delete_table` returns, and its
calls hold exactly one `delete_report`, with the report name of the share,
when the share registered under the name needs the engine and is active;
and no `delete_report` when the share does not need the engine (a virtual
table) or is not active yet, or when the name is not registered. So for a
share that needs the engine, is active and is registered under from, after
`rename_table` to a name to that is free, `delete_table` of to calls
`delete_report` once with the report name the share had before the
rename. -/
theorem delete_table_calls_delete_report {E : Type} (X : pinba_externals E)
    (ctx : pinba_mysql_ctx_t E) (table_name : String) :
    (∀ (share_ptr : Nat) (share : pinba_share_t),
      ctx.open_shares.lookup table_name = some share_ptr →
      ctx.shares[share_ptr]? = some share →
      share.report_needs_engine = true → share.report_active = true →
      ∃ r, pinba_handler_t.delete_table X ctx table_name = some r ∧
        r.2.2.filter pinba_event.is_delete_report = [.delete_report share.report_name] ∧
        r.2.2.count (.delete_report share.report_name) = 1) ∧
    (∀ (share_ptr : Nat) (share : pinba_share_t),
      ctx.open_shares.lookup table_name = some share_ptr →
      ctx.shares[share_ptr]? = some share →
      (share.report_needs_engine = false ∨ share.report_active = false) →
      ∃ r, pinba_handler_t.delete_table X ctx table_name = some r ∧
        r.2.2.filter pinba_event.is_delete_report = []) ∧
    (ctx.open_shares.lookup table_name = none →
      ∃ r, pinba_handler_t.delete_table X ctx table_name = some r ∧
        r.2.2.filter pinba_event.is_delete_report = []) ∧
    (∀ (to_table : String) (share_ptr : Nat) (share : pinba_share_t),
      ctx.open_shares.lookup table_name = some share_ptr →
      ctx.shares[share_ptr]? = some share →
      share.report_needs_engine = true → share.report_active = true →
      (to_table = table_name ∨ ctx.open_shares.lookup to_table = none) →
      ∃ ctx1 calls r, pinba_handler_t.rename_table ctx table_name to_table =
          some (0, ctx1, calls) ∧
        pinba_handler_t.delete_table X ctx1 to_table = some r ∧
        r.2.2.filter pinba_event.is_delete_report = [.delete_report share.report_name]) := by
  refine ⟨?_, ?_, ?_, ?_⟩
  · intro share_ptr share hreg hshare hneeds hactive
    refine ⟨_, delete_table_engine_backed X ctx table_name share_ptr share hreg hshare hneeds
      hactive, ?_, ?_⟩
    · simp [pinba_event.is_delete_report]
    · simp
  · intro share_ptr share hreg hshare hskip
    exact ⟨_, delete_table_not_engine_backed X ctx table_name share_ptr share hreg hshare hskip,
      by simp [pinba_event.is_delete_report]⟩
  · intro hreg
    exact ⟨_, delete_table_unknown X ctx table_name hreg,
      by simp [pinba_event.is_delete_report]⟩
  · intro to_table share_ptr share hreg hshare hneeds hactive hto
    obtain ⟨ctx1, hren, hreg1, hshare1, _⟩ :=
      rename_table_to_free_name ctx table_name to_table share_ptr share hreg hshare hto
    refine ⟨ctx1, _, _, hren,
      delete_table_engine_backed X ctx1 to_table share_ptr { share with mysql_name := to_table }
        hreg1 hshare1 hneeds hactive, ?_⟩
    simp [pinba_event.is_delete_report]

theorem delete_table_calls_delete_report_witness :
    (∃ ctx1 calls1 handler1 ctx2 calls2 handler2 calls3,
      pinba_handler_t.create example_externals empty_ctx "t1" (some "request") =
        some (0, ctx1, calls1) ∧
      pinba_handler_t.open_table example_externals ctx1 example_fresh_handler "t1" =
        some (0, handler1, ctx2, calls2) ∧
      pinba_handler_t.rnd_init example_externals ctx2 handler1 =
        some (0, handler2, example_ctx_active, calls3)) ∧
    ∃ ctx4 calls4 r, pinba_handler_t.rename_table example_ctx_active "t1" "t2" =
        some (0, ctx4, calls4) ∧
      pinba_handler_t.delete_table example_externals ctx4 "t2" = some r ∧
      r.2.2.filter pinba_event.is_delete_report = [.delete_report "t1"] :=
  ⟨⟨_, _, _, _, _, _, _, rfl, rfl, rfl⟩,
    (delete_table_calls_delete_report example_externals example_ctx_active "t1").2.2.2 "t2" 0
      example_active_share rfl rfl rfl rfl (Or.inr rfl)⟩

/-- C12 (the code departs from the claim). From the empty registry, `create`
of t2 with a comment the comment reader rejects leaves an unconfigured share
registered under t2; t1 is created, opened and activated by the handler's
`rnd_init`, which calls `add_report`, so its share (pointer 1) needs the
engine, is active and has the report name t1. `rename_table` of t1 to t2
returns 0 and leaves t2 registered to the old share. `delete_table` of t2
then returns 0 and calls `delete_report` zero times: its calls are the
acquire and the release of the lock only, and the share that was created as
t1 stays active in the engine under the report name t1. -/
theorem delete_after_rename_onto_registered_name_skips_delete_report :
    ∃ ctx_a calls_a ctx_b calls_b handler1 ctx_c calls_c handler2 ctx_d calls_d ctx1 calls1 r,
      pinba_handler_t.create example_externals_strict empty_ctx "t2" (some "") =
        some (HA_WRONG_CREATE_OPTION, ctx_a, calls_a) ∧
      pinba_handler_t.create example_externals_strict ctx_a "t1" (some "request") =
        some (0, ctx_b, calls_b) ∧
      pinba_handler_t.open_table example_externals_strict ctx_b example_fresh_handler "t1" =
        some (0, handler1, ctx_c, calls_c) ∧
      pinba_handler_t.rnd_init example_externals_strict ctx_c handler1 =
        some (0, handler2, ctx_d, calls_d) ∧
      calls_d.filter pinba_event.is_add_report = [.add_report example_report] ∧
      ctx_d.open_shares.lookup "t1" = some 1 ∧
      ctx_d.shares[1]? = some example_active_share ∧
      pinba_handler_t.rename_table ctx_d "t1" "t2" = some (0, ctx1, calls1) ∧
      ctx1.open_shares = [("t2", 0)] ∧
      pinba_handler_t.delete_table example_externals_strict ctx1 "t2" = some r ∧
      r.1 = 0 ∧ r.2.2 = [.lock_acquire, .lock_release] ∧
      r.2.2.filter pinba_event.is_delete_report = [] ∧
      r.2.1.open_shares = [] ∧
      r.2.1.shares[1]? = some { example_active_share with mysql_name := "t2" } :=
  ⟨_, _, _, _, _, _, _, _, _, _, _, _, _, rfl, rfl, rfl, rfl, rfl, rfl, rfl, rfl, rfl, rfl, rfl,
    rfl, rfl, rfl, rfl⟩


/-- C13. For every context in which the table name is registered to a share
and whatever `delete_report` returns, `delete_table` returns and afterwards:
the name is no longer registered; the registry is the old one without the
entry of the name, so every other entry is as before, in the same order; the
shares themselves are as before. The return code is
`HA_ERR_INTERNAL_ERROR` exactly when `delete_report` was called (the share
needs the engine and is active) and returned an error, and it is 0
otherwise. -/
theorem delete_table_erases_entry {E : Type} (X : pinba_externals E)
    (ctx : pinba_mysql_ctx_t E) (table_name : String) (share_ptr : Nat) (share : pinba_share_t)
    (hreg : ctx.open_shares.lookup table_name = some share_ptr)
    (hshare : ctx.shares[share_ptr]? = some share) :
    ∃ r, pinba_handler_t.delete_table X ctx table_name = some r ∧
      r.2.1.open_shares.lookup table_name = none ∧
      (∀ n, n ≠ table_name → r.2.1.open_shares.lookup n = ctx.open_shares.lookup n) ∧
      r.2.1.open_shares = ctx.open_shares.filter (fun share_pair => share_pair.1 ≠ table_name) ∧
      r.2.1.shares = ctx.shares ∧
      (pinba_event.delete_report share.report_name ∈ r.2.2 ↔
        (share.report_needs_engine = true ∧ share.report_active = true)) ∧
      (r.1 = HA_ERR_INTERNAL_ERROR ↔
        (pinba_event.delete_report share.report_name ∈ r.2.2 ∧
          (X.delete_report ctx.engine share.report_name).2 ≠ none)) ∧
      (r.1 ≠ HA_ERR_INTERNAL_ERROR → r.1 = 0) := by
  have hfilter : open_shares_erase ctx.open_shares table_name =
      ctx.open_shares.filter (fun share_pair => share_pair.1 ≠ table_name) := by
    unfold open_shares_erase
    congr 1
    funext share_pair
    by_cases h : share_pair.1 = table_name <;> simp [h]
  have hgone : (open_shares_erase ctx.open_shares table_name).lookup table_name = none := by
    rw [lookup_open_shares_erase]; simp
  have hothers : ∀ n, n ≠ table_name →
      (open_shares_erase ctx.open_shares table_name).lookup n = ctx.open_shares.lookup n := by
    intro n hn
    rw [lookup_open_shares_erase]; simp [hn]
  by_cases hcall : share.report_needs_engine = true ∧ share.report_active = true
  · refine ⟨_, delete_table_engine_backed X ctx table_name share_ptr share hreg hshare hcall.1
      hcall.2, hgone, hothers, hfilter, rfl, ?_, ?_, ?_⟩
    · simp [hcall]
    · cases hd : (X.delete_report ctx.engine share.report_name).2 <;>
        simp [hd, HA_ERR_INTERNAL_ERROR]
    · cases hd : (X.delete_report ctx.engine share.report_name).2 <;>
        simp [hd, HA_ERR_INTERNAL_ERROR]
  · have hskip : share.report_needs_engine = false ∨ share.report_active = false := by
      cases h1 : share.report_needs_engine <;> cases h2 : share.report_active <;>
        simp [h1, h2] at hcall ⊢
    refine ⟨_, delete_table_not_engine_backed X ctx table_name share_ptr share hreg hshare hskip,
      hgone, hothers, hfilter, rfl, ?_, ?_, ?_⟩
    · simp [hcall]
    · simp [HA_ERR_INTERNAL_ERROR]
    · simp

theorem delete_table_erases_entry_witness :
    example_ctx_active.open_shares.lookup "t1" = some 0 ∧
    example_ctx_active.shares[0]? = some example_active_share ∧
    ∃ r, pinba_handler_t.delete_table example_externals example_ctx_active "t1" = some r ∧
      r.2.1.open_shares.lookup "t1" = none ∧ r.1 = 0 := by
  obtain ⟨r, h1, h2, _, _, _, _, h3, h4⟩ :=
    delete_table_erases_entry example_externals example_ctx_active "t1" 0 example_active_share
      rfl rfl
  refine ⟨rfl, rfl, r, h1, h2, h4 ?_⟩
  intro herr
  exact (h3.mp herr).2 rfl

/-! ## The rows of the active reports view -/

theorem collect_rows_eq (shares : List pinba_share_t) :
    ∀ (open_shares : List (String × Nat)),
      (∀ share_pair ∈ open_shares, share_pair.2 < shares.length) →
      pinba_view___active_reports_t.collect_rows shares open_shares =
        some (((open_shares.filterMap (fun share_pair => shares[share_pair.2]?)).filter
          (fun share => share.report_needs_engine && share.report_active)).map
            (fun share => { share_data := share.topinba_share_data_t, report_state := none })) := by
  intro open_shares
  induction open_shares with
  | nil => intro _; rfl
  | cons p rest ih =>
    intro hwf
    have hp : p.2 < shares.length := hwf p (List.mem_cons_self _ _)
    have hrest := ih (fun q hq => hwf q (List.mem_cons_of_mem _ hq))
    unfold pinba_view___active_reports_t.collect_rows
    simp only [List.getElem?_eq_getElem hp, hrest, List.filterMap_cons]
    cases h1 : shares[p.2].report_needs_engine <;> cases h2 : shares[p.2].report_active <;>
      simp [List.filter_cons, h1, h2]

theorem fetch_states_eq {E : Type} (X : pinba_externals E) :
    ∀ (shares : List pinba_share_t) (e : E),
      (pinba_view___active_reports_t.fetch_states X e
        (shares.map (fun share =>
          { share_data := share.topinba_share_data_t, report_state := none }))).2.1 =
        rows_with_state shares
          (get_report_state_answers X e (shares.map (fun share => share.report_name))) ∧
      (pinba_view___active_reports_t.fetch_states X e
        (shares.map (fun share =>
          { share_data := share.topinba_share_data_t, report_state := none }))).2.2 =
        shares.map (fun share => pinba_event.get_report_state share.report_name) := by
  intro shares
  induction shares with
  | nil => intro e; exact ⟨rfl, rfl⟩
  | cons share rest ih =>
    intro e
    obtain ⟨h1, h2⟩ := ih (X.get_report_state e share.report_name).1
    simp only [List.map_cons, pinba_view___active_reports_t.fetch_states,
      get_report_state_answers, rows_with_state, List.zip_cons_cons, List.filterMap_cons]
    cases hf : (X.get_report_state e share.report_name).2 with
    | none =>
      simp only
      exact ⟨by rw [h1]; rfl, by rw [h2]⟩
    | some rstate =>
      simp only
      exact ⟨by rw [h1]; rfl, by rw [h2]⟩

theorem rows_with_state_sublist (shares : List pinba_share_t) :
    ∀ (answers : List (Option report_state_t)),
      ((rows_with_state shares answers).map (fun row => row.share_data)).Sublist
        (shares.map (fun share => share.topinba_share_data_t)) := by
  induction shares with
  | nil => intro answers; simp [rows_with_state]
  | cons share rest ih =>
    intro answers
    cases answers with
    | nil => simp [rows_with_state]
    | cons a answers =>
      have h := ih answers
      unfold rows_with_state at h ⊢
      simp only [List.zip_cons_cons, List.filterMap_cons, List.map_cons]
      cases a with
      | none => exact List.Sublist.cons _ h
      | some rstate => exact List.Sublist.cons₂ _ h

theorem active_reports_rnd_init_returns_zero {E : Type} (X : pinba_externals E)
    (ctx : pinba_mysql_ctx_t E) (self : pinba_view___active_reports_t)
    (r : Int × pinba_view___active_reports_t × pinba_mysql_ctx_t E × List pinba_event)
    (h : pinba_view___active_reports_t.rnd_init X ctx self = some r) : r.1 = 0 := by
  unfold pinba_view___active_reports_t.rnd_init at h
  split at h
  · rw [← Option.some.inj h]
  · split at h
    · exact absurd h (by simp)
    · rw [← Option.some.inj h]

theorem active_reports_rnd_init_fresh {E : Type} (X : pinba_externals E)
    (ctx : pinba_mysql_ctx_t E) (self : pinba_view___active_reports_t)
    (hfresh : self.data_ = []) (hwf : registry_well_formed ctx) :
    pinba_view___active_reports_t.rnd_init X ctx self =
      some (0,
        { data_ := rows_with_state (active_engine_shares ctx)
            (get_report_state_answers X ctx.engine
              ((active_engine_shares ctx).map (fun share => share.report_name)))
          pos_ := 0 },
        { ctx with engine := (pinba_view___active_reports_t.fetch_states X ctx.engine
            ((active_engine_shares ctx).map (fun share =>
              { share_data := share.topinba_share_data_t, report_state := none }))).1 },
        [.lock_acquire, .lock_release] ++
          (active_engine_shares ctx).map
            (fun share => pinba_event.get_report_state share.report_name)) := by
  unfold pinba_view___active_reports_t.rnd_init
  have hc := collect_rows_eq ctx.shares ctx.open_shares hwf
  obtain ⟨h1, h2⟩ := fetch_states_eq X (active_engine_shares ctx) ctx.engine
  simp only [hfresh, List.isEmpty_nil, Bool.not_true, Bool.false_eq_true, ↓reduceIte, hc]
  unfold active_engine_shares registered_shares at h1 h2 ⊢
  simp only [h1, h2]

theorem get_report_state_answers_pure {E : Type} (X : pinba_externals E)
    (hpure : ∀ e report_name, (X.get_report_state e report_name).1 = e) :
    ∀ (names : List String) (e : E),
      get_report_state_answers X e names =
        names.map (fun report_name => (X.get_report_state e report_name).2) := by
  intro names
  induction names with
  | nil => intro e; rfl
  | cons n rest ih =>
    intro e
    simp only [get_report_state_answers, List.map_cons, hpure, ih]

theorem rows_with_state_map (shares : List pinba_share_t)
    (answer : String → Option report_state_t) :
    rows_with_state shares (shares.map (fun share => answer share.report_name)) =
      shares.filterMap (fun share =>
        match answer share.report_name with
        | some rstate =>
          some { share_data := share.topinba_share_data_t, report_state := some rstate }
        | none => none) := by
  induction shares with
  | nil => rfl
  | cons share rest ih =>
    unfold rows_with_state at ih ⊢
    simp only [List.map_cons, List.zip_cons_cons, List.filterMap_cons, ih]

/-- C14. For every context whose registry entries all point to a share, every
engine and every active reports view that holds no rows, `rnd_init` returns
0 and the view then holds, with the iterator at the first row, exactly one
row per registered share that has report_needs_engine = true and
report_active = true and for which the `get_report_state` call for its
report name returned a state, in registry iteration order; the engine is
asked once per such share, after the registry lock is released. A share
whose call throws contributes no row and nothing else changes: the rows are a
sublist of the candidates. When `get_report_state` leaves the engine state
as it is, the rows are the candidates filtered by the success of the call.
And no `rnd_init` of an active reports view, in any state, returns another
code than 0. -/
theorem active_reports_rnd_init_rows {E : Type} (X : pinba_externals E)
    (ctx : pinba_mysql_ctx_t E) (self : pinba_view___active_reports_t)
    (hfresh : self.data_ = []) (hwf : registry_well_formed ctx) :
    ∃ r, pinba_view___active_reports_t.rnd_init X ctx self = some r ∧
      r.1 = 0 ∧ r.2.1.pos_ = 0 ∧
      r.2.1.data_ = rows_with_state (active_engine_shares ctx)
        (get_report_state_answers X ctx.engine
          ((active_engine_shares ctx).map (fun share => share.report_name))) ∧
      (r.2.1.data_.map (fun row => row.share_data)).Sublist
        ((active_engine_shares ctx).map (fun share => share.topinba_share_data_t)) ∧
      r.2.2.2 = [.lock_acquire, .lock_release] ++
        (active_engine_shares ctx).map
          (fun share => pinba_event.get_report_state share.report_name) ∧
      ((∀ e report_name, (X.get_report_state e report_name).1 = e) →
        r.2.1.data_ = (active_engine_shares ctx).filterMap (fun share =>
          match (X.get_report_state ctx.engine share.report_name).2 with
          | some rstate =>
            some { share_data := share.topinba_share_data_t, report_state := some rstate }
          | none => none)) ∧
      (∀ (ctx2 : pinba_mysql_ctx_t E) (view : pinba_view___active_reports_t)
        (r2 : Int × pinba_view___active_reports_t × pinba_mysql_ctx_t E × List pinba_event),
        pinba_view___active_reports_t.rnd_init X ctx2 view = some r2 → r2.1 = 0) := by
  refine ⟨_, active_reports_rnd_init_fresh X ctx self hfresh hwf, rfl, rfl, rfl,
    rows_with_state_sublist _ _, rfl, ?_, ?_⟩
  · intro hpure
    simp only
    rw [get_report_state_answers_pure X hpure, List.map_map]
    exact rows_with_state_map (active_engine_shares ctx)
      (fun report_name => (X.get_report_state ctx.engine report_name).2)
  · intro ctx2 view r2 h
    exact active_reports_rnd_init_returns_zero X ctx2 view r2 h

theorem active_reports_rnd_init_rows_witness :
    ({ data_ := [], pos_ := 0 } : pinba_view___active_reports_t).data_ = [] ∧
    registry_well_formed example_ctx_three ∧
    ∃ r, pinba_view___active_reports_t.rnd_init example_externals_t1 example_ctx_three
        { data_ := [], pos_ := 0 } = some r ∧
      r.1 = 0 ∧
      r.2.1.data_ = [{ share_data := example_active_share.topinba_share_data_t,
                       report_state := some example_report_state }] ∧
      r.2.2.2 = [.lock_acquire, .lock_release, .get_report_state "t1",
        .get_report_state "t9"] := by
  have hwf : registry_well_formed example_ctx_three := by
    intro share_pair h
    have : share_pair = ("t1", 0) ∨ share_pair = ("stats", 1) ∨ share_pair = ("t9", 2) := by
      simpa [example_ctx_three] using h
    rcases this with h | h | h <;> subst h <;> decide
  obtain ⟨r, h1, h2, _, h3, _, h4, _⟩ :=
    active_reports_rnd_init_rows example_externals_t1 example_ctx_three
      { data_ := [], pos_ := 0 } rfl hwf
  exact ⟨rfl, hwf, r, h1, h2, h3.trans rfl, h4.trans rfl⟩

/-! ## A failed configuration -/

theorem share_init_construction_throws {E : Type} (X : pinba_externals E)
    (share : pinba_share_t) (table_comment : String) (conf : pinba_view_conf_t) (e : String)
    (hconf : share.view_conf = none) (hreport : share.report = none)
    (hactive : share.report_active = false)
    (hparse : X.pinba_view_conf_parse share.mysql_name table_comment = .ok conf)
    (hcreate : pinba_view_report_create X conf = .error e) :
    share_init_with_table_comment_locked X share table_comment =
      some ({ share with view_conf := some conf }, .error e) := by
  unfold share_init_with_table_comment_locked
  simp [hconf, hreport, hactive, hparse, hcreate]

theorem share_init_parse_throws {E : Type} (X : pinba_externals E)
    (share : pinba_share_t) (table_comment : String) (e : String)
    (hconf : share.view_conf = none) (hreport : share.report = none)
    (hactive : share.report_active = false)
    (hparse : X.pinba_view_conf_parse share.mysql_name table_comment = .error e) :
    share_init_with_table_comment_locked X share table_comment = some (share, .error e) := by
  unfold share_init_with_table_comment_locked
  simp [hconf, hreport, hactive, hparse]

/-- C15 (the code departs from the claim). From the empty registry, `create`
of t1 with a comment that the comment reader accepts as a by-timer report
and for which the report constructor throws: the call returns
`HA_WRONG_CREATE_OPTION`, and the share it leaves registered under t1 has its
view configuration set (not unset), no report, report_active = false and
report_needs_engine = false. The share is then not configured by later
calls: a later `create` with an accepted comment fails the assert of
`share_init_with_table_comment_locked` on the view configuration, and a
later `open` returns 0 without configuring, leaving every share as it was,
so that the handler's `rnd_init` makes no `add_report` call. -/
theorem create_with_failing_constructor_leaves_view_conf :
    ∃ ctx1 calls1 share,
      pinba_handler_t.create example_externals_strict empty_ctx "t1" (some "timer") =
        some (HA_WRONG_CREATE_OPTION, ctx1, calls1) ∧
      ctx1.open_shares.lookup "t1" = some 0 ∧ ctx1.shares[0]? = some share ∧
      share.view_conf = some { kind := .report_by_timer_data, keys := [], percentiles := [] } ∧
      share.view_conf ≠ none ∧
      share.report = none ∧ share.report_active = false ∧ share.report_needs_engine = false ∧
      pinba_handler_t.create example_externals_strict ctx1 "t1" (some "request") = none ∧
      ∃ handler ctx2 calls2 r,
        pinba_handler_t.open_table example_externals_strict ctx1 example_fresh_handler "t1" =
          some (0, handler, ctx2, calls2) ∧
        ctx2.shares = ctx1.shares ∧
        pinba_handler_t.rnd_init example_externals_strict ctx2 handler = some r ∧
        r.2.2.2.filter pinba_event.is_add_report = [] ∧ r.2.2.1.shares = ctx1.shares :=
  ⟨_, _, _, rfl, rfl, rfl, rfl, by decide, rfl, rfl, rfl, rfl, _, _, _, _, rfl, rfl, rfl, rfl, rfl⟩

/-! ## The lifecycle of a share -/

theorem pending_iff_report_create (table_name : String) :
    pending_iff_report (pinba_share_t.create table_name) := by
  simp [pending_iff_report, pinba_share_t.create]

theorem share_init_keeps_pending_iff_report {E : Type} (X : pinba_externals E)
    (share : pinba_share_t) (table_comment : String)
    (r : pinba_share_t × Except String Unit)
    (h : share_init_with_table_comment_locked X share table_comment = some r)
    (hinv : pending_iff_report share) : pending_iff_report r.1 := by
  unfold share_init_with_table_comment_locked at h
  split at h
  · exact absurd h (by simp)
  · next hvc =>
    split at h
    · exact absurd h (by simp)
    · next hrep =>
      split at h
      · exact absurd h (by simp)
      · next hact =>
        have hrep2 : share.report.isSome = false := by simpa using hrep
        have hact2 : share.report_active = false := by simpa using hact
        have hneeds : share.report_needs_engine = false := by
          cases hn : share.report_needs_engine
          · rfl
          · have := hinv.2 hn hact2
            rw [hrep2] at this
            exact absurd this (by simp)
        split at h
        · rw [← Option.some.inj h]
          exact hinv
        · dsimp only at h
          split at h
          · rw [← Option.some.inj h]
            simp [pending_iff_report, hrep2, hneeds]
          · split at h
            · next hsome =>
              rw [← Option.some.inj h]
              unfold pending_iff_report
              exact ⟨fun _ => ⟨rfl, rfl⟩, fun _ _ => hsome⟩
            · next hnone =>
              rw [← Option.some.inj h]
              unfold pending_iff_report
              refine ⟨fun hs => absurd hs hnone, fun hn => ?_⟩
              exact absurd hn (by simp)

theorem all_pending_iff_report_set (shares : List pinba_share_t) (i : Nat) (share : pinba_share_t)
    (hall : ∀ s ∈ shares, pending_iff_report s) (hshare : pending_iff_report share) :
    ∀ s ∈ shares.set i share, pending_iff_report s := by
  intro s hs
  rcases List.mem_or_eq_of_mem_set hs with h | h
  · exact hall s h
  · rw [h]; exact hshare

theorem get_or_create_keeps_pending_iff_report {E : Type} (ctx : pinba_mysql_ctx_t E)
    (table_name : String) (hall : ∀ s ∈ ctx.shares, pending_iff_report s) :
    ∀ s ∈ (pinba_share_get_or_create_locked ctx table_name).1.shares, pending_iff_report s := by
  unfold pinba_share_get_or_create_locked
  split
  · exact hall
  · intro s hs
    simp only [List.mem_append, List.mem_singleton] at hs
    rcases hs with h | h
    · exact hall s h
    · rw [h]; exact pending_iff_report_create table_name

theorem create_keeps_pending_iff_report {E : Type} (X : pinba_externals E)
    (ctx : pinba_mysql_ctx_t E) (table_name : String) (comment : Option String)
    (r : Int × pinba_mysql_ctx_t E × List pinba_event)
    (h : pinba_handler_t.create X ctx table_name comment = some r)
    (hall : ∀ s ∈ ctx.shares, pending_iff_report s) :
    ∀ s ∈ r.2.1.shares, pending_iff_report s := by
  have hgot := get_or_create_keeps_pending_iff_report ctx table_name hall
  unfold pinba_handler_t.create at h
  split at h
  · rw [← Option.some.inj h]; exact hall
  · dsimp only at h
    split at h
    · exact absurd h (by simp)
    · next share hshare =>
      split at h
      · exact absurd h (by simp)
      · next initialised hinit =>
        have hs := share_init_keeps_pending_iff_report X share _ initialised hinit
          (hgot share (List.getElem?_mem hshare))
        split at h <;>
        · rw [← Option.some.inj h]
          exact all_pending_iff_report_set _ _ _ hgot hs

theorem open_table_keeps_pending_iff_report {E : Type} (X : pinba_externals E)
    (ctx : pinba_mysql_ctx_t E) (self : pinba_handler_t) (table_name : String)
    (r : Int × pinba_handler_t × pinba_mysql_ctx_t E × List pinba_event)
    (h : pinba_handler_t.open_table X ctx self table_name = some r)
    (hall : ∀ s ∈ ctx.shares, pending_iff_report s) :
    ∀ s ∈ r.2.2.1.shares, pending_iff_report s := by
  have hgot := get_or_create_keeps_pending_iff_report ctx table_name hall
  unfold pinba_handler_t.open_table at h
  dsimp only at h
  split at h
  · exact absurd h (by simp)
  · next share hshare =>
    split at h
    · rw [← Option.some.inj h]; exact hgot
    · split at h
      · rw [← Option.some.inj h]; exact hgot
      · split at h
        · exact absurd h (by simp)
        · next initialised hinit =>
          have hs := share_init_keeps_pending_iff_report X share _ initialised hinit
            (hgot share (List.getElem?_mem hshare))
          split at h
          · rw [← Option.some.inj h]
            exact all_pending_iff_report_set _ _ _ hgot hs
          · split at h
            · exact absurd h (by simp)
            · rw [← Option.some.inj h]
              exact all_pending_iff_report_set _ _ _ hgot hs

theorem rnd_init_keeps_pending_iff_report {E : Type} (X : pinba_externals E)
    (ctx : pinba_mysql_ctx_t E) (self : pinba_handler_t)
    (r : Int × pinba_handler_t × pinba_mysql_ctx_t E × List pinba_event)
    (h : pinba_handler_t.rnd_init X ctx self = some r)
    (hall : ∀ s ∈ ctx.shares, pending_iff_report s) :
    ∀ s ∈ r.2.2.1.shares, pending_iff_report s := by
  unfold pinba_handler_t.rnd_init at h
  split at h
  · next sid share _ hshare =>
    split at h
    · split at h
      · exact absurd h (by simp)
      · dsimp only at h
        split at h
        · rw [← Option.some.inj h]; exact hall
        · split at h
          · exact absurd h (by simp)
          · next view _ =>
            split at h
            · exact absurd h (by simp)
            · next r0 h0 =>
              rw [← Option.some.inj h]
              have hp := (view_rnd_init_preserves X _ self.share_ self.table view r0 h0).1
              simp only [hp]
              apply all_pending_iff_report_set _ _ _ hall
              simp [pending_iff_report]
    · split at h
      · exact absurd h (by simp)
      · next view _ =>
        split at h
        · exact absurd h (by simp)
        · next r0 h0 =>
          rw [← Option.some.inj h]
          have hp := (view_rnd_init_preserves X _ self.share_ self.table view r0 h0).1
          simp only [hp]
          exact hall
  · exact absurd h (by simp)

theorem rename_table_keeps_pending_iff_report {E : Type}
    (ctx : pinba_mysql_ctx_t E) (from_table to_table : String)
    (r : Int × pinba_mysql_ctx_t E × List pinba_event)
    (h : pinba_handler_t.rename_table ctx from_table to_table = some r)
    (hall : ∀ s ∈ ctx.shares, pending_iff_report s) :
    ∀ s ∈ r.2.1.shares, pending_iff_report s := by
  unfold pinba_handler_t.rename_table at h
  split at h
  · rw [← Option.some.inj h]; exact hall
  · split at h
    · exact absurd h (by simp)
    · next share hshare =>
      rw [← Option.some.inj h]
      apply all_pending_iff_report_set _ _ _ hall
      exact hall share (List.getElem?_mem hshare)

theorem delete_table_keeps_shares {E : Type} (X : pinba_externals E)
    (ctx : pinba_mysql_ctx_t E) (table_name : String)
    (r : Int × pinba_mysql_ctx_t E × List pinba_event)
    (h : pinba_handler_t.delete_table X ctx table_name = some r) :
    r.2.1.shares = ctx.shares := by
  unfold pinba_handler_t.delete_table at h
  split at h
  · rw [← Option.some.inj h]
  · split at h
    · exact absurd h (by simp)
    · dsimp only at h
      split at h
      · split at h <;> rw [← Option.some.inj h]
      · rw [← Option.some.inj h]

theorem apply_keeps_pending_iff_report {E : Type} (X : pinba_externals E)
    (ctx ctx1 : pinba_mysql_ctx_t E) (call : pinba_call)
    (h : call.apply X ctx = some ctx1)
    (hall : ∀ s ∈ ctx.shares, pending_iff_report s) :
    ∀ s ∈ ctx1.shares, pending_iff_report s := by
  cases call with
  | create table_name comment =>
    simp only [pinba_call.apply] at h
    split at h
    · exact absurd h (by simp)
    · next r hr =>
      rw [← Option.some.inj h]
      exact create_keeps_pending_iff_report X ctx table_name comment r hr hall
  | open_table self table_name =>
    simp only [pinba_call.apply] at h
    split at h
    · exact absurd h (by simp)
    · next r hr =>
      rw [← Option.some.inj h]
      exact open_table_keeps_pending_iff_report X ctx self table_name r hr hall
  | rnd_init self =>
    simp only [pinba_call.apply] at h
    split at h
    · exact absurd h (by simp)
    · next r hr =>
      rw [← Option.some.inj h]
      exact rnd_init_keeps_pending_iff_report X ctx self r hr hall
  | rename_table from_table to_table =>
    simp only [pinba_call.apply] at h
    split at h
    · exact absurd h (by simp)
    · next r hr =>
      rw [← Option.some.inj h]
      exact rename_table_keeps_pending_iff_report ctx from_table to_table r hr hall
  | delete_table table_name =>
    simp only [pinba_call.apply] at h
    split at h
    · exact absurd h (by simp)
    · next r hr =>
      rw [← Option.some.inj h]
      rw [delete_table_keeps_shares X ctx table_name r hr]
      exact hall

theorem run_calls_keeps_pending_iff_report {E : Type} (X : pinba_externals E) :
    ∀ (calls : List pinba_call) (ctx ctx1 : pinba_mysql_ctx_t E),
      run_calls X ctx calls = some ctx1 →
      (∀ s ∈ ctx.shares, pending_iff_report s) →
      ∀ s ∈ ctx1.shares, pending_iff_report s := by
  intro calls
  induction calls with
  | nil =>
    intro ctx ctx1 h hall
    simp only [run_calls] at h
    rw [← Option.some.inj h]
    exact hall
  | cons call rest ih =>
    intro ctx ctx1 h hall
    simp only [run_calls] at h
    split at h
    · exact absurd h (by simp)
    · next ctx2 h2 =>
      exact ih ctx2 ctx1 h (apply_keeps_pending_iff_report X ctx ctx2 call h2 hall)

/-- C16. In every context reached from the empty registry, with any engine
state, by any sequence of `create`, `open`, handler `rnd_init`,
`rename_table` and `delete_table` calls, with any comment reader, report
constructors and engine, every share, registered or not, satisfies: if it
holds a report then report_needs_engine = true and report_active = false; if
report_needs_engine = true and report_active = false and it is configured
then it holds a report; and if report_active = true it holds no report. -/
theorem share_lifecycle_invariant {E : Type} (X : pinba_externals E) (e : E)
    (calls : List pinba_call) (ctx : pinba_mysql_ctx_t E)
    (hrun : run_calls X { shares := [], open_shares := [], engine := e } calls = some ctx) :
    ∀ share, (share ∈ ctx.shares ∨ share ∈ registered_shares ctx) →
      (share.report.isSome = true →
        share.report_needs_engine = true ∧ share.report_active = false) ∧
      (share.report_needs_engine = true → share.report_active = false →
        share.view_conf.isSome = true → share.report.isSome = true) ∧
      (share.report_active = true → share.report = none) := by
  have hall := run_calls_keeps_pending_iff_report X calls _ ctx hrun (by simp)
  intro share hmem
  have hin : share ∈ ctx.shares := by
    rcases hmem with h | h
    · exact h
    · unfold registered_shares at h
      obtain ⟨p, _, hp⟩ := List.mem_filterMap.mp h
      exact List.getElem?_mem hp
  obtain ⟨h1, h2⟩ := hall share hin
  refine ⟨h1, fun hn ha _ => h2 hn ha, ?_⟩
  intro hact
  cases hr : share.report with
  | none => rfl
  | some r =>
    have := (h1 (by simp [hr])).2
    rw [hact] at this
    exact absurd this (by simp)

theorem share_lifecycle_invariant_witness :
    ∃ ctx, run_calls example_externals_strict
        { shares := [], open_shares := [], engine := () } example_calls = some ctx ∧
      ctx.open_shares = [("t2", 0), ("t3", 1)] ∧
      ctx.shares[0]? = some { example_active_share with mysql_name := "t2" } ∧
      ∀ share ∈ ctx.shares, share.report_active = true → share.report = none :=
  ⟨_, rfl, rfl, rfl, fun share h =>
    (share_lifecycle_invariant example_externals_strict () example_calls _ rfl share
      (Or.inl h)).2.2⟩

/-! ## The two percentile ranges -/

theorem kind_corresponds_counts (view_kind : pinba_view_kind) (kind : report_kind)
    (h : kind_corresponds view_kind kind = true) :
    is_report_kind view_kind = true ∧ data_field_count kind = fixed_count view_kind := by
  cases view_kind <;> cases kind <;> simp [kind_corresponds] at h <;>
    exact ⟨rfl, rfl⟩

theorem percentile_fields_lookup (rinfo : report_info_t) (d : pinba_share_data_t)
    (conf : pinba_view_conf_t) (row : snapshot_row_t) (pos_ findex : Nat)
    (hconf : d.view_conf = some conf) (hp : conf.percentiles.length < UINT_RANGE) :
    (pinba_view___report_snapshot_t.percentile_fields rinfo (some d) row pos_ findex).2.any
      pinba_event.is_histogram_read = decide (findex < conf.percentiles.length) := by
  unfold pinba_view___report_snapshot_t.percentile_fields
  simp only [Option.some_bind, hconf, Nat.mod_eq_of_lt hp]
  split
  · next h =>
    simp only [h, decide_True]
    split
    · simp [pinba_event.is_histogram_read]
    · split <;> simp [pinba_event.is_histogram_read]
  · next h => simp [h]

theorem rnd_next_field_lookup (rinfo : report_info_t) (d : pinba_share_data_t)
    (conf : pinba_view_conf_t) (row : snapshot_row_t) (pos_ c : Nat)
    (hconf : d.view_conf = some conf) (hp : conf.percentiles.length < UINT_RANGE) :
    (pinba_view___report_snapshot_t.rnd_next_field rinfo (some d) row pos_ c).2.any
      pinba_event.is_histogram_read =
      decide (rinfo.n_key_parts + data_field_count rinfo.kind ≤ c ∧
        c < rinfo.n_key_parts + data_field_count rinfo.kind + conf.percentiles.length) := by
  rcases Nat.lt_or_ge c rinfo.n_key_parts with hk | hk
  · rw [rnd_next_field_key _ _ _ _ _ hk]
    have : ¬ (rinfo.n_key_parts + data_field_count rinfo.kind ≤ c) := by omega
    simp [this]
  · rcases Nat.lt_or_ge c (rinfo.n_key_parts + data_field_count rinfo.kind) with hf | hf
    · rw [(rnd_next_field_data_is_stored rinfo (some d) row pos_ c hk hf).2]
      have : ¬ (rinfo.n_key_parts + data_field_count rinfo.kind ≤ c) := by omega
      simp [this]
    · rw [rnd_next_field_percentile _ _ _ _ _ hf,
        percentile_fields_lookup rinfo d conf row pos_ _ hconf hp]
      by_cases h : c < rinfo.n_key_parts + data_field_count rinfo.kind + conf.percentiles.length
      · have h2 : c - rinfo.n_key_parts - data_field_count rinfo.kind <
            conf.percentiles.length := by omega
        simp [h, h2, hf]
      · have h2 : ¬ c - rinfo.n_key_parts - data_field_count rinfo.kind <
            conf.percentiles.length := by omega
        simp [h, h2]

theorem lookup_columns_map (read_set : Nat → Bool)
    (body : Nat → field_outcome × List pinba_event) (l : List Nat) :
    lookup_columns (l.map (fun field_index =>
      if bitmap_is_set read_set field_index then
        ({ field_index := field_index
           outcome := (body field_index).1
           reads := (body field_index).2 } : field_step)
      else { field_index := field_index, outcome := .untouched, reads := [] })) =
    (l.filter (fun c => bitmap_is_set read_set c)).filter
      (fun c => (body c).2.any pinba_event.is_histogram_read) := by
  induction l with
  | nil => rfl
  | cons a l ih =>
    unfold lookup_columns at ih ⊢
    simp only [List.map_cons, List.filter_cons]
    cases hb : bitmap_is_set read_set a
    · simp [ih]
    · cases he : (body a).2.any pinba_event.is_histogram_read <;> simp [he, ih]

theorem row_events_histogram_reads (steps : List field_step) :
    (row_events steps).any pinba_event.is_histogram_read =
      decide (lookup_columns steps ≠ []) := by
  induction steps with
  | nil => rfl
  | cons st rest ih =>
    unfold row_events lookup_columns at ih ⊢
    simp only [List.flatMap_cons, List.any_append, ih, List.filter_cons]
    have hcalls : (field_calls st.field_index st.outcome).any pinba_event.is_histogram_read =
        false := by
      cases st.outcome <;> simp [field_calls, pinba_event.is_histogram_read]
    cases hr : st.reads.any pinba_event.is_histogram_read <;> simp [hr, hcalls]

theorem rnd_next_steps (self : pinba_view___report_snapshot_t) (table : TABLE)
    (snapshot : report_snapshot_t)
    (r : Int × pinba_view___report_snapshot_t × List field_step)
    (hsnap : self.snapshot_ = some snapshot)
    (h : pinba_view___report_snapshot_t.rnd_next self table = some r) :
    (r.1 = HA_ERR_END_OF_FILE ∧ r.2.2 = []) ∨
    (r.1 = 0 ∧ ∃ row, snapshot.rows[self.pos_]? = some row ∧
      r.2.2 = field_loop table (pinba_view___report_snapshot_t.rnd_next_field snapshot.rinfo
        self.share_data_ row self.pos_)) := by
  unfold pinba_view___report_snapshot_t.rnd_next at h
  simp only [hsnap] at h
  split at h
  · rw [← Option.some.inj h]
    exact Or.inl ⟨rfl, rfl⟩
  · split at h
    · exact absurd h (by simp)
    · next row hrow =>
      split at h
      · exact absurd h (by simp)
      · rw [← Option.some.inj h]
        exact Or.inr ⟨rfl, row, hrow, rfl⟩

/-- C17. For a configuration whose view kind is the report kind of the
snapshot and whose key count is the key part count of the snapshot, with
k + fixed_count + p within `unsigned`: the range that `need_percentiles`
tests in `rnd_init` is [k + fixed_count, k + fixed_count + p); the loop body
of `rnd_next` looks up the row's histogram for a column exactly when the
column lies in that range; so in a `rnd_next` that returns a row the columns
with a histogram lookup are the requested columns in that range. When
`need_percentiles` is false for the table, no `rnd_next` on that table looks
up a histogram for any column, and its calls hold no `get_histogram` and no
`get_percentile`. -/
theorem percentile_ranges_agree (conf : pinba_view_conf_t) (snapshot : report_snapshot_t)
    (d : pinba_share_data_t)
    (hconf : d.view_conf = some conf)
    (hkind : kind_corresponds conf.kind snapshot.rinfo.kind = true)
    (hkeys : conf.keys.length = snapshot.rinfo.n_key_parts)
    (hrange : conf.keys.length + fixed_count conf.kind + conf.percentiles.length <
      UINT_RANGE) :
    pinba_view___report_snapshot_t.percentile_field_range conf =
      some (conf.keys.length + fixed_count conf.kind,
        conf.keys.length + fixed_count conf.kind + conf.percentiles.length) ∧
    (∀ (row : snapshot_row_t) (pos_ c : Nat),
      (pinba_view___report_snapshot_t.rnd_next_field snapshot.rinfo (some d) row pos_ c).2.any
          pinba_event.is_histogram_read = true ↔
        (conf.keys.length + fixed_count conf.kind ≤ c ∧
          c < conf.keys.length + fixed_count conf.kind + conf.percentiles.length)) ∧
    (∀ (self : pinba_view___report_snapshot_t) (table : TABLE)
      (r : Int × pinba_view___report_snapshot_t × List field_step),
      self.snapshot_ = some snapshot → self.share_data_ = some d →
      pinba_view___report_snapshot_t.rnd_next self table = some r → r.1 = 0 →
      lookup_columns r.2.2 = table.requested.filter (fun c =>
        decide (conf.keys.length + fixed_count conf.kind ≤ c ∧
          c < conf.keys.length + fixed_count conf.kind + conf.percentiles.length))) ∧
    (∀ (self : pinba_view___report_snapshot_t) (table : TABLE)
      (r : Int × pinba_view___report_snapshot_t × List field_step),
      self.snapshot_ = some snapshot → self.share_data_ = some d →
      pinba_view___report_snapshot_t.need_percentiles conf table = some false →
      pinba_view___report_snapshot_t.rnd_next self table = some r →
      lookup_columns r.2.2 = [] ∧
      (row_events r.2.2).any pinba_event.is_histogram_read = false ∧
      (∀ pos, pinba_event.get_histogram pos ∉ row_events r.2.2) ∧
      (∀ pos percentile, pinba_event.get_percentile pos percentile ∉ row_events r.2.2)) := by
  obtain ⟨hrk, hcount⟩ := kind_corresponds_counts conf.kind snapshot.rinfo.kind hkind
  have hp : conf.percentiles.length < UINT_RANGE := by omega
  have hbody : ∀ (row : snapshot_row_t) (pos_ c : Nat),
      (pinba_view___report_snapshot_t.rnd_next_field snapshot.rinfo (some d) row pos_ c).2.any
          pinba_event.is_histogram_read =
        decide (conf.keys.length + fixed_count conf.kind ≤ c ∧
          c < conf.keys.length + fixed_count conf.kind + conf.percentiles.length) := by
    intro row pos_ c
    rw [rnd_next_field_lookup snapshot.rinfo d conf row pos_ c hconf hp, hcount, hkeys]
  have hcols : ∀ (self : pinba_view___report_snapshot_t) (table : TABLE)
      (r : Int × pinba_view___report_snapshot_t × List field_step),
      self.snapshot_ = some snapshot → self.share_data_ = some d →
      pinba_view___report_snapshot_t.rnd_next self table = some r →
      lookup_columns r.2.2 = [] ∨
      lookup_columns r.2.2 = table.requested.filter (fun c =>
        decide (conf.keys.length + fixed_count conf.kind ≤ c ∧
          c < conf.keys.length + fixed_count conf.kind + conf.percentiles.length)) := by
    intro self table r hsnap hdata hnext
    rcases rnd_next_steps self table snapshot r hsnap hnext with ⟨_, hs⟩ | ⟨_, row, _, hs⟩
    · left; rw [hs]; rfl
    · right
      rw [hs, hdata]
      unfold field_loop
      rw [lookup_columns_map]
      unfold TABLE.requested
      apply List.filter_congr
      intro c _
      exact hbody row self.pos_ c
  refine ⟨percentile_field_range_eq conf hrk hrange, ?_, ?_, ?_⟩
  · intro row pos_ c
    rw [hbody]
    simp
  · intro self table r hsnap hdata hnext hrow
    rcases rnd_next_steps self table snapshot r hsnap hnext with ⟨hcode, _⟩ | ⟨_, row, _, hs⟩
    · rw [hrow] at hcode
      exact absurd hcode (by simp [HA_ERR_END_OF_FILE])
    · rw [hs, hdata]
      unfold field_loop
      rw [lookup_columns_map]
      unfold TABLE.requested
      apply List.filter_congr
      intro c _
      exact hbody row self.pos_ c
  · intro self table r hsnap hdata hnp hnext
    obtain ⟨np, hnp2, hiff⟩ := need_percentiles_eq_some_iff conf table hrk hrange
    have hfalse : np = false := (Option.some.inj (hnp2.symm.trans hnp))
    have hnone : table.requested.filter (fun c =>
        decide (conf.keys.length + fixed_count conf.kind ≤ c ∧
          c < conf.keys.length + fixed_count conf.kind + conf.percentiles.length)) = [] := by
      rw [List.filter_eq_nil_iff]
      intro c hc hin
      have hin2 := of_decide_eq_true hin
      have := hiff.mpr ⟨c, hc, hin2.1, hin2.2⟩
      rw [hfalse] at this
      exact absurd this (by simp)
    have hempty : lookup_columns r.2.2 = [] := by
      rcases hcols self table r hsnap hdata hnext with h | h
      · exact h
      · rw [h, hnone]
    have hany : (row_events r.2.2).any pinba_event.is_histogram_read = false := by
      rw [row_events_histogram_reads, hempty]
      simp
    refine ⟨hempty, hany, ?_, ?_⟩
    · intro pos hmem
      have : (row_events r.2.2).any pinba_event.is_histogram_read = true :=
        List.any_eq_true.mpr ⟨_, hmem, rfl⟩
      rw [hany] at this
      exact absurd this (by simp)
    · intro pos percentile hmem
      have : (row_events r.2.2).any pinba_event.is_histogram_read = true :=
        List.any_eq_true.mpr ⟨_, hmem, rfl⟩
      rw [hany] at this
      exact absurd this (by simp)

theorem percentile_ranges_agree_witness :
    example_share.topinba_share_data_t.view_conf = some example_conf ∧
    kind_corresponds example_conf.kind (example_snapshot.prepare .no_histograms).rinfo.kind =
      true ∧
    example_conf.keys.length = (example_snapshot.prepare .no_histograms).rinfo.n_key_parts ∧
    example_conf.keys.length + fixed_count example_conf.kind +
      example_conf.percentiles.length < UINT_RANGE ∧
    pinba_view___report_snapshot_t.need_percentiles example_conf example_table_keys =
      some false ∧
    ∃ r, pinba_view___report_snapshot_t.rnd_next
        { snapshot_ := some (example_snapshot.prepare .no_histograms), pos_ := 0,
          share_data_ := some example_share.topinba_share_data_t } example_table_keys =
        some r ∧
      r.1 = 0 ∧ (row_events r.2.2).any pinba_event.is_histogram_read = false := by
  have h4 : example_conf.keys.length + fixed_count example_conf.kind +
      example_conf.percentiles.length < UINT_RANGE := by decide
  have hnp : pinba_view___report_snapshot_t.need_percentiles example_conf example_table_keys =
      some false := by decide
  have hnext := rnd_next_row
    { snapshot_ := some (example_snapshot.prepare .no_histograms), pos_ := 0,
      share_data_ := some example_share.topinba_share_data_t } example_table_keys
    (example_snapshot.prepare .no_histograms) (example_row (some example_histogram))
    example_share.topinba_share_data_t example_conf rfl rfl rfl rfl (by decide)
  exact ⟨rfl, rfl, rfl, h4, hnp, _, hnext, rfl,
    ((percentile_ranges_agree example_conf (example_snapshot.prepare .no_histograms)
      example_share.topinba_share_data_t rfl rfl rfl h4).2.2.2 _ example_table_keys _ rfl rfl
        hnp hnext).2.1⟩

/-! ## The registry lock and the engine calls -/

theorem calls_under_lock_of_no_lock :
    ∀ (calls : List pinba_event), (∀ e ∈ calls, e.is_registry_lock = false) →
      calls_under_lock false calls = [] := by
  intro calls
  induction calls with
  | nil => intro _; rfl
  | cons e rest ih =>
    intro h
    have he := h e (List.mem_cons_self _ _)
    have hrest := ih (fun x hx => h x (List.mem_cons_of_mem _ hx))
    cases e <;> simp_all [calls_under_lock, pinba_event.is_registry_lock]

theorem calls_under_lock_section (calls : List pinba_event) :
    calls_under_lock false ([.lock_acquire, .lock_release] ++ calls) =
      calls_under_lock false calls := by
  simp [calls_under_lock]

theorem field_calls_quiet (c : Nat) (o : field_outcome) :
    ∀ e ∈ field_calls c o, e.is_registry_lock = false ∧ e.is_engine_call = false := by
  intro e he
  cases o <;>
    simp [field_calls] at he
  rcases he with rfl | rfl <;> exact ⟨rfl, rfl⟩

theorem row_events_quiet (steps : List field_step)
    (h : ∀ st ∈ steps, ∀ e ∈ st.reads, e.is_registry_lock = false ∧ e.is_engine_call = false) :
    ∀ e ∈ row_events steps, e.is_registry_lock = false ∧ e.is_engine_call = false := by
  intro e he
  unfold row_events at he
  rw [List.mem_flatMap] at he
  obtain ⟨st, hst, hmem⟩ := he
  rcases List.mem_append.mp hmem with h1 | h1
  · exact h st hst e h1
  · exact field_calls_quiet _ _ e h1

theorem field_loop_quiet (table : TABLE) (body : Nat → field_outcome × List pinba_event)
    (h : ∀ c, ∀ e ∈ (body c).2, e.is_registry_lock = false ∧ e.is_engine_call = false) :
    ∀ e ∈ row_events (field_loop table body),
      e.is_registry_lock = false ∧ e.is_engine_call = false := by
  apply row_events_quiet
  intro st hst e he
  unfold field_loop at hst
  rw [List.mem_map] at hst
  obtain ⟨c, _, hc⟩ := hst
  split at hc
  · rw [← hc] at he
    exact h c e he
  · rw [← hc] at he
    exact absurd he (List.not_mem_nil _)

theorem percentile_fields_quiet (rinfo : report_info_t) (sd : Option pinba_share_data_t)
    (row : snapshot_row_t) (pos_ findex : Nat) :
    ∀ e ∈ (pinba_view___report_snapshot_t.percentile_fields rinfo sd row pos_ findex).2,
      e.is_registry_lock = false ∧ e.is_engine_call = false := by
  unfold pinba_view___report_snapshot_t.percentile_fields
  split
  · intro e he; exact absurd he (List.not_mem_nil _)
  · simp only
    split
    · split
      · intro e he
        simp at he
        rw [he]; exact ⟨rfl, rfl⟩
      · split
        · intro e he
          simp at he
          rw [he]; exact ⟨rfl, rfl⟩
        · intro e he
          simp at he
          rcases he with rfl | rfl <;> exact ⟨rfl, rfl⟩
    · intro e he; exact absurd he (List.not_mem_nil _)

theorem rnd_next_field_quiet (rinfo : report_info_t) (sd : Option pinba_share_data_t)
    (row : snapshot_row_t) (pos_ c : Nat) :
    ∀ e ∈ (pinba_view___report_snapshot_t.rnd_next_field rinfo sd row pos_ c).2,
      e.is_registry_lock = false ∧ e.is_engine_call = false := by
  unfold pinba_view___report_snapshot_t.rnd_next_field
  simp only
  split
  · intro e he; exact absurd he (List.not_mem_nil _)
  · cases rinfo.kind <;> simp only
    · split
      · intro e he; exact absurd he (List.not_mem_nil _)
      · exact percentile_fields_quiet _ _ _ _ _
    · split
      · intro e he; exact absurd he (List.not_mem_nil _)
      · exact percentile_fields_quiet _ _ _ _ _
    · split
      · intro e he; exact absurd he (List.not_mem_nil _)
      · exact percentile_fields_quiet _ _ _ _ _
    · exact percentile_fields_quiet _ _ _ _ _

theorem view_rnd_next_quiet {E : Type} (X : pinba_externals E) (ctx : pinba_mysql_ctx_t E)
    (table : TABLE) (view : pinba_view_t) (r : Int × pinba_view_t × List pinba_event)
    (h : view.rnd_next X ctx table = some r) :
    ∀ e ∈ r.2.2, e.is_registry_lock = false ∧ e.is_engine_call = false := by
  cases view with
  | stats v =>
    simp only [pinba_view_t.rnd_next] at h
    rw [← Option.some.inj h]
    simp only
    unfold pinba_view___stats_t.rnd_next
    split
    · intro e he; exact absurd he (List.not_mem_nil _)
    · apply field_loop_quiet
      intro c e he; exact absurd he (List.not_mem_nil _)
  | active_reports v =>
    simp only [pinba_view_t.rnd_next] at h
    split at h
    · exact absurd h (by simp)
    · next r0 h0 =>
      rw [← Option.some.inj h]
      simp only
      have hq : ∀ e ∈ row_events r0.2.2,
          e.is_registry_lock = false ∧ e.is_engine_call = false := by
        unfold pinba_view___active_reports_t.rnd_next at h0
        split at h0
        · rw [← Option.some.inj h0]
          intro e he; exact absurd he (List.not_mem_nil _)
        · split at h0
          · exact absurd h0 (by simp)
          · split at h0
            · exact absurd h0 (by simp)
            · rw [← Option.some.inj h0]
              apply field_loop_quiet
              intro c e he; exact absurd he (List.not_mem_nil _)
      split
      · split
        · intro e he
          simp only [List.mem_append, List.mem_singleton] at he
          rcases he with (rfl | he) | rfl
          · exact ⟨rfl, rfl⟩
          · exact hq e he
          · exact ⟨rfl, rfl⟩
        · exact hq
      · intro e he; exact absurd he (List.not_mem_nil _)
  | report_snapshot v =>
    simp only [pinba_view_t.rnd_next] at h
    split at h
    · exact absurd h (by simp)
    · next r0 h0 =>
      rw [← Option.some.inj h]
      simp only
      unfold pinba_view___report_snapshot_t.rnd_next at h0
      split at h0
      · exact absurd h0 (by simp)
      · split at h0
        · rw [← Option.some.inj h0]
          intro e he; exact absurd he (List.not_mem_nil _)
        · split at h0
          · exact absurd h0 (by simp)
          · dsimp only at h0
            split at h0
            · exact absurd h0 (by simp)
            · rw [← Option.some.inj h0]
              exact field_loop_quiet _ _ (rnd_next_field_quiet _ _ _ _)

theorem fetch_states_calls {E : Type} (X : pinba_externals E) :
    ∀ (rows : List view_row_t) (e : E),
      (pinba_view___active_reports_t.fetch_states X e rows).2.2 =
        rows.map (fun row => pinba_event.get_report_state row.share_data.report_name) := by
  intro rows
  induction rows with
  | nil => intro e; rfl
  | cons row rest ih =>
    intro e
    unfold pinba_view___active_reports_t.fetch_states
    simp only
    split <;> simp [ih]

theorem active_reports_rnd_init_calls {E : Type} (X : pinba_externals E)
    (ctx : pinba_mysql_ctx_t E) (self : pinba_view___active_reports_t)
    (r : Int × pinba_view___active_reports_t × pinba_mysql_ctx_t E × List pinba_event)
    (h : pinba_view___active_reports_t.rnd_init X ctx self = some r) :
    r.2.2.2 = [] ∨
    ∃ rows, pinba_view___active_reports_t.collect_rows ctx.shares ctx.open_shares = some rows ∧
      r.2.2.2 = [.lock_acquire, .lock_release] ++
        rows.map (fun row => pinba_event.get_report_state row.share_data.report_name) := by
  unfold pinba_view___active_reports_t.rnd_init at h
  split at h
  · rw [← Option.some.inj h]; exact Or.inl rfl
  · split at h
    · exact absurd h (by simp)
    · next rows hrows =>
      rw [← Option.some.inj h]
      exact Or.inr ⟨rows, hrows, by simp only [fetch_states_calls]⟩

theorem snapshot_rnd_init_calls {E : Type} (X : pinba_externals E)
    (ctx : pinba_mysql_ctx_t E) (share_ : Option Nat) (table : TABLE)
    (self : pinba_view___report_snapshot_t)
    (r : Int × pinba_view___report_snapshot_t × pinba_mysql_ctx_t E × List pinba_event)
    (h : pinba_view___report_snapshot_t.rnd_init X ctx share_ table self = some r) :
    r.2.2.2 = [] ∨
    ∃ share, ctx.share_at share_ = some share ∧
      r.2.1.share_data_ = some share.topinba_share_data_t ∧
      (r.2.2.2 = [.lock_acquire, .lock_release, .get_report_snapshot share.report_name] ∨
        ∃ ptype, r.2.2.2 = [.lock_acquire, .lock_release,
          .get_report_snapshot share.report_name, .prepare ptype]) := by
  unfold pinba_view___report_snapshot_t.rnd_init at h
  split at h
  · rw [← Option.some.inj h]; exact Or.inl rfl
  · split at h
    · exact absurd h (by simp)
    · next share hshare =>
      dsimp only at h
      split at h
      · rw [← Option.some.inj h]
        exact Or.inr ⟨share, hshare, rfl, Or.inl rfl⟩
      · split at h
        · exact absurd h (by simp)
        · split at h
          · exact absurd h (by simp)
          · rw [← Option.some.inj h]
            exact Or.inr ⟨share, hshare, rfl, Or.inr ⟨_, rfl⟩⟩

theorem view_rnd_init_lock_free {E : Type} (X : pinba_externals E)
    (ctx : pinba_mysql_ctx_t E) (share_ : Option Nat) (table : TABLE) (view : pinba_view_t)
    (r : Int × pinba_view_t × pinba_mysql_ctx_t E × List pinba_event)
    (h : view.rnd_init X ctx share_ table = some r) :
    calls_under_lock false r.2.2.2 = [] := by
  cases view with
  | stats v =>
    simp only [pinba_view_t.rnd_init] at h
    rw [← Option.some.inj h]
    rfl
  | active_reports v =>
    simp only [pinba_view_t.rnd_init] at h
    split at h
    · exact absurd h (by simp)
    · next r0 h0 =>
      rw [← Option.some.inj h]
      simp only
      rcases active_reports_rnd_init_calls X ctx v r0 h0 with h1 | ⟨rows, _, h1⟩
      · rw [h1]; rfl
      · rw [h1, calls_under_lock_section]
        apply calls_under_lock_of_no_lock
        intro e he
        rw [List.mem_map] at he
        obtain ⟨row, _, rfl⟩ := he
        rfl
  | report_snapshot v =>
    simp only [pinba_view_t.rnd_init] at h
    split at h
    · exact absurd h (by simp)
    · next r0 h0 =>
      rw [← Option.some.inj h]
      simp only
      rcases snapshot_rnd_init_calls X ctx share_ table v r0 h0 with
        h1 | ⟨share, _, _, h1 | ⟨ptype, h1⟩⟩
      · rw [h1]; rfl
      · rw [h1]; rfl
      · rw [h1]; rfl

theorem handler_rnd_init_under_lock {E : Type} (X : pinba_externals E)
    (ctx : pinba_mysql_ctx_t E) (self : pinba_handler_t) (sid : Nat) (share : pinba_share_t)
    (r : Int × pinba_handler_t × pinba_mysql_ctx_t E × List pinba_event)
    (hsid : self.share_ = some sid) (hshare : ctx.shares[sid]? = some share)
    (h : pinba_handler_t.rnd_init X ctx self = some r) :
    calls_under_lock false r.2.2.2 =
      if share.report_needs_engine && !share.report_active then
        share.report.toList.map pinba_event.add_report
      else [] := by
  have hat : ctx.share_at self.share_ = some share := by
    rw [hsid]; simpa [pinba_mysql_ctx_t.share_at] using hshare
  unfold pinba_handler_t.rnd_init at h
  rw [hat, hsid] at h
  simp only at h
  split at h
  · next hpending =>
    rw [if_pos hpending]
    split at h
    · exact absurd h (by simp)
    · next report hreport =>
      rw [hreport]
      split at h
      · rw [← Option.some.inj h]
        simp [calls_under_lock]
      · split at h
        · exact absurd h (by simp)
        · split at h
          · exact absurd h (by simp)
          · rename_i r0 h0
            rw [← Option.some.inj h]
            have := view_rnd_init_lock_free X _ _ _ _ r0 h0
            simp [calls_under_lock, this]
  · next hpending =>
    rw [if_neg hpending]
    split at h
    · exact absurd h (by simp)
    · split at h
      · exact absurd h (by simp)
      · rename_i r0 h0
        rw [← Option.some.inj h]
        have := view_rnd_init_lock_free X _ _ _ _ r0 h0
        simp [calls_under_lock, this]

theorem create_trace {E : Type} (X : pinba_externals E) (ctx : pinba_mysql_ctx_t E)
    (table_name : String) (comment : Option String)
    (r : Int × pinba_mysql_ctx_t E × List pinba_event)
    (h : pinba_handler_t.create X ctx table_name comment = some r) :
    r.2.2 = [] ∨ r.2.2 = [.lock_acquire, .lock_release] := by
  unfold pinba_handler_t.create at h
  split at h
  · rw [← Option.some.inj h]; exact Or.inl rfl
  · dsimp only at h
    split at h
    · exact absurd h (by simp)
    · split at h
      · exact absurd h (by simp)
      · split at h <;> (rw [← Option.some.inj h]; exact Or.inr rfl)

theorem open_table_trace {E : Type} (X : pinba_externals E) (ctx : pinba_mysql_ctx_t E)
    (self : pinba_handler_t) (table_name : String)
    (r : Int × pinba_handler_t × pinba_mysql_ctx_t E × List pinba_event)
    (h : pinba_handler_t.open_table X ctx self table_name = some r) :
    r.2.2.2 = [.lock_acquire, .lock_release] := by
  unfold pinba_handler_t.open_table at h
  dsimp only at h
  split at h
  · exact absurd h (by simp)
  · split at h
    · rw [← Option.some.inj h]
    · split at h
      · rw [← Option.some.inj h]
      · split at h
        · exact absurd h (by simp)
        · split at h
          · rw [← Option.some.inj h]
          · split at h
            · exact absurd h (by simp)
            · rw [← Option.some.inj h]

theorem rename_table_trace {E : Type} (ctx : pinba_mysql_ctx_t E) (from_table to_table : String)
    (r : Int × pinba_mysql_ctx_t E × List pinba_event)
    (h : pinba_handler_t.rename_table ctx from_table to_table = some r) :
    r.2.2 = [.lock_acquire, .lock_release] := by
  unfold pinba_handler_t.rename_table at h
  split at h
  · rw [← Option.some.inj h]
  · split at h
    · exact absurd h (by simp)
    · rw [← Option.some.inj h]

theorem delete_table_trace {E : Type} (X : pinba_externals E) (ctx : pinba_mysql_ctx_t E)
    (table_name : String) (r : Int × pinba_mysql_ctx_t E × List pinba_event)
    (h : pinba_handler_t.delete_table X ctx table_name = some r) :
    r.2.2 = [.lock_acquire, .lock_release] ∨
    ∃ share_ptr share, ctx.open_shares.lookup table_name = some share_ptr ∧
      ctx.shares[share_ptr]? = some share ∧
      share.report_needs_engine = true ∧ share.report_active = true ∧
      r.2.2 = [.lock_acquire, .delete_report share.report_name, .lock_release] := by
  unfold pinba_handler_t.delete_table at h
  split at h
  · rw [← Option.some.inj h]; exact Or.inl rfl
  · next share_ptr hreg =>
    split at h
    · exact absurd h (by simp)
    · next share hshare =>
      dsimp only at h
      split at h
      · next hcond =>
        have hc := Bool.and_eq_true_iff.mp hcond
        split at h <;>
          (rw [← Option.some.inj h]
           exact Or.inr ⟨share_ptr, share, hreg, hshare, hc.1, hc.2, rfl⟩)
      · rw [← Option.some.inj h]; exact Or.inl rfl

theorem handler_rnd_init_share {E : Type} (X : pinba_externals E)
    (ctx : pinba_mysql_ctx_t E) (self : pinba_handler_t)
    (r : Int × pinba_handler_t × pinba_mysql_ctx_t E × List pinba_event)
    (h : pinba_handler_t.rnd_init X ctx self = some r) :
    ∃ sid share, self.share_ = some sid ∧ ctx.shares[sid]? = some share := by
  unfold pinba_handler_t.rnd_init at h
  split at h
  · next sid share hsid hat =>
    refine ⟨sid, share, hsid, ?_⟩
    rw [hsid] at hat
    simpa [pinba_mysql_ctx_t.share_at] using hat
  · exact absurd h (by simp)

/-- C18 (as amended). In the calls of every entry point, no
`get_report_state`, `get_report_snapshot` or `prepare` is made between an
acquire of the registry lock and its release, and the only engine calls
made with the lock held are the `add_report` of the handler's `rnd_init` and
the `delete_report` of `delete_table`. For every context: `create`,
`open_table` and `rename_table` make no call under the lock and no engine
call at all; so does the handler's `rnd_next`; the calls the handler's
`rnd_init` makes under the lock, its view's `rnd_init` included, are the one
`add_report` of the share's pending report when the share needs the engine
and is not active, and none otherwise; the calls `delete_table` makes under
the lock are its `delete_report` calls, of which there is at most one. The
`get_report_snapshot` of the report snapshot view names the report of the
copy of the share data the view took and keeps, and comes after the release,
followed by at most one `prepare`; the `get_report_state` calls of the active
reports view name the reports of the rows copied under the lock, and come
after the release. -/
theorem registry_lock_not_held_across_fetch {E : Type} (X : pinba_externals E)
    (ctx : pinba_mysql_ctx_t E) :
    (∀ (table_name : String) (comment : Option String)
      (r : Int × pinba_mysql_ctx_t E × List pinba_event),
      pinba_handler_t.create X ctx table_name comment = some r →
      calls_under_lock false r.2.2 = [] ∧ ∀ e ∈ r.2.2, e.is_engine_call = false) ∧
    (∀ (self : pinba_handler_t) (table_name : String)
      (r : Int × pinba_handler_t × pinba_mysql_ctx_t E × List pinba_event),
      pinba_handler_t.open_table X ctx self table_name = some r →
      calls_under_lock false r.2.2.2 = [] ∧ ∀ e ∈ r.2.2.2, e.is_engine_call = false) ∧
    (∀ (from_table to_table : String) (r : Int × pinba_mysql_ctx_t E × List pinba_event),
      pinba_handler_t.rename_table ctx from_table to_table = some r →
      calls_under_lock false r.2.2 = [] ∧ ∀ e ∈ r.2.2, e.is_engine_call = false) ∧
    (∀ (self : pinba_handler_t) (r : Int × pinba_handler_t × List pinba_event),
      pinba_handler_t.rnd_next X ctx self = some r →
      calls_under_lock false r.2.2 = [] ∧ ∀ e ∈ r.2.2, e.is_engine_call = false) ∧
    (∀ (self : pinba_handler_t)
      (r : Int × pinba_handler_t × pinba_mysql_ctx_t E × List pinba_event),
      pinba_handler_t.rnd_init X ctx self = some r →
      ∃ sid share, self.share_ = some sid ∧ ctx.shares[sid]? = some share ∧
        calls_under_lock false r.2.2.2 =
          (if share.report_needs_engine && !share.report_active then
            share.report.toList.map pinba_event.add_report
          else []) ∧
        (calls_under_lock false r.2.2.2).length ≤ 1 ∧
        ∀ e ∈ engine_calls_under_lock r.2.2.2, e.is_add_report = true) ∧
    (∀ (table_name : String) (r : Int × pinba_mysql_ctx_t E × List pinba_event),
      pinba_handler_t.delete_table X ctx table_name = some r →
      calls_under_lock false r.2.2 = r.2.2.filter pinba_event.is_delete_report ∧
      (r.2.2.filter pinba_event.is_delete_report).length ≤ 1 ∧
      ∀ e ∈ engine_calls_under_lock r.2.2, e.is_delete_report = true) ∧
    (∀ (share_ : Option Nat) (table : TABLE) (self : pinba_view___report_snapshot_t)
      (r : Int × pinba_view___report_snapshot_t × pinba_mysql_ctx_t E × List pinba_event),
      pinba_view___report_snapshot_t.rnd_init X ctx share_ table self = some r →
      r.2.2.2 = [] ∨
      ∃ share, ctx.share_at share_ = some share ∧
        r.2.1.share_data_ = some share.topinba_share_data_t ∧
        (r.2.2.2 = [.lock_acquire, .lock_release,
            .get_report_snapshot share.topinba_share_data_t.report_name] ∨
          ∃ ptype, r.2.2.2 = [.lock_acquire, .lock_release,
            .get_report_snapshot share.topinba_share_data_t.report_name, .prepare ptype])) ∧
    (∀ (self : pinba_view___active_reports_t)
      (r : Int × pinba_view___active_reports_t × pinba_mysql_ctx_t E × List pinba_event),
      pinba_view___active_reports_t.rnd_init X ctx self = some r →
      r.2.2.2 = [] ∨
      ∃ rows, pinba_view___active_reports_t.collect_rows ctx.shares ctx.open_shares =
          some rows ∧
        r.2.2.2 = [.lock_acquire, .lock_release] ++
          rows.map (fun row => pinba_event.get_report_state row.share_data.report_name)) := by
  have hsection : calls_under_lock false [.lock_acquire, .lock_release] = [] := rfl
  have hquiet : ∀ e ∈ [pinba_event.lock_acquire, pinba_event.lock_release],
      e.is_engine_call = false := by
    intro e he
    simp only [List.mem_cons, List.mem_singleton, List.not_mem_nil, or_false] at he
    rcases he with rfl | rfl <;> rfl
  refine ⟨?_, ?_, ?_, ?_, ?_, ?_, ?_, ?_⟩
  · intro table_name comment r h
    rcases create_trace X ctx table_name comment r h with h1 | h1
    · rw [h1]; exact ⟨rfl, fun e he => absurd he (List.not_mem_nil _)⟩
    · rw [h1]; exact ⟨hsection, hquiet⟩
  · intro self table_name r h
    rw [open_table_trace X ctx self table_name r h]
    exact ⟨hsection, hquiet⟩
  · intro from_table to_table r h
    rw [rename_table_trace ctx from_table to_table r h]
    exact ⟨hsection, hquiet⟩
  · intro self r h
    have hq : ∀ e ∈ r.2.2, e.is_registry_lock = false ∧ e.is_engine_call = false := by
      unfold pinba_handler_t.rnd_next at h
      split at h
      · exact absurd h (by simp)
      · split at h
        · exact absurd h (by simp)
        · rename_i r0 h0
          rw [← Option.some.inj h]
          exact view_rnd_next_quiet X ctx _ _ r0 h0
    exact ⟨calls_under_lock_of_no_lock _ (fun e he => (hq e he).1), fun e he => (hq e he).2⟩
  · intro self r h
    obtain ⟨sid, share, hsid, hshare⟩ := handler_rnd_init_share X ctx self r h
    have hcalls := handler_rnd_init_under_lock X ctx self sid share r hsid hshare h
    refine ⟨sid, share, hsid, hshare, hcalls, ?_, ?_⟩
    · rw [hcalls]
      split
      · cases share.report <;> simp
      · simp
    · intro e he
      unfold engine_calls_under_lock at he
      rw [hcalls] at he
      have he2 := (List.mem_filter.mp he).1
      split at he2
      · rw [List.mem_map] at he2
        obtain ⟨report, _, rfl⟩ := he2
        rfl
      · exact absurd he2 (List.not_mem_nil _)
  · intro table_name r h
    rcases delete_table_trace X ctx table_name r h with h1 | ⟨_, share, _, _, _, _, h1⟩
    · rw [h1]
      exact ⟨rfl, by simp [pinba_event.is_delete_report],
        fun e he => absurd he (List.not_mem_nil _)⟩
    · rw [h1]
      refine ⟨rfl, by simp [pinba_event.is_delete_report], ?_⟩
      intro e he
      have he2 : e ∈ [pinba_event.delete_report share.report_name] := (List.mem_filter.mp he).1
      rw [List.mem_singleton] at he2
      rw [he2]; rfl
  · intro share_ table self r h
    exact snapshot_rnd_init_calls X ctx share_ table self r h
  · intro self r h
    exact active_reports_rnd_init_calls X ctx self r h

/-- C18, counterexample. The handler's `rnd_init` on the example share, which
needs the engine and is not active, calls `add_report` between the acquire
and the release of the registry lock; and `delete_table` on the activated
example share calls `delete_report` between the acquire and the release. -/
theorem registry_lock_held_across_add_and_delete :
    (∃ r, pinba_handler_t.rnd_init example_externals example_ctx example_handler = some r ∧
      r.2.2.2 = [.lock_acquire, .add_report example_report, .lock_release,
        .lock_acquire, .lock_release, .get_report_snapshot "t1",
        .prepare .full] ∧
      engine_calls_under_lock r.2.2.2 = [.add_report example_report]) ∧
    (∃ r, pinba_handler_t.delete_table example_externals example_ctx_active "t1" = some r ∧
      r.2.2 = [.lock_acquire, .delete_report "t1", .lock_release] ∧
      engine_calls_under_lock r.2.2 = [.delete_report "t1"]) :=
  ⟨⟨_, rfl, rfl, rfl⟩, ⟨_, rfl, rfl, rfl⟩⟩

theorem registry_lock_not_held_across_fetch_witness :
    ∃ r, pinba_handler_t.rnd_init example_externals example_ctx example_handler = some r ∧
      calls_under_lock false r.2.2.2 = [.add_report example_report] ∧
      ∀ e ∈ engine_calls_under_lock r.2.2.2, e.is_add_report = true := by
  have hrun : ∃ r, pinba_handler_t.rnd_init example_externals example_ctx example_handler =
      some r := ⟨_, rfl⟩
  obtain ⟨r, hr⟩ := hrun
  obtain ⟨sid, share, hsid, hshare, hcalls, _, hadd⟩ :=
    (registry_lock_not_held_across_fetch example_externals example_ctx).2.2.2.2.1
      example_handler r hr
  have h0 : sid = 0 := (Option.some.inj hsid).symm
  subst h0
  have hs : share = example_share := (Option.some.inj hshare).symm
  subst hs
  exact ⟨r, hr, hcalls, hadd⟩
